import Mathlib

/-! ClassroomComputer: a verification development

Shallow embedding of the three demo programs of the ClassroomComputer sketch
(`sort_program.h`, `primes_program.h`, `calculator_program.h`) and proofs of
their specified properties.

Conventions of the embedding

* A C `int` array is a `List Int`; `a[i]` is `rd a i` and `a[i] = v` is
  `List.set a i v`.  An access outside the list (undefined behaviour in C)
  reads `0` and writes nothing; every theorem about the sorts carries the
  bounds that exclude it.
* Array sizes and loop indices are `Nat`.  The source declares them `int`; for
  a negative size every loop guard and the `n <= 1` test fail or return at
  once exactly as they do for size `0`.
* A pointer into an array (`a + mid`) is the array together with a base
  offset.
-/

namespace ClassroomComputer

/-! ## sort_program.h : the two sorting routines -/

/-- Array read `a[i]`. -/
def rd (a : List Int) (i : Nat) : Int := a.getD i 0

/-- Body of the inner loop of `bubbleSort`:
`if (a[j] > a[j+1]) { int t = a[j]; a[j] = a[j+1]; a[j+1] = t; }`. -/
def bubbleSwap (a : List Int) (j : Nat) : List Int :=
  if rd a j > rd a (j + 1) then
    let t := rd a j
    let a1 := a.set j (rd a (j + 1))
    a1.set (j + 1) t
  else a

/-- Inner loop of `bubbleSort`: `for (j = ..; j < n - 1 - i; j++) body`,
entered with the current value of `j`. -/
def bubbleInner (n i : Nat) (a : List Int) (j : Nat) : List Int :=
  if j < n - 1 - i then bubbleInner n i (bubbleSwap a j) (j + 1) else a
termination_by n - 1 - i - j

/-- Outer loop of `bubbleSort`: `for (i = ..; i < n - 1; i++) inner`,
entered with the current value of `i`. -/
def bubbleOuter (n : Nat) (a : List Int) (i : Nat) : List Int :=
  if i < n - 1 then bubbleOuter n (bubbleInner n i a 0) (i + 1) else a
termination_by n - 1 - i

/-- `bubbleSort(a, n)`; the result is the array after the call. -/
def bubbleSort (a : List Int) (n : Nat) : List Int := bubbleOuter n a 0

/-- First merge loop of `mergeSortHelper`:
`while (i < mid && j < n) tmp[k++] = (a[i] <= a[j]) ? a[i++] : a[j++];`
where `a` is the array based at offset `off`.  Returns `tmp`, `i`, `j`, `k`. -/
def mergeLoop1 (a : List Int) (off mid n : Nat) (tmp : List Int) (i j k : Nat) :
    List Int × Nat × Nat × Nat :=
  if i < mid ∧ j < n then
    if rd a (off + i) ≤ rd a (off + j) then
      mergeLoop1 a off mid n (tmp.set k (rd a (off + i))) (i + 1) j (k + 1)
    else
      mergeLoop1 a off mid n (tmp.set k (rd a (off + j))) i (j + 1) (k + 1)
  else (tmp, i, j, k)
termination_by (mid - i) + (n - j)

/-- Second merge loop: `while (i < mid) tmp[k++] = a[i++];`.
Returns `tmp`, `i`, `k`. -/
def mergeLoop2 (a : List Int) (off mid : Nat) (tmp : List Int) (i k : Nat) :
    List Int × Nat × Nat :=
  if i < mid then mergeLoop2 a off mid (tmp.set k (rd a (off + i))) (i + 1) (k + 1)
  else (tmp, i, k)
termination_by mid - i

/-- Third merge loop: `while (j < n) tmp[k++] = a[j++];`.
Returns `tmp`, `j`, `k`. -/
def mergeLoop3 (a : List Int) (off n : Nat) (tmp : List Int) (j k : Nat) :
    List Int × Nat × Nat :=
  if j < n then mergeLoop3 a off n (tmp.set k (rd a (off + j))) (j + 1) (k + 1)
  else (tmp, j, k)
termination_by n - j

/-- Copy-back loop: `for (x = ..; x < n; x++) a[x] = tmp[x];`, entered with the
current value of `x`. -/
def mergeCopyBack (off n : Nat) (tmp : List Int) (a : List Int) (x : Nat) : List Int :=
  if x < n then mergeCopyBack off n tmp (a.set (off + x) (rd tmp x)) (x + 1) else a
termination_by n - x

/-- `mergeSortHelper(a + off, tmp, n)` on the memory `a`; the result is the
pair of the array and the temporary buffer after the call. -/
def mergeSortHelper (a : List Int) (off : Nat) (tmp : List Int) (n : Nat) :
    List Int × List Int :=
  if n ≤ 1 then (a, tmp)
  else
    let mid := n / 2
    let r1 := mergeSortHelper a off tmp mid
    let r2 := mergeSortHelper r1.1 (off + mid) r1.2 (n - mid)
    let l1 := mergeLoop1 r2.1 off mid n r2.2 0 mid 0
    let l2 := mergeLoop2 r2.1 off mid l1.1 l1.2.1 l1.2.2.2
    let l3 := mergeLoop3 r2.1 off n l2.1 l1.2.2.1 l2.2.2
    (mergeCopyBack off n l3.1 r2.1 0, l3.1)
termination_by n
decreasing_by
  all_goals simp_wf
  all_goals omega

/-- One bubble pass of `m` comparisons, on the list itself (proof device). -/
def bubblePass : Nat → List Int → List Int
  | 0, l => l
  | m + 1, x :: y :: s =>
      if x > y then y :: bubblePass m (x :: s) else x :: bubblePass m (y :: s)
  | _ + 1, l => l

/-- The three merge loops run one after the other, from the loop state
`(tmp, i, j, k)`; the value is the final `tmp` (proof device). -/
def mergeLoops (a : List Int) (off mid n : Nat) (tmp : List Int) (i j k : Nat) : List Int :=
  let l1 := mergeLoop1 a off mid n tmp i j k
  let l2 := mergeLoop2 a off mid l1.1 l1.2.1 l1.2.2.2
  let l3 := mergeLoop3 a off n l2.1 l1.2.2.1 l2.2.2
  l3.1

/-! ## The sketch state shared by the three programs

`unsigned long` is 32 bits wide on the Arduino targets: its arithmetic is
arithmetic modulo `ULONG_MOD`.  An `int` is an `Int`; the theorems carry the
ranges in which no signed overflow (undefined in C) occurs. -/

/-- Number of values of an `unsigned long` (32 bits). -/
def ULONG_MOD : Nat := 4294967296

/-- Unsigned subtraction `a - b` of two `unsigned long`. -/
def usub (a b : Nat) : Nat := (a % ULONG_MOD + ULONG_MOD - b % ULONG_MOD) % ULONG_MOD

/-- Unsigned addition `a + b` of two `unsigned long`. -/
def uadd (a b : Nat) : Nat := (a + b) % ULONG_MOD

/-- Modelled from the spec: `map` of the Arduino core, which is not part of
src/.  The spec asks for a pure linear re-mapping of the raw range onto the
domain range; this is the integer formula of the core,
`(x - in_min) * (out_max - out_min) / (in_max - in_min) + out_min`,
with the truncating division of C. -/
def map (x in_min in_max out_min out_max : Int) : Int :=
  Int.tdiv ((x - in_min) * (out_max - out_min)) (in_max - in_min) + out_min

/-- `enum CalcState`. -/
inductive CalcState
  | CALC_TITLE
  | CALC_INTRO
  | CALC_SELECT_A_INTRO
  | CALC_SELECT_A
  | CALC_SELECT_B_INTRO
  | CALC_SELECT_B
  | CALC_SELECT_OP_INTRO
  | CALC_SELECT_OP
  | CALC_RESULT
  deriving DecidableEq

/-- `enum PrimesState`. -/
inductive PrimesState
  | PRIMES_TITLE
  | PRIMES_INTRO_1
  | PRIMES_INTRO_2
  | PRIMES_SHOW_N
  | PRIMES_CALCULATING
  | PRIMES_RESULT
  deriving DecidableEq

/-- `enum SortTestState`. -/
inductive SortTestState
  | SORT_TITLE
  | SORT_QUESTION
  | SORT_SELECT_SIZE
  | SORT_SHOW_N
  | SORT_CONFIRM_N
  | SORT_RUNNING
  | SORT_RESULTS
  | SORT_WINNER
  deriving DecidableEq

/-- The two backlight colours `COL_PINK` and `COL_GREEN` (declared in the main
sketch). -/
inductive Color
  | pink
  | green
  deriving DecidableEq

/-- A `float` value of the calculator, kept symbolic: the initial `0.0`, or the
floating-point sum, difference, product or quotient of two converted `int`
operands.  The embedding does not interpret floating-point arithmetic. -/
inductive FloatVal
  | zero
  | add (a b : Int)
  | sub (a b : Int)
  | mul (a b : Int)
  | div (a b : Int)
  deriving DecidableEq

/-- One call of the display driver `lcd`.  `createChar slot frame` uploads the
glyph `celebFrame0`, `celebFrame1` or `celebFrame2`, named by its index. -/
inductive LcdOp
  | setCursor (col row : Int)
  | printStr (s : String)
  | printChars (s : List Char)
  | printInt (n : Int)
  | printULong (n : Nat)
  | printChar (c : Char)
  | write (b : Nat)
  | createChar (slot : Nat) (frame : Int)
  | setRGB (c : Color)
  | clear
  deriving DecidableEq

/-- The two readings of the clock taken by one call of an `enterState` routine:
`r1` is returned by the first `millis()` and `r2` by the second. -/
structure ClockReads where
  r1 : Nat
  r2 : Nat
  deriving DecidableEq

/-- All variables of the sketch that the three programs read or write: the
shared ones declared `extern`, the file-scope statics of each program, the
function-local static `computed`, the log of display calls (oldest first) and
the log of the arguments of `enterAppState` calls (oldest first). -/
structure Machine where
  stateEnteredAt : Nat
  scrollOffset : Int
  scrollTickAt : Nat
  potHasMoved : Bool
  potValue : Int
  remappedPotValue : Int
  potLastMovedAt : Nat
  celebFrameIdx : Int
  celebTickAt : Nat
  lcd : List LcdOp
  appCalls : List Int
  calcState : CalcState
  calcA : Int
  calcB : Int
  calcOp : Char
  calcResult : FloatVal
  computed : Bool
  primesState : PrimesState
  primesN : Int
  primesResult : Nat
  sortState : SortTestState
  confirmedN : Int
  bubbleDuration : Nat
  mergeDuration : Nat
  sortBuf : List Int
  mergeTmp : List Int
  deriving DecidableEq

/-- A run of display calls. -/
def lcdDo (m : Machine) (ops : List LcdOp) : Machine := { m with lcd := m.lcd ++ ops }

/-- Modelled from the spec: `enterAppState(nextState)` is defined in the main
sketch, which is not part of src/.  The spec describes the hand-back as a
single call that returns control to program selection, the automaton being
reset to its title state only when it is entered again; the call is recorded
and changes nothing else. -/
def enterAppState (m : Machine) (nextState : Int) : Machine :=
  { m with appCalls := m.appCalls ++ [nextState] }

/-- What one call of `tickScroll` does: the new scroll offset, the new scroll
tick time and the display calls it makes. -/
structure ScrollStep where
  scrollOffset : Int
  scrollTickAt : Nat
  ops : List LcdOp

/-- Modelled from the spec: the parts of the main sketch, not part of src/, that
`handlePrimesResult` uses.  `SCROLL_START_DELAY` is the initial hold of a
scrolled line.  `tickScroll m str row now wrapGap loop` is the scrolling text
renderer called on the machine `m`; by the spec it keeps an offset and a tick
time, reset on state entry, and draws a window of the string, so its effect is
a `ScrollStep`. -/
structure Sketch where
  SCROLL_START_DELAY : Nat
  tickScroll : Machine → List Char → Nat → Nat → Int → Bool → ScrollStep

/-- The effect of a `tickScroll` call on the machine. -/
def applyScroll (m : Machine) (s : ScrollStep) : Machine :=
  { lcdDo m s.ops with scrollOffset := s.scrollOffset, scrollTickAt := s.scrollTickAt }

/-- The state a machine is in when the sketch starts, as far as the three
program files fix it: their static initialisers.  The shared variables are
initialised in the main sketch and are left open. -/
def Machine.programsInitial (m : Machine) : Prop :=
  m.calcState = CalcState.CALC_TITLE ∧ m.calcA = 1 ∧ m.calcB = 1 ∧ m.calcOp = '+' ∧
  m.calcResult = FloatVal.zero ∧ m.computed = false ∧
  m.primesState = PrimesState.PRIMES_TITLE ∧ m.primesN = 500 ∧ m.primesResult = 0 ∧
  m.sortState = SortTestState.SORT_TITLE ∧ m.confirmedN = 10 ∧
  m.bubbleDuration = 0 ∧ m.mergeDuration = 0 ∧
  m.sortBuf = List.replicate 500 0 ∧ m.mergeTmp = List.replicate 500 0

/-- A machine with the static initialisers of the three programs and zeroed
shared variables. -/
def machine0 : Machine :=
  { stateEnteredAt := 0, scrollOffset := 0, scrollTickAt := 0, potHasMoved := false,
    potValue := 0, remappedPotValue := 0, potLastMovedAt := 0, celebFrameIdx := 0,
    celebTickAt := 0, lcd := [], appCalls := [],
    calcState := CalcState.CALC_TITLE, calcA := 1, calcB := 1, calcOp := '+',
    calcResult := FloatVal.zero, computed := false,
    primesState := PrimesState.PRIMES_TITLE, primesN := 500, primesResult := 0,
    sortState := SortTestState.SORT_TITLE, confirmedN := 10,
    bubbleDuration := 0, mergeDuration := 0,
    sortBuf := List.replicate 500 0, mergeTmp := List.replicate 500 0 }

/-! ## primes_program.h

A loop whose termination depends on the data is run on a fuel counter and
yields `none` when the fuel is used up. -/

/-- The `for` loop of `isPrime`, entered with the current value of `i`:
`for (i = ..; i * i <= n; i += 2) { if (n % i == 0) return false; }`
followed by `return true`. -/
def isPrimeLoop (n : Nat) : Nat → Nat → Option Bool
  | 0, _ => none
  | fuel + 1, i =>
    if (i * i) % ULONG_MOD ≤ n then
      if n % i = 0 then some false
      else isPrimeLoop n fuel ((i + 2) % ULONG_MOD)
    else some true

/-- `isPrime(n)`.  The loop is given `n` units of fuel, which it never uses up
(`isPrime_returns`). -/
def isPrime (n : Nat) : Option Bool :=
  if n < 2 then some false
  else if n = 2 then some true
  else if n % 2 = 0 then some false
  else isPrimeLoop n n 3

/-- Whether the loop of `isPrime`, entered at `i`, evaluates a product `i * i`
that does not fit an `unsigned long`.  Up to the first such product the
machine values are the exact ones, so the loop is followed in exact
arithmetic. -/
def isPrimeLoopOverflows (n : Nat) : Nat → Nat → Bool
  | 0, _ => false
  | fuel + 1, i =>
    if ULONG_MOD ≤ i * i then true
    else if i * i ≤ n then
      if n % i = 0 then false
      else isPrimeLoopOverflows n fuel (i + 2)
    else false

/-- Whether `isPrime(n)` evaluates a product `i * i` that overflows. -/
def isPrimeOverflows (n : Nat) : Bool :=
  if n < 2 then false
  else if n = 2 then false
  else if n % 2 = 0 then false
  else isPrimeLoopOverflows n n 3

/-- C remainder and `abs` of an `int`. -/
def cAbs (n : Int) : Int := if n < 0 then -n else n

/-- `ordinalSuffix(n)`. -/
def ordinalSuffix (n : Int) : String :=
  let mod100 := Int.tmod (cAbs n) 100
  if mod100 ≥ 11 ∧ mod100 ≤ 13 then "th"
  else if Int.tmod (cAbs n) 10 = 1 then "st"
  else if Int.tmod (cAbs n) 10 = 2 then "nd"
  else if Int.tmod (cAbs n) 10 = 3 then "rd"
  else "th"

/-- The search loop of `handlePrimesCalculating`, entered with the current
values of `count` and `candidate`; `N` is `(unsigned long)primesN`:
`while (count < N) { if (isPrime(candidate)) count++;
                     if (count < N) candidate += 2; }`.
The value is `candidate` at loop exit. -/
def primesSearch (N : Nat) : Nat → Nat → Nat → Option Nat
  | 0, _, _ => none
  | fuel + 1, count, candidate =>
    if count < N then
      match isPrime candidate with
      | none => none
      | some b =>
        let count1 := if b then (count + 1) % ULONG_MOD else count
        let candidate1 := if count1 < N then (candidate + 2) % ULONG_MOD else candidate
        primesSearch N fuel count1 candidate1
    else some candidate

/-- `enterPrimesState(next)`; `ms` holds the two clock readings. -/
def enterPrimesState (m : Machine) (next : PrimesState) (ms : ClockReads) : Machine :=
  let m1 := { m with primesState := next, stateEnteredAt := ms.r1, scrollOffset := 0,
                     scrollTickAt := ms.r2, potHasMoved := false }
  let m2 :=
    if next = PrimesState.PRIMES_CALCULATING ∨ next = PrimesState.PRIMES_RESULT then
      lcdDo m1 [LcdOp.setRGB Color.green]
    else lcdDo m1 [LcdOp.setRGB Color.pink]
  lcdDo m2 [LcdOp.clear]

/-- `handlePrimesShowN(now)`. -/
def handlePrimesShowN (m : Machine) (now : Nat) (ms : ClockReads) : Machine :=
  let n := map m.potValue 0 1023 30000 100000
  let m1 := lcdDo m [LcdOp.setCursor 0 0, LcdOp.printStr "N = ", LcdOp.printInt n,
    LcdOp.printStr "      "]
  if m1.potHasMoved ∧ usub now m1.potLastMovedAt ≥ 1500 then
    enterPrimesState { m1 with primesN := n } PrimesState.PRIMES_CALCULATING ms
  else m1

/-- The conversion `(unsigned long)primesN`. -/
def toULong (n : Int) : Nat := (n % (ULONG_MOD : Int)).toNat

/-- `handlePrimesCalculating(now)`; `fuel` bounds the number of evaluations of
the guard of the search loop. -/
def handlePrimesCalculating (fuel : Nat) (m : Machine) (_now : Nat) (ms : ClockReads) :
    Option Machine :=
  let m1 := lcdDo m [LcdOp.setCursor 0 0,
    LcdOp.printStr "Calc'ing the 1st",
    LcdOp.setCursor 0 1, LcdOp.printInt m.primesN, LcdOp.printStr " primes"]
  match primesSearch (toULong m1.primesN) fuel 1 3 with
  | none => none
  | some candidate =>
    let m2 := { m1 with primesResult := if m1.primesN = 1 then 2 else candidate }
    some (enterPrimesState m2 PrimesState.PRIMES_RESULT ms)

/-- `handlePrimesTitle(now)`. -/
def handlePrimesTitle (m : Machine) (now : Nat) (ms : ClockReads) : Machine :=
  let m1 := lcdDo m [LcdOp.setCursor 0 0, LcdOp.printStr "Calculate Primes"]
  if usub now m1.stateEnteredAt ≥ 1000 then
    enterPrimesState m1 PrimesState.PRIMES_INTRO_1 ms
  else m1

/-- `handlePrimesIntro1(now)`. -/
def handlePrimesIntro1 (m : Machine) (now : Nat) (ms : ClockReads) : Machine :=
  let m1 := lcdDo m [LcdOp.setCursor 0 0, LcdOp.printStr "Choose the # of",
    LcdOp.setCursor 0 1, LcdOp.printStr "primes calc'd"]
  if usub now m1.stateEnteredAt ≥ 1500 then
    enterPrimesState m1 PrimesState.PRIMES_INTRO_2 ms
  else m1

/-- `handlePrimesIntro2(now)`. -/
def handlePrimesIntro2 (m : Machine) (now : Nat) (ms : ClockReads) : Machine :=
  let m1 := lcdDo m [LcdOp.setCursor 0 0, LcdOp.printStr "Move slider to",
    LcdOp.setCursor 0 1, LcdOp.printStr "specify the #"]
  if usub now m1.stateEnteredAt ≥ 1500 then
    enterPrimesState m1 PrimesState.PRIMES_SHOW_N ms
  else m1

/-- The characters `printf` writes for `%d`. -/
def intDecimal (n : Int) : List Char :=
  if n < 0 then '-' :: Nat.toDigits 10 n.natAbs else Nat.toDigits 10 n.toNat

/-- `handlePrimesResult(now)`.  `snprintf(buf, size, ..)` keeps the first
`size - 1` characters of the formatted text. -/
def handlePrimesResult (sk : Sketch) (m : Machine) (now : Nat) : Machine :=
  let topLine := ("The ".toList ++ intDecimal m.primesN ++ (ordinalSuffix m.primesN).toList
    ++ " prime".toList).take 31
  let topLen := topLine.length
  let m1 :=
    if topLen ≤ 16 then lcdDo m [LcdOp.setCursor 0 0, LcdOp.printChars topLine]
    else if usub now m.stateEnteredAt < sk.SCROLL_START_DELAY then
      lcdDo m (LcdOp.setCursor 0 0 :: (topLine.take 16).map (fun c => LcdOp.write c.toNat))
    else applyScroll m (sk.tickScroll m topLine 0 now 4 true)
  let botText := ("is ".toList ++ Nat.toDigits 10 m1.primesResult ++ " ".toList).take 15
  let celebCol := botText.length
  let m2 := lcdDo m1 [LcdOp.setCursor 0 1, LcdOp.printChars botText]
  let m3 :=
    if m2.celebTickAt < m2.stateEnteredAt then
      { lcdDo m2 [LcdOp.createChar 0 0] with
        celebFrameIdx := 0, celebTickAt := uadd m2.stateEnteredAt 200 }
    else m2
  let m4 :=
    if now ≥ m3.celebTickAt then
      let idx := Int.tmod (m3.celebFrameIdx + 1) 3
      { lcdDo m3 [LcdOp.createChar 0 idx] with
        celebFrameIdx := idx, celebTickAt := uadd now 200 }
    else m3
  let m5 := lcdDo m4 [LcdOp.setCursor celebCol 1, LcdOp.write 0]
  if usub now m5.stateEnteredAt ≥ 4500 then enterAppState m5 1
  else m5

/-- `handlePrimes(now)`; `fuel` is the fuel of the search loop. -/
def handlePrimes (sk : Sketch) (fuel : Nat) (m : Machine) (now : Nat) (ms : ClockReads) :
    Option Machine :=
  match m.primesState with
  | PrimesState.PRIMES_TITLE => some (handlePrimesTitle m now ms)
  | PrimesState.PRIMES_INTRO_1 => some (handlePrimesIntro1 m now ms)
  | PrimesState.PRIMES_INTRO_2 => some (handlePrimesIntro2 m now ms)
  | PrimesState.PRIMES_SHOW_N => some (handlePrimesShowN m now ms)
  | PrimesState.PRIMES_CALCULATING => handlePrimesCalculating fuel m now ms
  | PrimesState.PRIMES_RESULT => some (handlePrimesResult sk m now)

/-! ## calculator_program.h -/

/-- `mapPotToOp(pot)`. -/
def mapPotToOp (pot : Int) : Char :=
  if pot < 256 then '+'
  else if pot < 512 then '-'
  else if pot < 768 then '*'
  else '/'

/-- The raw readings `0..1023` that `mapPotToOp` sends to the operator `c`. -/
def potsOf (c : Char) : List Nat := (List.range 1024).filter (fun p => mapPotToOp (p : Int) = c)

/-- `enterCalcState(next)`; `ms` holds the two clock readings. -/
def enterCalcState (m : Machine) (next : CalcState) (ms : ClockReads) : Machine :=
  let m1 := { m with calcState := next, stateEnteredAt := ms.r1, scrollOffset := 0,
                     scrollTickAt := ms.r2, potHasMoved := false }
  let m2 :=
    if next = CalcState.CALC_RESULT then lcdDo m1 [LcdOp.setRGB Color.green]
    else lcdDo m1 [LcdOp.setRGB Color.pink]
  lcdDo m2 [LcdOp.clear]

/-- `handleCalcTitle(now)`. -/
def handleCalcTitle (m : Machine) (now : Nat) (ms : ClockReads) : Machine :=
  let m1 := lcdDo m [LcdOp.setCursor 0 0, LcdOp.printStr "Calculator",
    LcdOp.setCursor 0 1, LcdOp.printStr "Program"]
  if usub now m1.stateEnteredAt ≥ 1000 then enterCalcState m1 CalcState.CALC_INTRO ms
  else m1

/-- `handleCalcIntro(now)`. -/
def handleCalcIntro (m : Machine) (now : Nat) (ms : ClockReads) : Machine :=
  let m1 := lcdDo m [LcdOp.setCursor 0 0, LcdOp.printStr "Select two #s to",
    LcdOp.setCursor 0 1, LcdOp.printStr "+, -, *, or /"]
  if usub now m1.stateEnteredAt ≥ 2000 then
    enterCalcState m1 CalcState.CALC_SELECT_A_INTRO ms
  else m1

/-- `handleCalcSelectAIntro(now)`. -/
def handleCalcSelectAIntro (m : Machine) (now : Nat) (ms : ClockReads) : Machine :=
  let m1 := lcdDo m [LcdOp.setCursor 0 0, LcdOp.printStr "Move slider to",
    LcdOp.setCursor 0 1, LcdOp.printStr "select 1st #"]
  if usub now m1.stateEnteredAt ≥ 1200 then enterCalcState m1 CalcState.CALC_SELECT_A ms
  else m1

/-- `handleCalcSelectA(now)`. -/
def handleCalcSelectA (m : Machine) (now : Nat) (ms : ClockReads) : Machine :=
  let displayValue := map m.potValue 0 1023 1 1000
  let m1 := lcdDo m [LcdOp.setCursor 0 0, LcdOp.printStr "A = ", LcdOp.printInt displayValue,
    LcdOp.printStr "     "]
  if m1.potHasMoved ∧ usub now m1.potLastMovedAt ≥ 1300 then
    enterCalcState { m1 with calcA := displayValue } CalcState.CALC_SELECT_B_INTRO ms
  else m1

/-- `handleCalcSelectBIntro(now)`. -/
def handleCalcSelectBIntro (m : Machine) (now : Nat) (ms : ClockReads) : Machine :=
  let m1 := lcdDo m [LcdOp.setCursor 0 0, LcdOp.printStr "Move slider to",
    LcdOp.setCursor 0 1, LcdOp.printStr "select 2nd #"]
  if usub now m1.stateEnteredAt ≥ 1200 then enterCalcState m1 CalcState.CALC_SELECT_B ms
  else m1

/-- `handleCalcSelectB(now)`. -/
def handleCalcSelectB (m : Machine) (now : Nat) (ms : ClockReads) : Machine :=
  let displayValue := map m.potValue 0 1023 1 1000
  let m1 := lcdDo m [LcdOp.setCursor 0 0, LcdOp.printStr "B = ", LcdOp.printInt displayValue,
    LcdOp.printStr "     "]
  if m1.potHasMoved ∧ usub now m1.potLastMovedAt ≥ 1300 then
    enterCalcState { m1 with calcB := displayValue } CalcState.CALC_SELECT_OP_INTRO ms
  else m1

/-- `handleCalcSelectOpIntro(now)`. -/
def handleCalcSelectOpIntro (m : Machine) (now : Nat) (ms : ClockReads) : Machine :=
  let m1 := lcdDo m [LcdOp.setCursor 0 0, LcdOp.printStr "Move slider to",
    LcdOp.setCursor 0 1, LcdOp.printStr "select operation"]
  if usub now m1.stateEnteredAt ≥ 1200 then enterCalcState m1 CalcState.CALC_SELECT_OP ms
  else m1

/-- `handleCalcSelectOp(now)`. -/
def handleCalcSelectOp (m : Machine) (now : Nat) (ms : ClockReads) : Machine :=
  let op := mapPotToOp m.potValue
  let m1 := lcdDo m [LcdOp.setCursor 0 0, LcdOp.printStr "       ", LcdOp.printChar op,
    LcdOp.printStr "        "]
  if m1.potHasMoved ∧ usub now m1.potLastMovedAt ≥ 1300 then
    enterCalcState { m1 with calcOp := op } CalcState.CALC_RESULT ms
  else m1

/-- The `switch (calcOp)` of `handleCalcResult`: the new value of `calcResult`.
There is no `default` case: another operator leaves it unchanged. -/
def calcCompute (m : Machine) : FloatVal :=
  if m.calcOp = '+' then FloatVal.add m.calcA m.calcB
  else if m.calcOp = '-' then FloatVal.sub m.calcA m.calcB
  else if m.calcOp = '*' then FloatVal.mul m.calcA m.calcB
  else if m.calcOp = '/' then FloatVal.div m.calcA m.calcB
  else m.calcResult

/-- The terminating byte of a C string. -/
def NUL : Char := Char.ofNat 0

/-- `strlen(buf)`: the number of bytes before the first `NUL`. -/
def strlen (buf : List Char) : Nat := (buf.takeWhile (fun c => c ≠ NUL)).length

/-- The C string held in `buf`: the bytes before the first `NUL`. -/
def cString (buf : List Char) : List Char := buf.takeWhile (fun c => c ≠ NUL)

/-- The buffer `char resultStr[20]` after `dtostrf(calcResult, 0, 2, resultStr)`
when `dtostrf` produces the characters `s`: `s`, the terminating `NUL`, and
the rest of the 20 bytes, which are indeterminate in C and never read before
they are written; they are modelled as `NUL`. -/
def resultBuffer (s : List Char) : List Char :=
  s ++ [NUL] ++ List.replicate (20 - (s.length + 1)) NUL

/-- The truncation of `handleCalcResult`:
`if (len > 13) { resultStr[13] = resultStr[14] = resultStr[15] = the dot;
resultStr[16] = NUL; }`. -/
def truncateResult (buf : List Char) : List Char :=
  let len := strlen buf
  if len > 13 then (((buf.set 13 '.').set 14 '.').set 15 '.').set 16 NUL
  else buf

/-- `handleCalcResult(now)`.  `dtostrf v` stands for the characters that
`dtostrf(v, 0, 2, resultStr)` of the C library writes for the value `v`. -/
def handleCalcResult (dtostrf : FloatVal → List Char) (m : Machine) (now : Nat) : Machine :=
  let m1 :=
    if m.computed = false ∨ usub now m.stateEnteredAt < 10 then
      { m with computed := true, calcResult := calcCompute m }
    else m
  let m2 := lcdDo m1 [LcdOp.setCursor 0 0, LcdOp.printInt m1.calcA, LcdOp.printStr " ",
    LcdOp.printChar m1.calcOp, LcdOp.printStr " ", LcdOp.printInt m1.calcB,
    LcdOp.printStr " =", LcdOp.printStr "        ", LcdOp.setCursor 0 1]
  let resultStr := truncateResult (resultBuffer (dtostrf m2.calcResult))
  let m3 := lcdDo m2 [LcdOp.printChars (cString resultStr), LcdOp.printStr " "]
  let m4 :=
    if m3.celebTickAt < m3.stateEnteredAt then
      { lcdDo m3 [LcdOp.createChar 0 0] with
        celebFrameIdx := 0, celebTickAt := uadd m3.stateEnteredAt 200 }
    else m3
  let m5 :=
    if now ≥ m4.celebTickAt then
      let idx := Int.tmod (m4.celebFrameIdx + 1) 3
      { lcdDo m4 [LcdOp.createChar 0 idx] with
        celebFrameIdx := idx, celebTickAt := uadd now 200 }
    else m4
  let m6 := lcdDo m5 [LcdOp.write 0]
  if usub now m6.stateEnteredAt ≥ 5000 then enterAppState { m6 with computed := false } 1
  else m6

/-- `handleCalculator(now)`. -/
def handleCalculator (dtostrf : FloatVal → List Char) (m : Machine) (now : Nat)
    (ms : ClockReads) : Machine :=
  match m.calcState with
  | CalcState.CALC_TITLE => handleCalcTitle m now ms
  | CalcState.CALC_INTRO => handleCalcIntro m now ms
  | CalcState.CALC_SELECT_A_INTRO => handleCalcSelectAIntro m now ms
  | CalcState.CALC_SELECT_A => handleCalcSelectA m now ms
  | CalcState.CALC_SELECT_B_INTRO => handleCalcSelectBIntro m now ms
  | CalcState.CALC_SELECT_B => handleCalcSelectB m now ms
  | CalcState.CALC_SELECT_OP_INTRO => handleCalcSelectOpIntro m now ms
  | CalcState.CALC_SELECT_OP => handleCalcSelectOp m now ms
  | CalcState.CALC_RESULT => handleCalcResult dtostrf m now

/-- What the shell does between two ticks: it samples the slider and stores the
raw reading, the derived value, the moved flag and the time of the last
movement.  The sampling code is in the main sketch; any outcome is allowed. -/
def samplePot (m : Machine) (potValue remapped : Int) (moved : Bool) (lastMovedAt : Nat) :
    Machine :=
  { m with potValue := potValue, remappedPotValue := remapped, potHasMoved := moved,
           potLastMovedAt := lastMovedAt }

/-- The machines the calculator can be in: a machine with the calculator in
its initial state, then any number of polling iterations, each one a slider
sample with a raw reading in `0..1023` followed by a `handleCalculator` tick;
the shell may also start a new run with `enterCalcState(CALC_TITLE)`. -/
inductive CalcReachable (dtostrf : FloatVal → List Char) : Machine → Prop
  | init (m : Machine) (hs : m.calcState = CalcState.CALC_TITLE) (ha : m.calcA = 1)
      (hb : m.calcB = 1) : CalcReachable dtostrf m
  | tick (m : Machine) (pot remapped : Int) (moved : Bool) (lastMovedAt now : Nat)
      (ms : ClockReads) (h : CalcReachable dtostrf m) (hlo : 0 ≤ pot) (hhi : pot ≤ 1023) :
      CalcReachable dtostrf
        (handleCalculator dtostrf (samplePot m pot remapped moved lastMovedAt) now ms)
  | restart (m : Machine) (ms : ClockReads) (h : CalcReachable dtostrf m) :
      CalcReachable dtostrf (enterCalcState m CalcState.CALC_TITLE ms)

/-! ## sort_program.h : the automaton -/

/-- `enterSortState(next)`; `ms` holds the two clock readings. -/
def enterSortState (m : Machine) (next : SortTestState) (ms : ClockReads) : Machine :=
  let m1 := { m with sortState := next, stateEnteredAt := ms.r1, scrollOffset := 0,
                     scrollTickAt := ms.r2, potHasMoved := false }
  let m2 :=
    if next = SortTestState.SORT_RUNNING then lcdDo m1 [LcdOp.setRGB Color.green]
    else lcdDo m1 [LcdOp.setRGB Color.pink]
  lcdDo m2 [LcdOp.clear]

/-- What `handleSortRunning` reads from its environment: the values returned by
the calls of `random(10000)` in the first and in the second fill loop, by
position, and the four readings of `micros()`. -/
structure SortEnv where
  random1 : Nat → Int
  random2 : Nat → Int
  t0 : Nat
  t1 : Nat
  t2 : Nat
  t3 : Nat

/-- `handleSortTitle(now)`. -/
def handleSortTitle (m : Machine) (now : Nat) (ms : ClockReads) : Machine :=
  let m1 := lcdDo m [LcdOp.setCursor 0 0, LcdOp.printStr "Sort Test"]
  if usub now m1.stateEnteredAt ≥ 1750 then enterSortState m1 SortTestState.SORT_QUESTION ms
  else m1

/-- `handleSortQuestion(now)`. -/
def handleSortQuestion (m : Machine) (now : Nat) (ms : ClockReads) : Machine :=
  let m1 := lcdDo m [LcdOp.setCursor 0 0, LcdOp.printStr "Bubble or merge:",
    LcdOp.setCursor 0 1, LcdOp.printStr "which is faster?"]
  if usub now m1.stateEnteredAt ≥ 2000 then
    enterSortState m1 SortTestState.SORT_SELECT_SIZE ms
  else m1

/-- `handleSortSelectSize(now)`. -/
def handleSortSelectSize (m : Machine) (_now : Nat) (ms : ClockReads) : Machine :=
  let m1 := lcdDo m [LcdOp.setCursor 0 0, LcdOp.printStr "Move slider to",
    LcdOp.setCursor 0 1, LcdOp.printStr "select prob size"]
  if m1.potHasMoved then enterSortState m1 SortTestState.SORT_SHOW_N ms
  else m1

/-- `handleSortShowN(now)`. -/
def handleSortShowN (m : Machine) (now : Nat) (ms : ClockReads) : Machine :=
  let m1 := lcdDo m [LcdOp.setCursor 0 0, LcdOp.printStr "N = ",
    LcdOp.printInt m.remappedPotValue, LcdOp.printStr "     "]
  if m1.potHasMoved ∧ usub now m1.potLastMovedAt ≥ 1300 then
    enterSortState { m1 with confirmedN := m1.remappedPotValue }
      SortTestState.SORT_CONFIRM_N ms
  else m1

/-- `handleSortConfirmN(now)`. -/
def handleSortConfirmN (m : Machine) (now : Nat) (ms : ClockReads) : Machine :=
  let m1 := lcdDo m [LcdOp.setCursor 0 0, LcdOp.printStr "Starting sort",
    LcdOp.setCursor 0 1, LcdOp.printStr "for N = ", LcdOp.printInt m.confirmedN,
    LcdOp.printStr "     "]
  if usub now m1.stateEnteredAt ≥ 1300 then enterSortState m1 SortTestState.SORT_RUNNING ms
  else m1

/-- The fill loop of `handleSortRunning`, entered with the current value of
`i`: `for (i = ..; i < confirmedN; i++) sortBuf[i] = random(10000);`. -/
def sortFill (random : Nat → Int) (n : Nat) (buf : List Int) (i : Nat) : List Int :=
  if i < n then sortFill random n (buf.set i (random i)) (i + 1) else buf
termination_by n - i

/-- `handleSortRunning(now)`. -/
def handleSortRunning (env : SortEnv) (m : Machine) (_now : Nat) (ms : ClockReads) : Machine :=
  let m1 := lcdDo m [LcdOp.setCursor 0 0, LcdOp.printStr "Bubble = X ", LcdOp.write 1,
    LcdOp.printStr "s...", LcdOp.setCursor 0 1, LcdOp.printStr "Merge = Y ", LcdOp.write 1,
    LcdOp.printStr "s..."]
  let n := m1.confirmedN.toNat
  let buf1 := sortFill env.random1 n m1.sortBuf 0
  let buf2 := bubbleSort buf1 n
  let m2 := { m1 with sortBuf := buf2, bubbleDuration := usub env.t1 env.t0 }
  let buf3 := sortFill env.random2 n m2.sortBuf 0
  let r := mergeSortHelper buf3 0 m2.mergeTmp n
  let m3 := { m2 with sortBuf := r.1, mergeTmp := r.2, mergeDuration := usub env.t3 env.t2 }
  enterSortState m3 SortTestState.SORT_RESULTS ms

/-- `handleSortResults(now)`. -/
def handleSortResults (m : Machine) (now : Nat) (ms : ClockReads) : Machine :=
  let m1 := lcdDo m [LcdOp.setCursor 0 0, LcdOp.printStr "Bubble = ",
    LcdOp.printULong m.bubbleDuration, LcdOp.printStr " ", LcdOp.write 1,
    LcdOp.printStr "s     ", LcdOp.setCursor 0 1, LcdOp.printStr "Merge  = ",
    LcdOp.printULong m.mergeDuration, LcdOp.printStr " ", LcdOp.write 1,
    LcdOp.printStr "s     "]
  if usub now m1.stateEnteredAt ≥ 3500 then enterSortState m1 SortTestState.SORT_WINNER ms
  else m1

/-- `handleSortWinner(now)`. -/
def handleSortWinner (m : Machine) (now : Nat) : Machine :=
  let m1 :=
    if m.celebTickAt < m.stateEnteredAt then
      { lcdDo m [LcdOp.createChar 0 0, LcdOp.setCursor 0 0, LcdOp.printStr "Merge sort is",
          LcdOp.setCursor 0 1, LcdOp.printStr "the winner! "] with
        celebFrameIdx := 0, celebTickAt := uadd m.stateEnteredAt 200 }
    else m
  let m2 :=
    if now ≥ m1.celebTickAt then
      let idx := Int.tmod (m1.celebFrameIdx + 1) 3
      { lcdDo m1 [LcdOp.createChar 0 idx] with
        celebFrameIdx := idx, celebTickAt := uadd now 200 }
    else m1
  let m3 := lcdDo m2 [LcdOp.setCursor 12 1, LcdOp.write 0]
  if usub now m3.stateEnteredAt ≥ 3600 then enterAppState m3 1
  else m3

/-- `handleSortTest(now)`. -/
def handleSortTest (env : SortEnv) (m : Machine) (now : Nat) (ms : ClockReads) : Machine :=
  match m.sortState with
  | SortTestState.SORT_TITLE => handleSortTitle m now ms
  | SortTestState.SORT_QUESTION => handleSortQuestion m now ms
  | SortTestState.SORT_SELECT_SIZE => handleSortSelectSize m now ms
  | SortTestState.SORT_SHOW_N => handleSortShowN m now ms
  | SortTestState.SORT_CONFIRM_N => handleSortConfirmN m now ms
  | SortTestState.SORT_RUNNING => handleSortRunning env m now ms
  | SortTestState.SORT_RESULTS => handleSortResults m now ms
  | SortTestState.SORT_WINNER => handleSortWinner m now

/-! ## The steps of the three result handlers

The bodies of `handleCalcResult`, `handlePrimesResult` and `handleSortWinner`
are chains of steps; each step is named here, and the handlers are shown
equal to the chains (`handleCalcResult_steps`, `handlePrimesResult_steps`,
`handleSortWinner_steps`).  These are devices of the proofs. -/

/-- First step of `handleCalcResult`: the guarded computation of the result. -/
def crCompute (now : Nat) (m : Machine) : Machine :=
  if m.computed = false ∨ usub now m.stateEnteredAt < 10 then
    { m with computed := true, calcResult := calcCompute m }
  else m

/-- Second step of `handleCalcResult`: the two rows of text. -/
def crPrint (dtostrf : FloatVal → List Char) (m : Machine) : Machine :=
  lcdDo (lcdDo m [LcdOp.setCursor 0 0, LcdOp.printInt m.calcA, LcdOp.printStr " ",
      LcdOp.printChar m.calcOp, LcdOp.printStr " ", LcdOp.printInt m.calcB,
      LcdOp.printStr " =", LcdOp.printStr "        ", LcdOp.setCursor 0 1])
    [LcdOp.printChars (cString (truncateResult (resultBuffer (dtostrf m.calcResult)))),
      LcdOp.printStr " "]

/-- The reset block of the animation,
`if (celebTickAt < stateEnteredAt) { celebFrameIdx = 0; ..; celebTickAt =
stateEnteredAt + 200UL; }`, with the display calls `ops` it makes. -/
def celebReset (ops : List LcdOp) (m : Machine) : Machine :=
  if m.celebTickAt < m.stateEnteredAt then
    { lcdDo m ops with celebFrameIdx := 0, celebTickAt := uadd m.stateEnteredAt 200 }
  else m

/-- The advance block of the animation,
`if (now >= celebTickAt) { celebFrameIdx = (celebFrameIdx + 1) % 3;
lcd.createChar(0, frames[celebFrameIdx]); celebTickAt = now + 200UL; }`. -/
def celebAdvance (now : Nat) (m : Machine) : Machine :=
  if now ≥ m.celebTickAt then
    { lcdDo m [LcdOp.createChar 0 (Int.tmod (m.celebFrameIdx + 1) 3)] with
      celebFrameIdx := Int.tmod (m.celebFrameIdx + 1) 3, celebTickAt := uadd now 200 }
  else m

/-- Last step of `handleCalcResult`: the timeout. -/
def crFinish (now : Nat) (m : Machine) : Machine :=
  if usub now m.stateEnteredAt ≥ 5000 then enterAppState { m with computed := false } 1
  else m

/-- Last step of `handlePrimesResult` and `handleSortWinner`: the timeout after
`D` milliseconds. -/
def handBackIf (D now : Nat) (m : Machine) : Machine :=
  if usub now m.stateEnteredAt ≥ D then enterAppState m 1 else m

/-- The text of the top line of `handlePrimesResult`. -/
def primesTopLine (m : Machine) : List Char :=
  ("The ".toList ++ intDecimal m.primesN ++ (ordinalSuffix m.primesN).toList
    ++ " prime".toList).take 31

/-- The text of the bottom line of `handlePrimesResult`. -/
def primesBotText (m : Machine) : List Char :=
  ("is ".toList ++ Nat.toDigits 10 m.primesResult ++ " ".toList).take 15

/-- First step of `handlePrimesResult`: the top line. -/
def prTop (sk : Sketch) (now : Nat) (m : Machine) : Machine :=
  if (primesTopLine m).length ≤ 16 then
    lcdDo m [LcdOp.setCursor 0 0, LcdOp.printChars (primesTopLine m)]
  else if usub now m.stateEnteredAt < sk.SCROLL_START_DELAY then
    lcdDo m (LcdOp.setCursor 0 0 ::
      ((primesTopLine m).take 16).map (fun c => LcdOp.write c.toNat))
  else applyScroll m (sk.tickScroll m (primesTopLine m) 0 now 4 true)

/-- The display calls of the reset block of `handleSortWinner`. -/
def winnerResetOps : List LcdOp :=
  [LcdOp.createChar 0 0, LcdOp.setCursor 0 0, LcdOp.printStr "Merge sort is",
    LcdOp.setCursor 0 1, LcdOp.printStr "the winner! "]

/-- The variables that no step of a result handler writes. -/
def Machine.core (m : Machine) :
    Nat × CalcState × Int × Int × Char × PrimesState × Int × Nat × SortTestState × Int :=
  (m.stateEnteredAt, m.calcState, m.calcA, m.calcB, m.calcOp, m.primesState, m.primesN,
    m.primesResult, m.sortState, m.confirmedN)

/-! ## Sample machines and environments -/

/-- A main sketch that never scrolls: no initial hold, and a `tickScroll` that
draws nothing. -/
def sketch0 : Sketch := ⟨0, fun _ _ _ _ _ _ => ⟨0, 0, []⟩⟩

/-- An environment of `handleSortRunning` in which `random` returns 0 and the
clock of `micros` stands still. -/
def sortEnv0 : SortEnv := ⟨fun _ => 0, fun _ => 0, 0, 0, 0, 0⟩

/-- The machine `machine0` in `CALC_SELECT_A` with the slider moved at time 0
and left at the raw value 512. -/
def machineSelectA : Machine :=
  { machine0 with calcState := CalcState.CALC_SELECT_A, potHasMoved := true, potValue := 512 }

/-- The machine `machine0` in `CALC_RESULT`, entered at time 5, before its first
result tick. -/
def machineResult : Machine :=
  { machine0 with calcState := CalcState.CALC_RESULT, stateEnteredAt := 5 }

/-- The display calls that a tick made: the part of the log of `after` that
was added to the log of `before`. -/
def emitted (before after : Machine) : List LcdOp := after.lcd.drop before.lcd.length

/-- Scan of a run of display calls for C18, with `dirty` telling whether a
glyph was uploaded (`createChar`) since the cursor was last placed
(`setCursor`): the value is false exactly when some `write(0)` happens while
`dirty`. -/
def glyphScan : Bool → List LcdOp → Bool
  | _, [] => true
  | _, LcdOp.createChar _ _ :: ops => glyphScan true ops
  | _, LcdOp.setCursor _ _ :: ops => glyphScan false ops
  | dirty, LcdOp.write 0 :: ops => !dirty && glyphScan dirty ops
  | dirty, _ :: ops => glyphScan dirty ops

/-- Whether, in a run of display calls, every write of the animated glyph that
comes after a glyph upload is preceded by a cursor placement issued after the
last upload. -/
def glyphRehomed (ops : List LcdOp) : Bool := glyphScan false ops

/-- The animation variables. -/
def Machine.celeb (m : Machine) : Int × Nat := (m.celebFrameIdx, m.celebTickAt)

/-- The display calls of the animation blocks in one tick: those of the reset
block, `resetOps`, when it runs, then the upload of the advance block when it
runs. -/
def celebOps (resetOps : List LcdOp) (now : Nat) (m : Machine) : List LcdOp :=
  (if m.celebTickAt < m.stateEnteredAt then resetOps else []) ++
  (if now ≥ (celebReset resetOps m).celebTickAt
    then [LcdOp.createChar 0 (Int.tmod ((celebReset resetOps m).celebFrameIdx + 1) 3)]
    else [])

/-- The display calls of the top line of `handlePrimesResult`. -/
def primesTopOps (sk : Sketch) (now : Nat) (m : Machine) : List LcdOp :=
  if (primesTopLine m).length ≤ 16 then
    [LcdOp.setCursor 0 0, LcdOp.printChars (primesTopLine m)]
  else if usub now m.stateEnteredAt < sk.SCROLL_START_DELAY then
    LcdOp.setCursor 0 0 :: ((primesTopLine m).take 16).map (fun c => LcdOp.write c.toNat)
  else (sk.tickScroll m (primesTopLine m) 0 now 4 true).ops

/-- The display calls of the two text rows of `handleCalcResult` for the
machine `m` after the computation step. -/
def calcTextOps (dtostrf : FloatVal → List Char) (m : Machine) : List LcdOp :=
  [LcdOp.setCursor 0 0, LcdOp.printInt m.calcA, LcdOp.printStr " ",
    LcdOp.printChar m.calcOp, LcdOp.printStr " ", LcdOp.printInt m.calcB,
    LcdOp.printStr " =", LcdOp.printStr "        ", LcdOp.setCursor 0 1,
    LcdOp.printChars (cString (truncateResult (resultBuffer (dtostrf m.calcResult)))),
    LcdOp.printStr " "]

/-- What one tick of an animated handler does to the animation, from the
machine `m` before the tick to the machine `m1` after it, in the words of the
amended C17.  On the first tick after state entry
(`celebTickAt < stateEnteredAt`) frame 0 is uploaded; if
`now < stateEnteredAt + 200` the frame index is 0 after the tick and the next
animation tick is due at `stateEnteredAt + 200`; otherwise the advance block
runs in the same tick, frame 1 is uploaded as well and the index is 1.  On a
later call, if `now ≥ celebTickAt` the index becomes `(celebFrameIdx + 1) % 3`,
that frame is uploaded and `celebTickAt` becomes `now + 200`; if
`now < celebTickAt` the index and `celebTickAt` are unchanged. -/
def AnimationStep (m m1 : Machine) (now : Nat) : Prop :=
  (m.celebTickAt < m.stateEnteredAt →
    LcdOp.createChar 0 0 ∈ emitted m m1 ∧
    (now < uadd m.stateEnteredAt 200 →
      m1.celebFrameIdx = 0 ∧ m1.celebTickAt = uadd m.stateEnteredAt 200) ∧
    (now ≥ uadd m.stateEnteredAt 200 →
      m1.celebFrameIdx = 1 ∧ LcdOp.createChar 0 1 ∈ emitted m m1 ∧
      m1.celebTickAt = uadd now 200)) ∧
  (¬ m.celebTickAt < m.stateEnteredAt →
    (now ≥ m.celebTickAt →
      m1.celebFrameIdx = Int.tmod (m.celebFrameIdx + 1) 3 ∧
      LcdOp.createChar 0 (Int.tmod (m.celebFrameIdx + 1) 3) ∈ emitted m m1 ∧
      m1.celebTickAt = uadd now 200) ∧
    (now < m.celebTickAt →
      m1.celebFrameIdx = m.celebFrameIdx ∧ m1.celebTickAt = m.celebTickAt))


/-- The value of an enumerator of `enum CalcState` in C. -/
def CalcState.toNat : CalcState → Nat
  | CalcState.CALC_TITLE => 0
  | CalcState.CALC_INTRO => 1
  | CalcState.CALC_SELECT_A_INTRO => 2
  | CalcState.CALC_SELECT_A => 3
  | CalcState.CALC_SELECT_B_INTRO => 4
  | CalcState.CALC_SELECT_B => 5
  | CalcState.CALC_SELECT_OP_INTRO => 6
  | CalcState.CALC_SELECT_OP => 7
  | CalcState.CALC_RESULT => 8

/-- The value of an enumerator of `enum PrimesState` in C. -/
def PrimesState.toNat : PrimesState → Nat
  | PrimesState.PRIMES_TITLE => 0
  | PrimesState.PRIMES_INTRO_1 => 1
  | PrimesState.PRIMES_INTRO_2 => 2
  | PrimesState.PRIMES_SHOW_N => 3
  | PrimesState.PRIMES_CALCULATING => 4
  | PrimesState.PRIMES_RESULT => 5

/-- The value of an enumerator of `enum SortTestState` in C. -/
def SortTestState.toNat : SortTestState → Nat
  | SortTestState.SORT_TITLE => 0
  | SortTestState.SORT_QUESTION => 1
  | SortTestState.SORT_SELECT_SIZE => 2
  | SortTestState.SORT_SHOW_N => 3
  | SortTestState.SORT_CONFIRM_N => 4
  | SortTestState.SORT_RUNNING => 5
  | SortTestState.SORT_RESULTS => 6
  | SortTestState.SORT_WINNER => 7

/-- The settle predicate of a selection handler with delay `D`, as the code
evaluates it: `potHasMoved && (now - potLastMovedAt >= D)`. -/
def settled (D : Nat) (m : Machine) (now : Nat) : Prop :=
  m.potHasMoved = true ∧ usub now m.potLastMovedAt ≥ D

instance (D : Nat) (m : Machine) (now : Nat) : Decidable (settled D m now) := by
  unfold settled
  infer_instance

/-- The inputs of one polling iteration: the slider sample that the shell
stores, the timestamp `now` passed to the tick, the clock readings `ms` taken
if the tick enters a state, and the environment `env` of `handleSortRunning`. -/
structure Tick where
  potValue : Int
  remapped : Int
  moved : Bool
  lastMovedAt : Nat
  now : Nat
  ms : ClockReads
  env : SortEnv

/-- The machine after the shell stored the slider sample of the tick. -/
def Tick.sample (t : Tick) (m : Machine) : Machine :=
  samplePot m t.potValue t.remapped t.moved t.lastMovedAt

/-- One polling iteration of the calculator. -/
def calcStep (dtostrf : FloatVal → List Char) (m : Machine) (t : Tick) : Option Machine :=
  some (handleCalculator dtostrf (t.sample m) t.now t.ms)

/-- One polling iteration of the primes program. -/
def primesStep (sk : Sketch) (fuel : Nat) (m : Machine) (t : Tick) : Option Machine :=
  handlePrimes sk fuel (t.sample m) t.now t.ms

/-- One polling iteration of the sort test. -/
def sortStep (m : Machine) (t : Tick) : Option Machine :=
  some (handleSortTest t.env (t.sample m) t.now t.ms)

/-- The number of iterations of a run, started in `a` with the inputs `ts`, at
which the event `w` happens; the run ends where a step yields no machine. -/
def eventCount {α ι : Type} (step : α → ι → Option α) (w : α → ι → Bool) :
    α → List ι → Nat
  | _, [] => 0
  | a, t :: ts =>
    (if w a t then 1 else 0) +
      (match step a t with
       | some b => eventCount step w b ts
       | none => 0)

/-- The event that the iteration `t` from `m` writes `calcA`: the calculator is
in `CALC_SELECT_A` and the settle predicate holds. -/
def writesCalcA (m : Machine) (t : Tick) : Bool :=
  decide (m.calcState = CalcState.CALC_SELECT_A ∧ settled 1300 (t.sample m) t.now)

/-- The event that the iteration `t` from `m` writes `calcB`. -/
def writesCalcB (m : Machine) (t : Tick) : Bool :=
  decide (m.calcState = CalcState.CALC_SELECT_B ∧ settled 1300 (t.sample m) t.now)

/-- The event that the iteration `t` from `m` writes `calcOp`. -/
def writesCalcOp (m : Machine) (t : Tick) : Bool :=
  decide (m.calcState = CalcState.CALC_SELECT_OP ∧ settled 1300 (t.sample m) t.now)

/-- The event that the iteration `t` from `m` writes `primesN`. -/
def writesPrimesN (m : Machine) (t : Tick) : Bool :=
  decide (m.primesState = PrimesState.PRIMES_SHOW_N ∧ settled 1500 (t.sample m) t.now)

/-- The event that the iteration `t` from `m` writes `confirmedN`. -/
def writesConfirmedN (m : Machine) (t : Tick) : Bool :=
  decide (m.sortState = SortTestState.SORT_SHOW_N ∧ settled 1300 (t.sample m) t.now)

/-- The calculator after the polling iterations `ts`, started from `m`. -/
def calcRun (dtostrf : FloatVal → List Char) : Machine → List Tick → Machine
  | m, [] => m
  | m, t :: ts => calcRun dtostrf (handleCalculator dtostrf (t.sample m) t.now t.ms) ts

/-- Whether, at the iteration `t` from `m`, the condition that the current
state of the calculator waits for holds: its dwell has elapsed, or, in a
selection state, the slider has moved and has been still for 1300 ms.
`CALC_RESULT` is the last state and waits for no successor. -/
def calcDue (m : Machine) (t : Tick) : Bool :=
  match m.calcState with
  | CalcState.CALC_TITLE => decide (usub t.now m.stateEnteredAt ≥ 1000)
  | CalcState.CALC_INTRO => decide (usub t.now m.stateEnteredAt ≥ 2000)
  | CalcState.CALC_SELECT_A_INTRO => decide (usub t.now m.stateEnteredAt ≥ 1200)
  | CalcState.CALC_SELECT_A => decide (settled 1300 (t.sample m) t.now)
  | CalcState.CALC_SELECT_B_INTRO => decide (usub t.now m.stateEnteredAt ≥ 1200)
  | CalcState.CALC_SELECT_B => decide (settled 1300 (t.sample m) t.now)
  | CalcState.CALC_SELECT_OP_INTRO => decide (usub t.now m.stateEnteredAt ≥ 1200)
  | CalcState.CALC_SELECT_OP => decide (settled 1300 (t.sample m) t.now)
  | CalcState.CALC_RESULT => false

/-- Whether the slider is at the raw value 0 at the iteration `t` from `m`, in
case the calculator is in a selection state and the slider has settled. -/
def zeroWhenSettled (m : Machine) (t : Tick) : Bool :=
  decide ((m.calcState = CalcState.CALC_SELECT_A ∨ m.calcState = CalcState.CALC_SELECT_B ∨
      m.calcState = CalcState.CALC_SELECT_OP) →
    settled 1300 (t.sample m) t.now → t.potValue = 0)

/-- Whether `p` holds at every iteration of a run, started in `a` with the
inputs `ts`. -/
def alongRun {α ι : Type} (step : α → ι → Option α) (p : α → ι → Bool) : α → List ι → Bool
  | _, [] => true
  | a, t :: ts =>
    p a t &&
      (match step a t with
       | some b => alongRun step p b ts
       | none => true)

/-- The value of a `FloatVal` in exact arithmetic.  The `float` holds this
value rounded to binary32; the rounding is not modelled. -/
def FloatVal.exact : FloatVal → ℚ
  | FloatVal.zero => 0
  | FloatVal.add a b => (a : ℚ) + (b : ℚ)
  | FloatVal.sub a b => (a : ℚ) - (b : ℚ)
  | FloatVal.mul a b => (a : ℚ) * (b : ℚ)
  | FloatVal.div a b => (a : ℚ) / (b : ℚ)

/-- The invariant of the run of C19: the operands and the operator chosen so
far are 1, 1 and `+`, the flag `computed` is clear before `CALC_RESULT`, and a
result computed in `CALC_RESULT` is the sum `(float)1 + 1`. -/
def CalcInv (m : Machine) : Prop :=
  (4 ≤ m.calcState.toNat → m.calcA = 1) ∧
  (6 ≤ m.calcState.toNat → m.calcB = 1) ∧
  (8 ≤ m.calcState.toNat → m.calcOp = '+') ∧
  (m.calcState.toNat < 8 → m.computed = false) ∧
  (m.calcState = CalcState.CALC_RESULT → m.computed = true →
    m.calcResult = FloatVal.add 1 1)

/-- A tick with the slider at 0, settled, at time `now`. -/
def settledTick (now : Nat) : Tick :=
  ⟨0, 0, true, 0, now, ⟨now, now⟩, sortEnv0⟩

/-- A C library whose `dtostrf` writes `2.00` for every value. -/
def dtostrfTwo : FloatVal → List Char := fun _ => ['2', '.', '0', '0']

/-- Eight iterations, 10 seconds apart, with the slider moved at time 0 and
left at the raw value 0: each one finds the condition of the current state
fulfilled. -/
def ticksOnePlusOne : List Tick :=
  [settledTick 10000, settledTick 20000, settledTick 30000, settledTick 40000,
    settledTick 50000, settledTick 60000, settledTick 70000, settledTick 80000]

/-! ## The sorting routines with checked array accesses

A second reading of the fill loop, of `bubbleSort` and of `mergeSortHelper`, in
which every array access is checked: an access with an index outside `[0, n)`
of the sub-array the routine was given, or outside the array that holds the
sub-array, makes the routine fail (`none`).  The indices are `Nat` as in the
first reading: the `int` indices of the source start at `0` or `mid` and are
only incremented. -/

/-- Checked read `a[i]` in the sub-array of `n` elements at offset `off`. -/
def rdC (a : List Int) (off n i : Nat) : Option Int :=
  if i < n ∧ off + i < a.length then some (rd a (off + i)) else none

/-- Checked write `a[i] = v` in the sub-array of `n` elements at offset `off`. -/
def wrC (a : List Int) (off n i : Nat) (v : Int) : Option (List Int) :=
  if i < n ∧ off + i < a.length then some (a.set (off + i) v) else none

/-- The fill loop of `handleSortRunning` with checked accesses. -/
def sortFillC (random : Nat → Int) (n : Nat) (buf : List Int) (i : Nat) : Option (List Int) :=
  if i < n then
    match wrC buf 0 n i (random i) with
    | none => none
    | some buf1 => sortFillC random n buf1 (i + 1)
  else some buf
termination_by n - i

/-- Body of the inner loop of `bubbleSort` with checked accesses: the two reads
of the comparison, then the two reads and the two writes of the exchange. -/
def bubbleSwapC (n : Nat) (a : List Int) (j : Nat) : Option (List Int) :=
  match rdC a 0 n j, rdC a 0 n (j + 1) with
  | some x, some y =>
    if x > y then
      match rdC a 0 n j, rdC a 0 n (j + 1) with
      | some t, some y1 =>
        match wrC a 0 n j y1 with
        | none => none
        | some a1 => wrC a1 0 n (j + 1) t
      | _, _ => none
    else some a
  | _, _ => none

/-- Inner loop of `bubbleSort` with checked accesses. -/
def bubbleInnerC (n i : Nat) (a : List Int) (j : Nat) : Option (List Int) :=
  if j < n - 1 - i then
    match bubbleSwapC n a j with
    | none => none
    | some a1 => bubbleInnerC n i a1 (j + 1)
  else some a
termination_by n - 1 - i - j

/-- Outer loop of `bubbleSort` with checked accesses. -/
def bubbleOuterC (n : Nat) (a : List Int) (i : Nat) : Option (List Int) :=
  if i < n - 1 then
    match bubbleInnerC n i a 0 with
    | none => none
    | some a1 => bubbleOuterC n a1 (i + 1)
  else some a
termination_by n - 1 - i

/-- `bubbleSort(a, n)` with checked accesses. -/
def bubbleSortC (a : List Int) (n : Nat) : Option (List Int) := bubbleOuterC n a 0

/-- First merge loop with checked accesses: the reads of `a[i]` and `a[j]`,
then the write of `tmp[k]`. -/
def mergeLoop1C (a : List Int) (off mid n : Nat) (tmp : List Int) (i j k : Nat) :
    Option (List Int × Nat × Nat × Nat) :=
  if i < mid ∧ j < n then
    match rdC a off n i, rdC a off n j with
    | some x, some y =>
      if x ≤ y then
        match wrC tmp 0 n k x with
        | none => none
        | some tmp1 => mergeLoop1C a off mid n tmp1 (i + 1) j (k + 1)
      else
        match wrC tmp 0 n k y with
        | none => none
        | some tmp1 => mergeLoop1C a off mid n tmp1 i (j + 1) (k + 1)
    | _, _ => none
  else some (tmp, i, j, k)
termination_by (mid - i) + (n - j)

/-- Second merge loop with checked accesses. -/
def mergeLoop2C (a : List Int) (off mid n : Nat) (tmp : List Int) (i k : Nat) :
    Option (List Int × Nat × Nat) :=
  if i < mid then
    match rdC a off n i with
    | none => none
    | some x =>
      match wrC tmp 0 n k x with
      | none => none
      | some tmp1 => mergeLoop2C a off mid n tmp1 (i + 1) (k + 1)
  else some (tmp, i, k)
termination_by mid - i

/-- Third merge loop with checked accesses. -/
def mergeLoop3C (a : List Int) (off n : Nat) (tmp : List Int) (j k : Nat) :
    Option (List Int × Nat × Nat) :=
  if j < n then
    match rdC a off n j with
    | none => none
    | some x =>
      match wrC tmp 0 n k x with
      | none => none
      | some tmp1 => mergeLoop3C a off n tmp1 (j + 1) (k + 1)
  else some (tmp, j, k)
termination_by n - j

/-- Copy-back loop with checked accesses: the read of `tmp[x]`, then the write
of `a[x]`. -/
def mergeCopyBackC (off n : Nat) (tmp : List Int) (a : List Int) (x : Nat) :
    Option (List Int) :=
  if x < n then
    match rdC tmp 0 n x with
    | none => none
    | some v =>
      match wrC a off n x v with
      | none => none
      | some a1 => mergeCopyBackC off n tmp a1 (x + 1)
  else some a
termination_by n - x

/-- `mergeSortHelper(a + off, tmp, n)` with checked accesses; each recursive
call checks against the sub-array it is given. -/
def mergeSortHelperC (a : List Int) (off : Nat) (tmp : List Int) (n : Nat) :
    Option (List Int × List Int) :=
  if n ≤ 1 then some (a, tmp)
  else
    match mergeSortHelperC a off tmp (n / 2) with
    | none => none
    | some r1 =>
      match mergeSortHelperC r1.1 (off + n / 2) r1.2 (n - n / 2) with
      | none => none
      | some r2 =>
        match mergeLoop1C r2.1 off (n / 2) n r2.2 0 (n / 2) 0 with
        | none => none
        | some l1 =>
          match mergeLoop2C r2.1 off (n / 2) n l1.1 l1.2.1 l1.2.2.2 with
          | none => none
          | some l2 =>
            match mergeLoop3C r2.1 off n l2.1 l1.2.2.1 l2.2.2 with
            | none => none
            | some l3 =>
              match mergeCopyBackC off n l3.1 r2.1 0 with
              | none => none
              | some a1 => some (a1, l3.1)
termination_by n
decreasing_by
  all_goals simp_wf
  all_goals omega

/-- The computation of `handleSortRunning` with checked accesses: the two fill
loops and the two sorts on `sortBuf` and `mergeTmp`, for `n = confirmedN`; the
value is the pair of the two buffers after it. -/
def sortRunC (env : SortEnv) (m : Machine) : Option (List Int × List Int) :=
  let n := m.confirmedN.toNat
  match sortFillC env.random1 n m.sortBuf 0 with
  | none => none
  | some buf1 =>
    match bubbleSortC buf1 n with
    | none => none
    | some buf2 =>
      match sortFillC env.random2 n buf2 0 with
      | none => none
      | some buf3 => mergeSortHelperC buf3 0 m.mergeTmp n

/-! ## Sample machines of the sort benchmark -/

/-- The machine `machine0` with the sort benchmark in the state `s`, entered at
time 0, the slider moved at time 0 and mapped to the size 200. -/
def sortAt (s : SortTestState) : Machine :=
  { machine0 with sortState := s, potHasMoved := true, remappedPotValue := 200 }

/-! ## Consecutive runs of the calculator -/

/-- The calculator's own variables have their static initialisers. -/
def calcInitial (m : Machine) : Prop :=
  m.calcState = CalcState.CALC_TITLE ∧ m.calcA = 1 ∧ m.calcB = 1 ∧ m.calcOp = '+' ∧
  m.calcResult = FloatVal.zero ∧ m.computed = false

/-- The machines `a` and `b` agree on the calculator's own variables, the file
statics of `calculator_program.h` and the static `computed` of
`handleCalcResult`, which no other program reads or writes. -/
def sameCalc (a b : Machine) : Prop :=
  a.calcState = b.calcState ∧ a.calcA = b.calcA ∧ a.calcB = b.calcB ∧ a.calcOp = b.calcOp ∧
  a.calcResult = b.calcResult ∧ a.computed = b.computed

/-- A machine in the course of the runs of the calculator, with whether the
current run has handed back (a tick of it called `enterAppState`), the last
reading of the clock, and the operands and the operator locked in during the
current run: the values of `calcA`, `calcB`, `calcOp` when the run left
`CALC_SELECT_A`, `CALC_SELECT_B`, `CALC_SELECT_OP`, if it has. -/
structure RunState where
  m : Machine
  handed : Bool
  clock : Nat
  lockedA : Option Int
  lockedB : Option Int
  lockedOp : Option Char

/-- The start of a run: `enterCalcState(CALC_TITLE)`. -/
def runStart (m : Machine) (ms : ClockReads) : RunState :=
  ⟨enterCalcState m CalcState.CALC_TITLE ms, false, ms.r2, none, none, none⟩

/-- One polling iteration of a run: the slider sample and the tick.  The run
has handed back if it had before or the tick called `enterAppState`. -/
def runTick (dtostrf : FloatVal → List Char) (s : RunState) (t : Tick) : RunState :=
  ⟨handleCalculator dtostrf (t.sample s.m) t.now t.ms,
    s.handed || decide ((handleCalculator dtostrf (t.sample s.m) t.now t.ms).appCalls
      ≠ s.m.appCalls),
    t.ms.r2,
    if s.m.calcState = CalcState.CALC_SELECT_A ∧
        (handleCalculator dtostrf (t.sample s.m) t.now t.ms).calcState
          ≠ CalcState.CALC_SELECT_A
      then some (handleCalculator dtostrf (t.sample s.m) t.now t.ms).calcA else s.lockedA,
    if s.m.calcState = CalcState.CALC_SELECT_B ∧
        (handleCalculator dtostrf (t.sample s.m) t.now t.ms).calcState
          ≠ CalcState.CALC_SELECT_B
      then some (handleCalculator dtostrf (t.sample s.m) t.now t.ms).calcB else s.lockedB,
    if s.m.calcState = CalcState.CALC_SELECT_OP ∧
        (handleCalculator dtostrf (t.sample s.m) t.now t.ms).calcState
          ≠ CalcState.CALC_SELECT_OP
      then some (handleCalculator dtostrf (t.sample s.m) t.now t.ms).calcOp else s.lockedOp⟩

/-- The clock readings `r1`, `r2` of a state entry follow the time `c` in
order, without wrap of the 32-bit clock. -/
def clockInOrder (c : Nat) (ms : ClockReads) : Prop :=
  c ≤ ms.r1 ∧ ms.r1 ≤ ms.r2 ∧ ms.r2 < ULONG_MOD

/-- Consecutive runs of the calculator.  The first run starts from the initial
values of the calculator's variables; a tick has a timestamp `now` not before
the last clock reading, and the readings `ms` of a state entry it makes are
not before `now` (for a tick that enters no state they stand for `now`); a new
run starts, after the current run has handed back, from any machine that other
programs left with the calculator's own variables untouched. -/
inductive CalcRuns (dtostrf : FloatVal → List Char) : RunState → Prop
  | start (m : Machine) (ms : ClockReads) (hi : calcInitial m) (hc : clockInOrder 0 ms) :
      CalcRuns dtostrf (runStart m ms)
  | tick (s : RunState) (t : Tick) (h : CalcRuns dtostrf s) (hn : s.clock ≤ t.now)
      (hc : clockInOrder t.now t.ms) : CalcRuns dtostrf (runTick dtostrf s t)
  | restart (s : RunState) (m : Machine) (ms : ClockReads) (h : CalcRuns dtostrf s)
      (hh : s.handed = true) (hs : sameCalc s.m m) (hc : clockInOrder s.clock ms) :
      CalcRuns dtostrf (runStart m ms)

/-- The operator is one of the four cases of the `switch` in
`handleCalcResult`. -/
def validOp (c : Char) : Prop := c = '+' ∨ c = '-' ∨ c = '*' ∨ c = '/'

/-- The invariant of consecutive runs: `computed` is clear outside
`CALC_RESULT`; when it is set, `calcResult` is the result for the current
operands and operator; the operator is one of the four; a run that has handed
back is in `CALC_RESULT` with `computed` clear, 5000 ms or more after the state
entry; the state entry is not after the last clock reading. -/
def RunsInv (s : RunState) : Prop :=
  (s.m.calcState ≠ CalcState.CALC_RESULT → s.m.computed = false) ∧
  (s.m.computed = true → s.m.calcResult = calcCompute s.m) ∧
  validOp s.m.calcOp ∧
  (s.handed = true → s.m.calcState = CalcState.CALC_RESULT ∧ s.m.computed = false ∧
    s.m.stateEnteredAt + 5000 ≤ s.clock) ∧
  s.m.stateEnteredAt ≤ s.clock ∧ s.clock < ULONG_MOD

/-- The locked-in values recorded for the current run are the current values
of `calcA`, `calcB`, `calcOp`, from the state after the selection state on. -/
def LockedInv (s : RunState) : Prop :=
  (4 ≤ s.m.calcState.toNat → s.lockedA = some s.m.calcA) ∧
  (6 ≤ s.m.calcState.toNat → s.lockedB = some s.m.calcB) ∧
  (8 ≤ s.m.calcState.toNat → s.lockedOp = some s.m.calcOp)

/-- The state of the runs after the polling iterations `ts`. -/
def runTicks (dtostrf : FloatVal → List Char) : RunState → List Tick → RunState
  | s, [] => s
  | s, t :: ts => runTicks dtostrf (runTick dtostrf s t) ts

instance (c : Nat) (ms : ClockReads) : Decidable (clockInOrder c ms) := by
  unfold clockInOrder
  infer_instance

/-- Whether the timestamps and clock readings of the iterations `ts` follow
the time `c` in order. -/
def ticksInOrder : Nat → List Tick → Bool
  | _, [] => true
  | c, t :: ts => decide (c ≤ t.now ∧ clockInOrder t.now t.ms) && ticksInOrder t.ms.r2 ts

/-- A tick with the slider at the raw value `pot`, settled, at time `now`. -/
def settledTickAt (pot : Int) (now : Nat) : Tick :=
  ⟨pot, 0, true, 0, now, ⟨now, now⟩, sortEnv0⟩

/-- A first run of the calculator on 1 + 1, from the initial machine at time
0, with a result tick at 90 s that hands back. -/
def firstRun : RunState :=
  runTicks dtostrfTwo (runStart machine0 ⟨0, 0⟩) (ticksOnePlusOne ++ [settledTick 90000])

/-- Eight iterations of a second run, 10 seconds apart from 110 s on, with the
slider at the raw value 1023. -/
def ticksSecondRun : List Tick :=
  [settledTickAt 1023 110000, settledTickAt 1023 120000, settledTickAt 1023 130000,
    settledTickAt 1023 140000, settledTickAt 1023 150000, settledTickAt 1023 160000,
    settledTickAt 1023 170000, settledTickAt 1023 180000]

/-- A second run, started at 100 s from the machine left by `firstRun`, up to
its entry into `CALC_RESULT`. -/
def secondRun : RunState :=
  runTicks dtostrfTwo (runStart firstRun.m ⟨100000, 100000⟩) ticksSecondRun

/-- Whether every raw slider reading of the iterations is in `0..1023`. -/
def potsInRange : List Tick → Bool
  | [] => true
  | t :: ts => decide (0 ≤ t.potValue ∧ t.potValue ≤ 1023) && potsInRange ts

/-- Nine iterations, 10 seconds apart and the last after 1 more second, with
the slider settled: it reads 512 in `CALC_SELECT_A`, 1023 in `CALC_SELECT_B`
and 1023 in `CALC_SELECT_OP`; the ninth is a result tick. -/
def ticksDivide : List Tick :=
  [settledTickAt 0 10000, settledTickAt 0 20000, settledTickAt 0 30000,
    settledTickAt 512 40000, settledTickAt 512 50000, settledTickAt 1023 60000,
    settledTickAt 1023 70000, settledTickAt 1023 80000, settledTickAt 1023 81000]

/-! ## Theorems: the sorting routines -/

theorem rd_append_right (p l : List Int) (i : Nat) : rd (p ++ l) (p.length + i) = rd l i := by
  simp [rd, List.getD_eq_getElem?_getD, List.getElem?_append_right]

theorem set_append_right (p l : List Int) (i : Nat) (v : Int) :
    (p ++ l).set (p.length + i) v = p ++ l.set i v := by
  rw [List.set_append_right _ _ (by omega)]
  simp

theorem bubbleSwap_append (p : List Int) (x y : Int) (s : List Int) :
    bubbleSwap (p ++ x :: y :: s) p.length
      = p ++ (if x > y then y :: x :: s else x :: y :: s) := by
  have h0 : rd (p ++ x :: y :: s) p.length = x := by
    simpa [rd] using rd_append_right p (x :: y :: s) 0
  have h1 : rd (p ++ x :: y :: s) (p.length + 1) = y := by
    simpa [rd] using rd_append_right p (x :: y :: s) 1
  unfold bubbleSwap
  rw [h0, h1]
  by_cases h : x > y
  · simp only [h, if_true]
    have e1 := set_append_right p (x :: y :: s) 0 y
    simp only [Nat.add_zero] at e1
    rw [e1]
    have e2 := set_append_right p ((x :: y :: s).set 0 y) 1 x
    rw [e2]
    simp
  · simp only [h, if_false]

theorem bubbleInner_append (n i : Nat) :
    ∀ (m : Nat) (p l : List Int), n - 1 - i = p.length + m → m < l.length →
      bubbleInner n i (p ++ l) p.length = p ++ bubblePass m l := by
  intro m
  induction m with
  | zero =>
    intro p l hb _
    rw [bubbleInner]
    simp [hb, bubblePass]
  | succ m ih =>
    intro p l hb hl
    match l, hl with
    | x :: y :: s, hl =>
      rw [bubbleInner, if_pos (by omega), bubbleSwap_append]
      by_cases h : x > y
      · simp only [h, if_true, bubblePass]
        have := ih (p ++ [y]) (x :: s) (by simp; omega) (by simp at hl ⊢; omega)
        simpa using this
      · simp only [h, if_false, bubblePass]
        have := ih (p ++ [x]) (y :: s) (by simp; omega) (by simp at hl ⊢; omega)
        simpa using this
    | [_], hl => simp at hl
    | [], hl => simp at hl

theorem bubblePass_perm : ∀ (m : Nat) (l : List Int), (bubblePass m l).Perm l
  | 0, l => by simp [bubblePass]
  | m + 1, [] => by simp [bubblePass]
  | m + 1, [_] => by simp [bubblePass]
  | m + 1, x :: y :: s => by
    simp only [bubblePass]
    split
    · exact ((bubblePass_perm m (x :: s)).cons y).trans (List.Perm.swap x y s)
    · exact (bubblePass_perm m (y :: s)).cons x

theorem bubblePass_append : ∀ (m : Nat) (l r : List Int), m < l.length →
    bubblePass m (l ++ r) = bubblePass m l ++ r
  | 0, l, r, _ => by simp [bubblePass]
  | m + 1, [], r, h => by simp at h
  | m + 1, [_], r, h => by simp at h
  | m + 1, x :: y :: s, r, h => by
    have h1 := bubblePass_append m (x :: s) r (by simp at h ⊢; omega)
    have h2 := bubblePass_append m (y :: s) r (by simp at h ⊢; omega)
    simp only [List.cons_append] at h1 h2
    simp only [bubblePass, List.cons_append, List.append_eq]
    split
    · rw [h1, List.cons_append]
    · rw [h2, List.cons_append]

theorem bubblePass_max : ∀ (m : Nat) (l : List Int), l.length = m + 1 →
    ∃ l' mx, bubblePass m l = l' ++ [mx] ∧ ∀ z ∈ l, z ≤ mx
  | 0, l, h => by
    match l, h with
    | [x], _ => exact ⟨[], x, by simp [bubblePass], by simp⟩
  | m + 1, l, h => by
    match l, h with
    | x :: y :: s, h =>
      simp only [bubblePass]
      by_cases hxy : x > y
      · obtain ⟨l', mx, e, hmx⟩ := bubblePass_max m (x :: s) (by simp at h ⊢; omega)
        refine ⟨y :: l', mx, by simp [hxy, e], ?_⟩
        intro z hz
        have hx : x ≤ mx := hmx x (by simp)
        simp only [List.mem_cons] at hz
        rcases hz with rfl | rfl | hz
        · exact hx
        · omega
        · exact hmx z (by simp [hz])
      · obtain ⟨l', mx, e, hmx⟩ := bubblePass_max m (y :: s) (by simp at h ⊢; omega)
        refine ⟨x :: l', mx, by simp [hxy, e], ?_⟩
        intro z hz
        have hy : y ≤ mx := hmx y (by simp)
        simp only [List.mem_cons] at hz
        rcases hz with rfl | rfl | hz
        · omega
        · exact hy
        · exact hmx z (by simp [hz])

theorem bubbleOuter_spec (n : Nat) (post : List Int) :
    ∀ (k i : Nat) (front back : List Int), front.length = k + 1 → back.length = i →
      n = k + 1 + i → back.Sorted (· ≤ ·) → (∀ x ∈ front, ∀ y ∈ back, x ≤ y) →
      ∃ s, bubbleOuter n (front ++ back ++ post) i = s ++ post ∧
        s.Perm (front ++ back) ∧ s.Sorted (· ≤ ·) := by
  intro k
  induction k with
  | zero =>
    intro i front back hf hb hn hs hle
    rw [bubbleOuter, if_neg (by omega)]
    match front, hf with
    | [x], _ =>
      refine ⟨x :: back, by simp, List.Perm.refl _, ?_⟩
      exact List.sorted_cons.mpr ⟨fun y hy => hle x (by simp) y hy, hs⟩
  | succ k ih =>
    intro i front back hf hb hn hs hle
    rw [bubbleOuter, if_pos (by omega)]
    have hin := bubbleInner_append n i (k + 1) [] (front ++ back ++ post)
      (by simp; omega) (by simp; omega)
    simp only [List.nil_append, List.length_nil] at hin
    rw [hin, List.append_assoc, bubblePass_append _ _ _ (by omega)]
    obtain ⟨l', mx, e, hmx⟩ := bubblePass_max (k + 1) front hf
    have hperm : (l' ++ [mx]).Perm front := e ▸ bubblePass_perm (k + 1) front
    have hmem : ∀ z, z ∈ l' ++ [mx] → z ∈ front := fun z hz => hperm.mem_iff.mp hz
    have hlen : l'.length = k + 1 := by
      have := hperm.length_eq
      simp at this
      omega
    obtain ⟨s, hs1, hs2, hs3⟩ := ih (i + 1) l' (mx :: back) hlen (by simp [hb]) (by omega)
      (List.sorted_cons.mpr ⟨fun y hy => hle mx (hmem mx (by simp)) y hy, hs⟩)
      (by
        intro x hx y hy
        simp only [List.mem_cons] at hy
        rcases hy with rfl | hy
        · exact hmx x (hmem x (by simp [hx]))
        · exact hle x (hmem x (by simp [hx])) y hy)
    refine ⟨s, ?_, ?_, hs3⟩
    · rw [e]
      simpa using hs1
    · refine hs2.trans ?_
      have : (l' ++ mx :: back).Perm ((l' ++ [mx]) ++ back) := by simp
      exact this.trans (hperm.append_right back)

theorem bubbleSort_eq (a : List Int) (n : Nat) (hn : n ≤ a.length) :
    bubbleSort a n = (a.take n).insertionSort (· ≤ ·) ++ a.drop n := by
  unfold bubbleSort
  rcases Nat.eq_zero_or_pos n with h0 | hpos
  · subst h0
    rw [bubbleOuter]
    simp
  · obtain ⟨s, e, hp, hs⟩ := bubbleOuter_spec n (a.drop n) (n - 1) 0 (a.take n) []
      (by simp; omega) rfl (by omega) List.sorted_nil (by simp)
    simp only [List.append_nil, List.take_append_drop] at e hp
    rw [e]
    congr 1
    exact List.eq_of_perm_of_sorted (hp.trans (List.perm_insertionSort _ _).symm) hs
      (List.sorted_insertionSort _ _)


theorem rd_append_left (l r : List Int) (i : Nat) (h : i < l.length) :
    rd (l ++ r) i = rd l i := by
  simp [rd, List.getD_eq_getElem?_getD, List.getElem?_append_left h]

theorem rd_eq_getElem (l : List Int) (i : Nat) (h : i < l.length) : rd l i = l[i] := by
  simp [rd, List.getD_eq_getElem?_getD, List.getElem?_eq_getElem h]

theorem drop_eq_rd_cons (l : List Int) (i : Nat) (h : i < l.length) :
    l.drop i = rd l i :: l.drop (i + 1) := by
  rw [rd_eq_getElem l i h]
  exact List.drop_eq_getElem_cons h

theorem take_succ_set (l : List Int) (k : Nat) (v : Int) (h : k < l.length) :
    (l.set k v).take (k + 1) = l.take k ++ [v] := by
  have e : (l.set k v).take k = l.take k :=
    List.ext_getElem? fun i => by
      rw [List.getElem?_take, List.getElem?_take]
      split
      · rw [List.getElem?_set_ne (by omega)]
      · rfl
  rw [List.take_succ, e]
  simp [List.getElem?_set, h]

theorem mergeLoop2_spec (a : List Int) (off mid : Nat) (L : List Int)
    (hL : ∀ i, i < mid → rd a (off + i) = rd L i) (hlen : L.length = mid) :
    ∀ (d i k : Nat) (tmp : List Int), mid - i = d → i ≤ mid → k + d ≤ tmp.length →
      (mergeLoop2 a off mid tmp i k).1.length = tmp.length ∧
      (mergeLoop2 a off mid tmp i k).1.take (k + d) = tmp.take k ++ L.drop i ∧
      (mergeLoop2 a off mid tmp i k).2.2 = k + d := by
  intro d
  induction d with
  | zero =>
    intro i k tmp hd hi hk
    rw [mergeLoop2, if_neg (by omega)]
    have : L.drop i = [] := List.drop_eq_nil_of_le (by omega)
    simp [this]
  | succ d ih =>
    intro i k tmp hd hi hk
    rw [mergeLoop2, if_pos (by omega)]
    obtain ⟨h1, h2, h3⟩ := ih (i + 1) (k + 1) (tmp.set k (rd a (off + i))) (by omega) (by omega)
      (by simp; omega)
    refine ⟨by simpa using h1, ?_, by omega⟩
    rw [show k + (d + 1) = k + 1 + d by omega, h2, take_succ_set _ _ _ (by omega),
      drop_eq_rd_cons L i (by omega), hL i (by omega)]
    simp

theorem mergeLoop3_spec (a : List Int) (off mid n : Nat) (R : List Int)
    (hR : ∀ j, mid ≤ j → j < n → rd a (off + j) = rd R (j - mid)) (hlen : R.length = n - mid) :
    ∀ (d j k : Nat) (tmp : List Int), n - j = d → mid ≤ j → j ≤ n → k + d ≤ tmp.length →
      (mergeLoop3 a off n tmp j k).1.length = tmp.length ∧
      (mergeLoop3 a off n tmp j k).1.take (k + d) = tmp.take k ++ R.drop (j - mid) := by
  intro d
  induction d with
  | zero =>
    intro j k tmp hd hm hj hk
    rw [mergeLoop3, if_neg (by omega)]
    have : R.drop (j - mid) = [] := List.drop_eq_nil_of_le (by omega)
    simp [this]
  | succ d ih =>
    intro j k tmp hd hm hj hk
    rw [mergeLoop3, if_pos (by omega)]
    obtain ⟨h1, h2⟩ := ih (j + 1) (k + 1) (tmp.set k (rd a (off + j))) (by omega) (by omega)
      (by omega) (by simp; omega)
    refine ⟨by simpa using h1, ?_⟩
    rw [show k + (d + 1) = k + 1 + d by omega, h2, take_succ_set _ _ _ (by omega),
      drop_eq_rd_cons R (j - mid) (by omega), hR j hm (by omega),
      show j + 1 - mid = j - mid + 1 by omega]
    simp

theorem mergeLoops_spec (a : List Int) (off mid n : Nat) (L R : List Int)
    (hL : ∀ i, i < mid → rd a (off + i) = rd L i) (hlenL : L.length = mid)
    (hR : ∀ j, mid ≤ j → j < n → rd a (off + j) = rd R (j - mid))
    (hlenR : R.length = n - mid) :
    ∀ (d i j k : Nat) (tmp : List Int), (mid - i) + (n - j) = d → i ≤ mid → mid ≤ j → j ≤ n →
      k + d ≤ tmp.length →
      (mergeLoops a off mid n tmp i j k).length = tmp.length ∧
      (mergeLoops a off mid n tmp i j k).take (k + d)
        = tmp.take k ++ List.merge (L.drop i) (R.drop (j - mid)) (fun x y => decide (x ≤ y)) := by
  intro d
  induction d using Nat.strong_induction_on with
  | _ d ih =>
    intro i j k tmp hd hi hm hj hk
    by_cases hc : i < mid ∧ j < n
    · have hLd := drop_eq_rd_cons L i (by omega)
      have hRd := drop_eq_rd_cons R (j - mid) (by omega)
      have hri := hL i hc.1
      have hrj := hR j hm hc.2
      unfold mergeLoops
      rw [mergeLoop1, if_pos hc]
      by_cases hle : rd a (off + i) ≤ rd a (off + j)
      · rw [if_pos hle]
        obtain ⟨h1, h2⟩ := ih (d - 1) (by omega) (i + 1) j (k + 1)
          (tmp.set k (rd a (off + i))) (by omega) (by omega) hm hj (by simp; omega)
        unfold mergeLoops at h1 h2
        refine ⟨by simpa using h1, ?_⟩
        rw [show k + d = k + 1 + (d - 1) by omega, h2, take_succ_set _ _ _ (by omega),
          hLd, hRd, List.cons_merge_cons, ← hri, ← hrj]
        simp [hle, ← hRd]
      · rw [if_neg hle]
        obtain ⟨h1, h2⟩ := ih (d - 1) (by omega) i (j + 1) (k + 1)
          (tmp.set k (rd a (off + j))) (by omega) hi (by omega) (by omega) (by simp; omega)
        unfold mergeLoops at h1 h2
        refine ⟨by simpa using h1, ?_⟩
        rw [show k + d = k + 1 + (d - 1) by omega, h2, take_succ_set _ _ _ (by omega),
          hLd, hRd, List.cons_merge_cons, ← hri, ← hrj,
          show j + 1 - mid = j - mid + 1 by omega]
        simp [hle, ← hLd]
    · unfold mergeLoops
      rw [mergeLoop1, if_neg hc]
      simp only
      obtain ⟨a1, a2, a3⟩ := mergeLoop2_spec a off mid L hL hlenL (mid - i) i k tmp rfl hi
        (by omega)
      obtain ⟨b1, b2⟩ := mergeLoop3_spec a off mid n R hR hlenR (n - j) j
        (mergeLoop2 a off mid tmp i k).2.2 (mergeLoop2 a off mid tmp i k).1 rfl hm hj
        (by rw [a1, a3]; omega)
      refine ⟨by rw [b1, a1], ?_⟩
      rw [a3] at b2 ⊢
      rw [show k + d = k + (mid - i) + (n - j) by omega, b2]
      by_cases hi' : i < mid
      · have hjn : j = n := by omega
        have hRnil : R.drop (j - mid) = [] := List.drop_eq_nil_of_le (by omega)
        have : n - j = 0 := by omega
        rw [hRnil, List.merge_right, List.append_nil]
        rw [a2]
      · have him : i = mid := by omega
        have hLnil : L.drop i = [] := List.drop_eq_nil_of_le (by omega)
        have h0 : mid - i = 0 := by omega
        rw [hLnil, List.nil_merge]
        rw [h0, Nat.add_zero] at a2
        have : (mergeLoop2 a off mid tmp i k).1.take k = tmp.take k := by
          simpa [hLnil] using a2
        simp only [h0, Nat.add_zero]
        rw [this]


theorem mergeCopyBack_spec (off n : Nat) (tmp : List Int) (hn : n ≤ tmp.length) :
    ∀ (d x : Nat) (P M Q : List Int), n - x = d → x ≤ n → P.length = off + x → M.length = d →
      mergeCopyBack off n tmp (P ++ M ++ Q) x = P ++ (tmp.take n).drop x ++ Q := by
  intro d
  induction d with
  | zero =>
    intro x P M Q hd hx hP hM
    rw [mergeCopyBack, if_neg (by omega)]
    have hM0 : M = [] := List.length_eq_zero.mp hM
    have : (tmp.take n).drop x = [] := List.drop_eq_nil_of_le (by simp; omega)
    rw [hM0, this]
  | succ d ih =>
    intro x P M Q hd hx hP hM
    rw [mergeCopyBack, if_pos (by omega)]
    match M, hM with
    | m :: M', hM =>
      have hset : (P ++ (m :: M') ++ Q).set (off + x) (rd tmp x)
          = (P ++ [rd tmp x]) ++ M' ++ Q := by
        have := set_append_right P ((m :: M') ++ Q) 0 (rd tmp x)
        rw [Nat.add_zero, hP] at this
        rw [List.append_assoc, this]
        simp
      rw [hset, ih (x + 1) (P ++ [rd tmp x]) M' Q (by omega) (by omega) (by simp; omega)
        (by simpa using hM)]
      have hx' : x < (tmp.take n).length := by simp; omega
      rw [drop_eq_rd_cons (tmp.take n) x hx']
      have : rd (tmp.take n) x = rd tmp x := by
        rw [rd_eq_getElem _ _ hx', rd_eq_getElem _ _ (by omega)]
        simp
      rw [this]
      simp

theorem mergeSortHelper_spec :
    ∀ (n off : Nat) (pre seg post tmp : List Int), pre.length = off → seg.length = n →
      n ≤ tmp.length →
      ∃ s, (mergeSortHelper (pre ++ seg ++ post) off tmp n).1 = pre ++ s ++ post ∧
        (mergeSortHelper (pre ++ seg ++ post) off tmp n).2.length = tmp.length ∧
        s.Perm seg ∧ s.Sorted (· ≤ ·) := by
  intro n
  induction n using Nat.strong_induction_on with
  | _ n ih =>
    intro off pre seg post tmp hpre hseg htmp
    rw [mergeSortHelper]
    by_cases h1 : n ≤ 1
    · rw [if_pos h1]
      refine ⟨seg, rfl, rfl, List.Perm.refl _, ?_⟩
      match seg, hseg with
      | [], _ => exact List.sorted_nil
      | [x], _ => exact List.sorted_singleton x
      | _ :: _ :: _, hs => simp at hs; omega
    · rw [if_neg h1]
      simp only
      have hsplit : seg = seg.take (n / 2) ++ seg.drop (n / 2) := (List.take_append_drop _ _).symm
      have hlt : (seg.take (n / 2)).length = n / 2 := by simp; omega
      have hld : (seg.drop (n / 2)).length = n - n / 2 := by simp; omega
      obtain ⟨S1, e1, t1, p1, s1⟩ := ih (n / 2) (by omega) off pre (seg.take (n / 2))
        (seg.drop (n / 2) ++ post) tmp hpre hlt (by omega)
      have ha : pre ++ seg ++ post = pre ++ seg.take (n / 2) ++ (seg.drop (n / 2) ++ post) := by
        rw [List.append_assoc pre (seg.take _), ← List.append_assoc (seg.take _),
          List.take_append_drop, List.append_assoc]
      rw [ha]
      generalize mergeSortHelper (pre ++ seg.take (n / 2) ++ (seg.drop (n / 2) ++ post)) off tmp
        (n / 2) = r1 at e1 t1 ⊢
      have hS1 : S1.length = n / 2 := by rw [p1.length_eq, hlt]
      obtain ⟨S2, e2, t2, p2, s2⟩ := ih (n - n / 2) (by omega) (off + n / 2) (pre ++ S1)
        (seg.drop (n / 2)) post r1.2 (by simp; omega) hld (by omega)
      have hb : r1.1 = pre ++ S1 ++ seg.drop (n / 2) ++ post := by rw [e1]; simp
      rw [hb]
      generalize mergeSortHelper (pre ++ S1 ++ seg.drop (n / 2) ++ post) (off + n / 2) r1.2
        (n - n / 2) = r2 at e2 t2 ⊢
      have hS2 : S2.length = n - n / 2 := by rw [p2.length_eq, hld]
      have hL : ∀ i, i < n / 2 → rd r2.1 (off + i) = rd S1 i := by
        intro i hi
        rw [e2, List.append_assoc, List.append_assoc, ← hpre, rd_append_right,
          rd_append_left _ _ _ (by omega)]
      have hR : ∀ j, n / 2 ≤ j → j < n → rd r2.1 (off + j) = rd S2 (j - n / 2) := by
        intro j hj1 hj2
        have : off + j = (pre ++ S1).length + (j - n / 2) := by simp; omega
        rw [e2, List.append_assoc, this, rd_append_right, rd_append_left _ _ _ (by omega)]
      obtain ⟨m1, m2⟩ := mergeLoops_spec r2.1 off (n / 2) n S1 S2 hL hS1 hR hS2
        ((n / 2 - 0) + (n - n / 2)) 0 (n / 2) 0 r2.2 rfl (by omega) (by omega) (by omega)
        (by omega)
      unfold mergeLoops at m1 m2
      simp only at m1 m2
      have hk : 0 + ((n / 2 - 0) + (n - n / 2)) = n := by omega
      rw [hk] at m2
      simp only [List.take_zero, List.nil_append, List.drop_zero, Nat.sub_self] at m2
      refine ⟨List.merge S1 S2 (fun x y => decide (x ≤ y)), ?_, by rw [m1, t2, t1], ?_, ?_⟩
      · have hcb := mergeCopyBack_spec off n
          (mergeLoop3 r2.1 off n
            (mergeLoop2 r2.1 off (n / 2) (mergeLoop1 r2.1 off (n / 2) n r2.2 0 (n / 2) 0).1
              (mergeLoop1 r2.1 off (n / 2) n r2.2 0 (n / 2) 0).2.1
              (mergeLoop1 r2.1 off (n / 2) n r2.2 0 (n / 2) 0).2.2.2).1
            (mergeLoop1 r2.1 off (n / 2) n r2.2 0 (n / 2) 0).2.2.1
            (mergeLoop2 r2.1 off (n / 2) (mergeLoop1 r2.1 off (n / 2) n r2.2 0 (n / 2) 0).1
              (mergeLoop1 r2.1 off (n / 2) n r2.2 0 (n / 2) 0).2.1
              (mergeLoop1 r2.1 off (n / 2) n r2.2 0 (n / 2) 0).2.2.2).2.2).1
          (by rw [m1]; omega) n 0 pre (S1 ++ S2) post (by omega) (by omega) (by omega)
          (by simp; omega)
        rw [m2] at hcb
        have e2' : r2.1 = pre ++ (S1 ++ S2) ++ post := by rw [e2]; simp
        conv_lhs => arg 4; rw [e2']
        simpa using hcb
      · refine (List.merge_perm_append _).trans ?_
        conv_rhs => rw [hsplit]
        exact p1.append p2
      · exact s1.merge s2

theorem mergeSortHelper_eq (a tmp : List Int) (n : Nat) (hn : n ≤ a.length)
    (ht : n ≤ tmp.length) :
    (mergeSortHelper a 0 tmp n).1 = (a.take n).insertionSort (· ≤ ·) ++ a.drop n := by
  obtain ⟨s, e, _, hp, hs⟩ := mergeSortHelper_spec n 0 [] (a.take n) (a.drop n) tmp rfl
    (by simp; omega) ht
  simp only [List.nil_append, List.take_append_drop] at e
  rw [e]
  congr 1
  exact List.eq_of_perm_of_sorted (hp.trans (List.perm_insertionSort _ _).symm) hs
    (List.sorted_insertionSort _ _)

theorem take_sorted_prefix (s r : List Int) (n : Nat) (h : s.length = n) :
    (s ++ r).take n = s := by
  rw [← h]
  simp

/-- C1: for every array `a`, every `n ≤ length a` and every temporary buffer of
capacity at least `n`, `mergeSortHelper(a, tmp, n)` leaves `a[0..n)` in
non-decreasing order, holding the same multiset of values as before the call,
and equal to a reference sort (insertion sort) of the original `a[0..n)`. -/
theorem mergeSortHelper_sorts (a tmp : List Int) (n : Nat) (hn : n ≤ a.length)
    (ht : n ≤ tmp.length) :
    ((mergeSortHelper a 0 tmp n).1.take n).Sorted (· ≤ ·) ∧
    ((mergeSortHelper a 0 tmp n).1.take n).Perm (a.take n) ∧
    (mergeSortHelper a 0 tmp n).1.take n = (a.take n).insertionSort (· ≤ ·) := by
  have e := mergeSortHelper_eq a tmp n hn ht
  have ht' : (mergeSortHelper a 0 tmp n).1.take n = (a.take n).insertionSort (· ≤ ·) := by
    rw [e]
    exact take_sorted_prefix _ _ n (by simp; omega)
  rw [ht']
  exact ⟨List.sorted_insertionSort _ _, List.perm_insertionSort _ _, rfl⟩

/-- Witness of C1 on the array `[3, 1, 2]`. -/
theorem mergeSortHelper_sorts_witness :
    (3 ≤ [3, 1, 2].length ∧ 3 ≤ [0, 0, 0].length) ∧
    (((mergeSortHelper [3, 1, 2] 0 [0, 0, 0] 3).1.take 3).Sorted (· ≤ ·) ∧
     ((mergeSortHelper [3, 1, 2] 0 [0, 0, 0] 3).1.take 3).Perm ([3, 1, 2].take 3) ∧
     (mergeSortHelper [3, 1, 2] 0 [0, 0, 0] 3).1.take 3
       = ([3, 1, 2].take 3).insertionSort (· ≤ ·)) :=
  ⟨⟨by decide, by decide⟩, mergeSortHelper_sorts [3, 1, 2] [0, 0, 0] 3 (by decide) (by decide)⟩

/-- C2: for every array `a` and every `n ≤ length a`, `bubbleSort(a, n)` leaves
`a[0..n)` in non-decreasing order, holding the same multiset of values as
before the call, and equal to a reference sort (insertion sort) of the original
`a[0..n)`; for `n = 0` and `n = 1` the array is not changed at all. -/
theorem bubbleSort_sorts (a : List Int) (n : Nat) (hn : n ≤ a.length) :
    ((bubbleSort a n).take n).Sorted (· ≤ ·) ∧
    ((bubbleSort a n).take n).Perm (a.take n) ∧
    (bubbleSort a n).take n = (a.take n).insertionSort (· ≤ ·) ∧
    (n ≤ 1 → bubbleSort a n = a) := by
  have e := bubbleSort_eq a n hn
  have ht' : (bubbleSort a n).take n = (a.take n).insertionSort (· ≤ ·) := by
    rw [e]
    exact take_sorted_prefix _ _ n (by simp; omega)
  rw [ht']
  refine ⟨List.sorted_insertionSort _ _, List.perm_insertionSort _ _, rfl, ?_⟩
  intro h1
  unfold bubbleSort
  rw [bubbleOuter, if_neg (by omega)]

/-- Witness of C2 on the array `[3, 1, 2]`. -/
theorem bubbleSort_sorts_witness :
    3 ≤ [3, 1, 2].length ∧
    (((bubbleSort [3, 1, 2] 3).take 3).Sorted (· ≤ ·) ∧
     ((bubbleSort [3, 1, 2] 3).take 3).Perm ([3, 1, 2].take 3) ∧
     (bubbleSort [3, 1, 2] 3).take 3 = ([3, 1, 2].take 3).insertionSort (· ≤ ·) ∧
     (3 ≤ 1 → bubbleSort [3, 1, 2] 3 = [3, 1, 2])) :=
  ⟨by decide, bubbleSort_sorts [3, 1, 2] 3 (by decide)⟩

/-! ## Theorems: the prime helper -/

theorem not_prime_of_dvd (n i : Nat) (h2 : 2 ≤ i) (hlt : i < n) (hd : i ∣ n) :
    ¬ Nat.Prime n := by
  intro hp
  exact (Nat.prime_def_lt'.mp hp).2 i h2 hlt hd

theorem prime_of_no_small_divisor (n i : Nat) (hn : 2 ≤ n) (hsq : n < i * i)
    (hdiv : ∀ d, 2 ≤ d → d < i → ¬ d ∣ n) : Nat.Prime n := by
  by_contra hnp
  have h1 : n ≠ 1 := by omega
  have hm2 : 2 ≤ Nat.minFac n := (Nat.minFac_prime h1).two_le
  have hsq' : Nat.minFac n ^ 2 ≤ n := Nat.minFac_sq_le_self (by omega) hnp
  have hlt : Nat.minFac n < i := by
    by_contra hge
    have hge' : i ≤ Nat.minFac n := by omega
    have : i * i ≤ Nat.minFac n ^ 2 := by
      rw [pow_two]
      exact Nat.mul_le_mul hge' hge'
    omega
  exact hdiv _ hm2 hlt (Nat.minFac_dvd n)

theorem sq_step (i n : Nat) (hi : 3 ≤ i) (hsq : i * i ≤ n) : i + 6 ≤ n := by
  have : 3 * i ≤ i * i := Nat.mul_le_mul_right i hi
  omega

theorem isPrimeLoop_spec (n : Nat) (hodd : n % 2 = 1) (hn : n < ULONG_MOD) :
    ∀ (fuel i : Nat), i % 2 = 1 → 3 ≤ i → i ≤ n →
      (∀ d, 2 ≤ d → d < i → ¬ d ∣ n) → isPrimeLoopOverflows n fuel i = false →
      n + 3 ≤ fuel + i → isPrimeLoop n fuel i = some (decide (Nat.Prime n)) := by
  intro fuel
  induction fuel with
  | zero => intro i _ _ hin _ _ hf; omega
  | succ fuel ih =>
    intro i hio hi3 hin hdiv hov hf
    unfold isPrimeLoopOverflows at hov
    unfold isPrimeLoop
    by_cases hbig : ULONG_MOD ≤ i * i
    · simp [hbig] at hov
    · rw [if_neg hbig] at hov
      have hmod : (i * i) % ULONG_MOD = i * i := Nat.mod_eq_of_lt (by omega)
      rw [hmod]
      by_cases hsq : i * i ≤ n
      · rw [if_pos hsq] at hov ⊢
        have h6 := sq_step i n hi3 hsq
        by_cases hrem : n % i = 0
        · rw [if_pos hrem]
          have : ¬ Nat.Prime n :=
            not_prime_of_dvd n i (by omega) (by omega) (Nat.dvd_of_mod_eq_zero hrem)
          simp [this]
        · rw [if_neg hrem] at hov ⊢
          have hmod2 : (i + 2) % ULONG_MOD = i + 2 := Nat.mod_eq_of_lt (by omega)
          rw [hmod2]
          refine ih (i + 2) (by omega) (by omega) (by omega) ?_ hov (by omega)
          intro d hd2 hdlt hdvd
          rcases Nat.lt_or_ge d i with hlt | hge
          · exact hdiv d hd2 hlt hdvd
          · rcases Nat.eq_or_lt_of_le hge with heq | hgt
            · subst heq
              exact hrem (Nat.mod_eq_zero_of_dvd hdvd)
            · have hd : d = i + 1 := by omega
              have h2 : 2 ∣ d := by
                apply Nat.dvd_of_mod_eq_zero
                omega
              have := Nat.mod_eq_zero_of_dvd (h2.trans hdvd)
              omega
      · rw [if_neg hsq]
        have : Nat.Prime n := prime_of_no_small_divisor n i (by omega) (by omega) hdiv
        simp [this]

theorem isPrime_spec (n : Nat) (hn : n < ULONG_MOD) (hov : isPrimeOverflows n = false) :
    isPrime n = some (decide (Nat.Prime n)) := by
  unfold isPrime
  unfold isPrimeOverflows at hov
  by_cases h2 : n < 2
  · rw [if_pos h2]
    have : ¬ Nat.Prime n := fun hp => by have := hp.two_le; omega
    simp [this]
  · rw [if_neg h2] at hov ⊢
    by_cases he : n = 2
    · rw [if_pos he]
      subst he
      simp [Nat.prime_two]
    · rw [if_neg he] at hov ⊢
      by_cases hev : n % 2 = 0
      · rw [if_pos hev]
        have : ¬ Nat.Prime n :=
          not_prime_of_dvd n 2 (by omega) (by omega) (Nat.dvd_of_mod_eq_zero hev)
        simp [this]
      · rw [if_neg hev] at hov ⊢
        refine isPrimeLoop_spec n (by omega) hn n 3 (by omega) (by omega) (by omega) ?_ hov
          (by omega)
        intro d hd2 hdlt hdvd
        have hd : d = 2 := by omega
        subst hd
        exact hev (Nat.mod_eq_zero_of_dvd hdvd)

theorem isPrimeLoop_no_overflow (n : Nat) (hn : n < 65535 * 65535) :
    ∀ (fuel i : Nat), i % 2 = 1 → i ≤ 65535 → isPrimeLoopOverflows n fuel i = false := by
  intro fuel
  induction fuel with
  | zero => intro i _ _; rfl
  | succ fuel ih =>
    intro i hio hi
    unfold isPrimeLoopOverflows
    have hii : i * i ≤ 65535 * 65535 := Nat.mul_le_mul hi hi
    rw [if_neg (by unfold ULONG_MOD; omega)]
    by_cases hsq : i * i ≤ n
    · rw [if_pos hsq]
      by_cases hrem : n % i = 0
      · rw [if_pos hrem]
      · rw [if_neg hrem]
        refine ih (i + 2) (by omega) ?_
        by_contra hgt
        have h1 : 65534 ≤ i := by omega
        have h2 : i = 65535 := by omega
        subst h2
        omega
    · rw [if_neg hsq]

/-- No product overflows when `n` is below `65535 * 65535 = 4294836225`. -/
theorem isPrime_no_overflow (n : Nat) (hn : n < 65535 * 65535) :
    isPrimeOverflows n = false := by
  unfold isPrimeOverflows
  split
  · rfl
  · split
    · rfl
    · split
      · rfl
      · exact isPrimeLoop_no_overflow n hn n 3 (by omega) (by omega)

theorem isPrimeLoop_returns (n : Nat) (hodd : n % 2 = 1) (hn : n < ULONG_MOD) :
    ∀ (fuel i : Nat), i % 2 = 1 → 3 ≤ i → i ≤ n → n + 3 ≤ fuel + i →
      isPrimeLoop n fuel i ≠ none := by
  intro fuel
  induction fuel with
  | zero => intro i _ _ hin hf; omega
  | succ fuel ih =>
    intro i hio hi3 hin hf
    unfold isPrimeLoop
    split
    · split
      · simp
      · rename_i hrem
        have hne : i ≠ n := by
          intro h
          subst h
          exact hrem (Nat.mod_self i)
        have hmod2 : (i + 2) % ULONG_MOD = i + 2 := Nat.mod_eq_of_lt (by omega)
        rw [hmod2]
        exact ih (i + 2) (by omega) (by omega) (by omega) (by omega)
    · simp

/-- `isPrime` returns on every `unsigned long`, overflow or not: the fuel of
its loop is never used up. -/
theorem isPrime_returns (n : Nat) (hn : n < ULONG_MOD) : isPrime n ≠ none := by
  unfold isPrime
  split
  · simp
  · split
    · simp
    · split
      · simp
      · exact isPrimeLoop_returns n (by omega) hn n 3 (by omega) (by omega) (by omega)
          (by omega)

/-- C4: for every `unsigned long` `n` for which no product `i * i` overflows
during the loop, `isPrime(n)` returns, and returns true if and only if `n` is a
prime number, that is `n ≥ 2` and no `d` with `1 < d < n` divides `n`; in
particular `isPrime(0) = isPrime(1) = false`, `isPrime(2) = true` and
`isPrime(9) = false`. -/
theorem isPrime_correct (n : Nat) (hn : n < ULONG_MOD) (hov : isPrimeOverflows n = false) :
    (∃ b, isPrime n = some b ∧ (b = true ↔ Nat.Prime n)) ∧
    (Nat.Prime n ↔ 2 ≤ n ∧ ∀ d, 1 < d → d < n → ¬ d ∣ n) ∧
    isPrime 0 = some false ∧ isPrime 1 = some false ∧
    isPrime 2 = some true ∧ isPrime 9 = some false := by
  refine ⟨⟨decide (Nat.Prime n), isPrime_spec n hn hov, by simp⟩, ?_,
    by decide, by decide, by decide, by decide⟩
  rw [Nat.prime_def_lt']
  constructor
  · rintro ⟨h2, h⟩
    exact ⟨h2, fun d hd hlt => h d hd hlt⟩
  · rintro ⟨h2, h⟩
    exact ⟨h2, fun d hd hlt => h d hd hlt⟩

/-- Witness of C4 at `n = 97`. -/
theorem isPrime_correct_witness :
    (97 < ULONG_MOD ∧ isPrimeOverflows 97 = false) ∧
    ((∃ b, isPrime 97 = some b ∧ (b = true ↔ Nat.Prime 97)) ∧
     (Nat.Prime 97 ↔ 2 ≤ 97 ∧ ∀ d, 1 < d → d < 97 → ¬ d ∣ 97) ∧
     isPrime 0 = some false ∧ isPrime 1 = some false ∧
     isPrime 2 = some true ∧ isPrime 9 = some false) :=
  ⟨⟨by decide, by decide⟩, isPrime_correct 97 (by decide) (by decide)⟩

/-! ## Theorems: the search for the N-th prime -/

theorem count_prime_add_two (c : Nat) (hodd : c % 2 = 1) (h3 : 3 ≤ c) :
    Nat.count Nat.Prime (c + 2) = Nat.count Nat.Prime c + if Nat.Prime c then 1 else 0 := by
  have hnp : ¬ Nat.Prime (c + 1) :=
    not_prime_of_dvd (c + 1) 2 (by omega) (by omega) (Nat.dvd_of_mod_eq_zero (by omega))
  rw [show c + 2 = (c + 1) + 1 from rfl, Nat.count_succ, Nat.count_succ, if_neg hnp]
  rfl

theorem le_nth_of_count_lt (N c : Nat) (hN : 1 ≤ N) (h : Nat.count Nat.Prime c < N) :
    c ≤ Nat.nth Nat.Prime (N - 1) := by
  have h1 : Nat.count Nat.Prime c ≤ N - 1 := by omega
  exact (Nat.count_le_iff_le_nth (p := Nat.Prime) Nat.infinite_setOf_prime).mp h1

theorem count_le_self (n : Nat) : Nat.count Nat.Prime n ≤ n := by
  induction n with
  | zero => simp
  | succ n ih =>
    rw [Nat.count_succ]
    split <;> omega

theorem primesSearch_spec (N : Nat) (hN : 2 ≤ N)
    (hb : Nat.nth Nat.Prime (N - 1) < 65535 * 65535) :
    ∀ (fuel c : Nat), c % 2 = 1 → 3 ≤ c → Nat.count Nat.Prime c < N →
      Nat.nth Nat.Prime (N - 1) + 2 ≤ fuel + c →
      primesSearch N fuel (Nat.count Nat.Prime c) c = some (Nat.nth Nat.Prime (N - 1)) := by
  have hcp : Nat.count Nat.Prime (Nat.nth Nat.Prime (N - 1)) = N - 1 :=
    Nat.count_nth_of_infinite Nat.infinite_setOf_prime _
  have hNle : N ≤ Nat.nth Nat.Prime (N - 1) + 1 := by
    have := count_le_self (Nat.nth Nat.Prime (N - 1))
    omega
  intro fuel
  induction fuel with
  | zero =>
    intro c _ _ hcnt hf
    have := le_nth_of_count_lt N c (by omega) hcnt
    omega
  | succ fuel ih =>
    intro c hodd h3 hcnt hf
    have hcp' := le_nth_of_count_lt N c (by omega) hcnt
    have hcM : c < ULONG_MOD := by unfold ULONG_MOD; omega
    have hip : isPrime c = some (decide (Nat.Prime c)) :=
      isPrime_spec c hcM (isPrime_no_overflow c (by omega))
    have h2 := count_prime_add_two c hodd h3
    unfold primesSearch
    rw [if_pos hcnt, hip]
    simp only
    by_cases hp : Nat.Prime c
    · simp only [hp, decide_True, if_true] at h2 ⊢
      have hmod : (Nat.count Nat.Prime c + 1) % ULONG_MOD = Nat.count Nat.Prime c + 1 :=
        Nat.mod_eq_of_lt (by unfold ULONG_MOD; omega)
      rw [hmod]
      by_cases hlt : Nat.count Nat.Prime c + 1 < N
      · rw [if_pos hlt]
        have hcp2 : c + 2 ≤ Nat.nth Nat.Prime (N - 1) :=
          le_nth_of_count_lt N (c + 2) (by omega) (by omega)
        have hmod2 : (c + 2) % ULONG_MOD = c + 2 :=
          Nat.mod_eq_of_lt (by unfold ULONG_MOD; omega)
        rw [hmod2, ← h2]
        exact ih (c + 2) (by omega) (by omega) (by omega) (by omega)
      · rw [if_neg hlt]
        have hcnt1 : Nat.count Nat.Prime c = N - 1 := by omega
        have hc : c = Nat.nth Nat.Prime (N - 1) := by
          rw [← hcnt1]
          exact (Nat.nth_count hp).symm
        match fuel, hf with
        | 0, hf => omega
        | fuel + 1, _ =>
          unfold primesSearch
          rw [if_neg hlt, hc]
    · simp only [hp, decide_False, if_false, Bool.false_eq_true] at h2 ⊢
      rw [if_pos hcnt]
      have hcp2 : c + 2 ≤ Nat.nth Nat.Prime (N - 1) :=
        le_nth_of_count_lt N (c + 2) (by omega) (by omega)
      have hmod2 : (c + 2) % ULONG_MOD = c + 2 :=
        Nat.mod_eq_of_lt (by unfold ULONG_MOD; omega)
      rw [hmod2]
      have := ih (c + 2) (by omega) (by omega) (by omega) (by omega)
      rw [h2] at this
      simpa using this

theorem count_prime_three : Nat.count Nat.Prime 3 = 1 := by
  simp [Nat.count_succ, Nat.prime_two, Nat.not_prime_zero, Nat.not_prime_one]

theorem toULong_natCast (N : Nat) (h : N < ULONG_MOD) : toULong (N : Int) = N := by
  unfold toULong
  rw [← Int.natCast_mod, Int.toNat_natCast, Nat.mod_eq_of_lt h]

theorem primesSearch_lt (N : Nat) :
    ∀ (fuel count c r : Nat), c < ULONG_MOD → primesSearch N fuel count c = some r →
      r < ULONG_MOD := by
  intro fuel
  induction fuel with
  | zero => intro count c r _ h; simp [primesSearch] at h
  | succ fuel ih =>
    intro count c r hc h
    unfold primesSearch at h
    split at h
    · split at h
      · simp at h
      · refine ih _ _ r ?_ h
        split_ifs <;> first | exact hc | exact Nat.mod_lt _ (by decide)
    · simp only [Option.some.injEq] at h
      omega

theorem count_prime_even_bound : ∀ k : Nat, Nat.count Nat.Prime (2 * k + 16) ≤ k + 6 := by
  intro k
  induction k with
  | zero =>
    simp [Nat.count_succ]
    decide
  | succ k ih =>
    have hnp : ¬ Nat.Prime (2 * k + 16) :=
      not_prime_of_dvd _ 2 (by omega) (by omega) (Nat.dvd_of_mod_eq_zero (by omega))
    rw [show 2 * (k + 1) + 16 = (2 * k + 16 + 1) + 1 by omega, Nat.count_succ, Nat.count_succ,
      if_neg hnp]
    split <;> omega

/-- The prime number of rank `INT_MAX = 2147483647` does not fit an
`unsigned long`: below `2^32` there are at most `2^31 - 2` primes, because every
prime but 2 is odd and 1, 9 and 15 are not prime. -/
theorem nth_prime_intmax_ge : ULONG_MOD ≤ Nat.nth Nat.Prime 2147483646 := by
  apply (Nat.count_le_iff_le_nth Nat.infinite_setOf_prime).mp
  have := count_prime_even_bound 2147483640
  unfold ULONG_MOD
  simpa using this

theorem primesSearch_nth (N : Nat) (hN : 1 ≤ N)
    (hb : Nat.nth Nat.Prime (N - 1) < 65535 * 65535) (fuel : Nat)
    (hf : Nat.nth Nat.Prime (N - 1) ≤ fuel) :
    ∃ c, primesSearch N fuel 1 3 = some c ∧
      (if (N : Int) = 1 then 2 else c) = Nat.nth Nat.Prime (N - 1) := by
  rcases Nat.eq_or_lt_of_le hN with h1 | h2
  · subst h1
    have h0 : Nat.nth Nat.Prime 0 = 2 := Nat.nth_prime_zero_eq_two
    simp only [Nat.sub_self, h0] at hf ⊢
    match fuel, hf with
    | fuel + 1, _ =>
      refine ⟨3, ?_, by simp⟩
      unfold primesSearch
      simp
  · have hne : ¬ ((N : Int) = 1) := by omega
    refine ⟨Nat.nth Nat.Prime (N - 1), ?_, by rw [if_neg hne]⟩
    have := primesSearch_spec N h2 hb fuel 3 (by omega) (by omega)
      (by rw [count_prime_three]; omega) (by omega)
    rwa [count_prime_three] at this

theorem nth_prime_two_eq_five : Nat.nth Nat.Prime 2 = 5 := by
  have h : Nat.count Nat.Prime 5 = 2 := by
    simp [Nat.count_succ]
    decide
  rw [← h]
  exact Nat.nth_count (by decide)

/-- C3, as amended: for every locked-in count `primesN = N` with `N ≥ 1` whose
N-th prime is below `65535 * 65535 = 4294836225` (so that neither `i * i` nor
`candidate` leaves the range of a 32-bit `unsigned long`), the search of
`handlePrimesCalculating` ends, given enough fuel, with `primesResult` equal to
the N-th prime number counting 2 as the first, and the automaton is then in
`PRIMES_RESULT`. -/
theorem handlePrimesCalculating_nth_prime (m : Machine) (now : Nat) (ms : ClockReads)
    (N : Nat) (hN : 1 ≤ N) (hm : m.primesN = (N : Int))
    (hb : Nat.nth Nat.Prime (N - 1) < 65535 * 65535) :
    ∃ fuel0, ∀ fuel, fuel0 ≤ fuel →
      ∃ m1, handlePrimesCalculating fuel m now ms = some m1 ∧
        m1.primesResult = Nat.nth Nat.Prime (N - 1) ∧
        m1.primesState = PrimesState.PRIMES_RESULT := by
  refine ⟨Nat.nth Nat.Prime (N - 1), fun fuel hf => ?_⟩
  obtain ⟨c, hc, hres⟩ := primesSearch_nth N hN hb fuel hf
  have hcp : Nat.count Nat.Prime (Nat.nth Nat.Prime (N - 1)) = N - 1 :=
    Nat.count_nth_of_infinite Nat.infinite_setOf_prime _
  have hNM : N < ULONG_MOD := by
    have := count_le_self (Nat.nth Nat.Prime (N - 1))
    unfold ULONG_MOD
    omega
  unfold handlePrimesCalculating
  simp only [lcdDo, hm, toULong_natCast N hNM, hc]
  refine ⟨_, rfl, ?_, ?_⟩
  · simpa [enterPrimesState, lcdDo] using hres
  · simp [enterPrimesState, lcdDo]

/-- Witness of the amended C3 at `N = 3`, whose third prime is 5. -/
theorem handlePrimesCalculating_nth_prime_witness :
    (1 ≤ 3 ∧ ({ machine0 with primesN := 3 } : Machine).primesN = ((3 : Nat) : Int) ∧
      Nat.nth Nat.Prime (3 - 1) < 65535 * 65535) ∧
    ∃ fuel0, ∀ fuel, fuel0 ≤ fuel →
      ∃ m1, handlePrimesCalculating fuel { machine0 with primesN := 3 } 0 ⟨0, 0⟩ = some m1 ∧
        m1.primesResult = Nat.nth Nat.Prime (3 - 1) ∧
        m1.primesState = PrimesState.PRIMES_RESULT :=
  ⟨⟨by decide, rfl, by rw [nth_prime_two_eq_five]; decide⟩,
   handlePrimesCalculating_nth_prime { machine0 with primesN := 3 } 0 ⟨0, 0⟩ 3 (by decide) rfl
     (by rw [nth_prime_two_eq_five]; decide)⟩

/-- C3 fails as stated: at `primesN = INT_MAX = 2147483647` no run of the search
ends with `primesResult` equal to the prime of that rank, which exceeds every
`unsigned long`. -/
theorem handlePrimesCalculating_intmax :
    ¬ ∃ fuel m1,
      handlePrimesCalculating fuel { machine0 with primesN := 2147483647 } 0 ⟨0, 0⟩ = some m1 ∧
      m1.primesResult = Nat.nth Nat.Prime (2147483647 - 1) := by
  rintro ⟨fuel, m1, h, hres⟩
  unfold handlePrimesCalculating at h
  simp only [lcdDo] at h
  split at h
  · simp at h
  · rename_i c hc
    have hlt := primesSearch_lt _ fuel 1 3 c (by decide) hc
    simp only [Option.some.injEq] at h
    subst h
    simp [enterPrimesState, lcdDo] at hres
    have := nth_prime_intmax_ge
    omega

/-! ## Theorems: ordinal suffix, state entry, slider mappings -/

theorem cAbs_eq_natAbs (n : Int) : cAbs n = (n.natAbs : Int) := by
  unfold cAbs
  split <;> omega

theorem tmod_natCast (a b : Nat) : Int.tmod (a : Int) (b : Int) = ((a % b : Nat) : Int) :=
  (Int.ofNat_tmod a b).symm

/-- C5: for every integer `n`, `ordinalSuffix(n)` returns "th" when
`|n| mod 100` is 11, 12 or 13; otherwise "st", "nd", "rd" when `|n| mod 10` is
1, 2, 3 respectively; otherwise "th".  In particular 1 gives "st", 2 "nd",
3 "rd", 11 "th", 21 "st", and 111, 112, 113 give "th". -/
theorem ordinalSuffix_spec (n : Int) :
    ordinalSuffix n =
      (if n.natAbs % 100 = 11 ∨ n.natAbs % 100 = 12 ∨ n.natAbs % 100 = 13 then "th"
       else if n.natAbs % 10 = 1 then "st"
       else if n.natAbs % 10 = 2 then "nd"
       else if n.natAbs % 10 = 3 then "rd"
       else "th") ∧
    ordinalSuffix 1 = "st" ∧ ordinalSuffix 2 = "nd" ∧ ordinalSuffix 3 = "rd" ∧
    ordinalSuffix 11 = "th" ∧ ordinalSuffix 21 = "st" ∧ ordinalSuffix 111 = "th" ∧
    ordinalSuffix 112 = "th" ∧ ordinalSuffix 113 = "th" := by
  refine ⟨?_, by decide, by decide, by decide, by decide, by decide, by decide, by decide,
    by decide⟩
  unfold ordinalSuffix
  simp only [cAbs_eq_natAbs]
  have h100 := tmod_natCast n.natAbs 100
  have h10 := tmod_natCast n.natAbs 10
  simp only [Nat.cast_ofNat] at h100 h10
  rw [h100, h10]
  have e1 : ((n.natAbs % 100 : Nat) : Int) ≥ 11 ∧ ((n.natAbs % 100 : Nat) : Int) ≤ 13 ↔
      (n.natAbs % 100 = 11 ∨ n.natAbs % 100 = 12 ∨ n.natAbs % 100 = 13) := by omega
  have e2 : ((n.natAbs % 10 : Nat) : Int) = 1 ↔ n.natAbs % 10 = 1 := by omega
  have e3 : ((n.natAbs % 10 : Nat) : Int) = 2 ↔ n.natAbs % 10 = 2 := by omega
  have e4 : ((n.natAbs % 10 : Nat) : Int) = 3 ↔ n.natAbs % 10 = 3 := by omega
  simp only [e1, e2, e3, e4]

/-- C6: for each of `enterCalcState`, `enterPrimesState` and `enterSortState`,
for every prior machine and every target state: after the call the current
state of the automaton is the target, `scrollOffset = 0`,
`potHasMoved = false`, and `stateEnteredAt` and `scrollTickAt` hold the clock
readings taken by the call, whatever these variables held before. -/
theorem enterState_resets (m : Machine) (ms : ClockReads) (c : CalcState) (p : PrimesState)
    (s : SortTestState) :
    ((enterCalcState m c ms).calcState = c ∧ (enterCalcState m c ms).scrollOffset = 0 ∧
      (enterCalcState m c ms).potHasMoved = false ∧
      (enterCalcState m c ms).stateEnteredAt = ms.r1 ∧
      (enterCalcState m c ms).scrollTickAt = ms.r2) ∧
    ((enterPrimesState m p ms).primesState = p ∧ (enterPrimesState m p ms).scrollOffset = 0 ∧
      (enterPrimesState m p ms).potHasMoved = false ∧
      (enterPrimesState m p ms).stateEnteredAt = ms.r1 ∧
      (enterPrimesState m p ms).scrollTickAt = ms.r2) ∧
    ((enterSortState m s ms).sortState = s ∧ (enterSortState m s ms).scrollOffset = 0 ∧
      (enterSortState m s ms).potHasMoved = false ∧
      (enterSortState m s ms).stateEnteredAt = ms.r1 ∧
      (enterSortState m s ms).scrollTickAt = ms.r2) := by
  refine ⟨?_, ?_, ?_⟩
  · unfold enterCalcState
    split <;> simp [lcdDo]
  · unfold enterPrimesState
    split <;> simp [lcdDo]
  · unfold enterSortState
    split <;> simp [lcdDo]

theorem map_operand_eq (r : Int) (h0 : 0 ≤ r) : map r 0 1023 1 1000 = r * 999 / 1023 + 1 := by
  unfold map
  rw [Int.tdiv_eq_ediv (by omega) (by omega)]
  norm_num

theorem map_primes_eq (r : Int) (h0 : 0 ≤ r) :
    map r 0 1023 30000 100000 = r * 70000 / 1023 + 30000 := by
  unfold map
  rw [Int.tdiv_eq_ediv (by omega) (by omega)]
  norm_num

/-- C7: for raw slider readings `r1 ≤ r2` in `0..1023`, the operand mapping
`map(r, 0, 1023, 1, 1000)` lies in `[1, 1000]` and the primes count mapping
`map(r, 0, 1023, 30000, 100000)` lies in `[30000, 100000]`; both mappings are
monotonically non-decreasing, send 0 to the lower bound and 1023 to the upper
bound, and depend on nothing but the reading: the value a select handler
stores is its old value or the mapping of `potValue`, whatever the rest of the
machine. -/
theorem map_bounds_monotone (r1 r2 : Int) (h0 : 0 ≤ r1) (h12 : r1 ≤ r2) (h1023 : r2 ≤ 1023) :
    (1 ≤ map r1 0 1023 1 1000 ∧ map r1 0 1023 1 1000 ≤ 1000) ∧
    (30000 ≤ map r1 0 1023 30000 100000 ∧ map r1 0 1023 30000 100000 ≤ 100000) ∧
    map r1 0 1023 1 1000 ≤ map r2 0 1023 1 1000 ∧
    map r1 0 1023 30000 100000 ≤ map r2 0 1023 30000 100000 ∧
    map 0 0 1023 1 1000 = 1 ∧ map 1023 0 1023 1 1000 = 1000 ∧
    map 0 0 1023 30000 100000 = 30000 ∧ map 1023 0 1023 30000 100000 = 100000 ∧
    (∀ (m : Machine) (now : Nat) (ms : ClockReads), m.potValue = r1 →
      ((handleCalcSelectA m now ms).calcA = m.calcA ∨
        (handleCalcSelectA m now ms).calcA = map r1 0 1023 1 1000) ∧
      ((handleCalcSelectB m now ms).calcB = m.calcB ∨
        (handleCalcSelectB m now ms).calcB = map r1 0 1023 1 1000) ∧
      ((handlePrimesShowN m now ms).primesN = m.primesN ∨
        (handlePrimesShowN m now ms).primesN = map r1 0 1023 30000 100000)) := by
  have hA1 := map_operand_eq r1 h0
  have hA2 := map_operand_eq r2 (by omega)
  have hP1 := map_primes_eq r1 h0
  have hP2 := map_primes_eq r2 (by omega)
  refine ⟨by omega, by omega, by omega, by omega, by decide, by decide, by decide, by decide,
    ?_⟩
  intro m now ms hm
  refine ⟨?_, ?_, ?_⟩
  · unfold handleCalcSelectA
    simp only [lcdDo, hm]
    split <;> simp [enterCalcState, lcdDo]
  · unfold handleCalcSelectB
    simp only [lcdDo, hm]
    split <;> simp [enterCalcState, lcdDo]
  · unfold handlePrimesShowN
    simp only [lcdDo, hm]
    split <;> simp [enterPrimesState, lcdDo]

/-- Witness of C7 at the readings 100 and 900. -/
theorem map_bounds_monotone_witness :
    ((0 : Int) ≤ 100 ∧ (100 : Int) ≤ 900 ∧ (900 : Int) ≤ 1023) ∧
    map 100 0 1023 1 1000 ≤ map 900 0 1023 1 1000 ∧
    map 100 0 1023 30000 100000 ≤ map 900 0 1023 30000 100000 :=
  ⟨⟨by decide, by decide, by decide⟩,
   (map_bounds_monotone 100 900 (by decide) (by decide) (by decide)).2.2.1,
   (map_bounds_monotone 100 900 (by decide) (by decide) (by decide)).2.2.2.1⟩

set_option maxRecDepth 100000 in
theorem potsOf_length :
    (potsOf '+').length = 256 ∧ (potsOf '-').length = 256 ∧
    (potsOf '*').length = 256 ∧ (potsOf '/').length = 256 := by
  refine ⟨?_, ?_, ?_, ?_⟩ <;> decide

/-- C8: for every raw slider reading `pot` in `0..1023`, `mapPotToOp(pot)` is
the plus sign iff `pot ≤ 255`, the minus sign iff `256 ≤ pot ≤ 511`, the star
iff `512 ≤ pot ≤ 767` and the slash iff `768 ≤ pot`; each of the four
operators is selected by exactly 256 raw values, and the result is one of the
four characters the `switch` of the result computation handles. -/
theorem mapPotToOp_quartiles (pot : Int) (h0 : 0 ≤ pot) (h1 : pot ≤ 1023) :
    (mapPotToOp pot = '+' ↔ pot ≤ 255) ∧
    (mapPotToOp pot = '-' ↔ 256 ≤ pot ∧ pot ≤ 511) ∧
    (mapPotToOp pot = '*' ↔ 512 ≤ pot ∧ pot ≤ 767) ∧
    (mapPotToOp pot = '/' ↔ 768 ≤ pot ∧ pot ≤ 1023) ∧
    ((potsOf '+').length = 256 ∧ (potsOf '-').length = 256 ∧
      (potsOf '*').length = 256 ∧ (potsOf '/').length = 256) ∧
    (mapPotToOp pot = '+' ∨ mapPotToOp pot = '-' ∨ mapPotToOp pot = '*' ∨
      mapPotToOp pot = '/') ∧
    (∀ m : Machine, m.calcOp = mapPotToOp pot →
      calcCompute m = FloatVal.add m.calcA m.calcB ∨
      calcCompute m = FloatVal.sub m.calcA m.calcB ∨
      calcCompute m = FloatVal.mul m.calcA m.calcB ∨
      calcCompute m = FloatVal.div m.calcA m.calcB) := by
  have hcases : (pot < 256 ∧ mapPotToOp pot = '+') ∨
      (256 ≤ pot ∧ pot < 512 ∧ mapPotToOp pot = '-') ∨
      (512 ≤ pot ∧ pot < 768 ∧ mapPotToOp pot = '*') ∨
      (768 ≤ pot ∧ mapPotToOp pot = '/') := by
    unfold mapPotToOp
    by_cases a : pot < 256
    · simp [a]
    · by_cases b : pot < 512
      · simp [a, b]; omega
      · by_cases c : pot < 768
        · simp [a, b, c]; omega
        · simp [a, b, c]; omega
  have d1 : ('+' : Char) ≠ '-' := by decide
  have d2 : ('+' : Char) ≠ '*' := by decide
  have d3 : ('+' : Char) ≠ '/' := by decide
  have d4 : ('-' : Char) ≠ '*' := by decide
  have d5 : ('-' : Char) ≠ '/' := by decide
  have d6 : ('*' : Char) ≠ '/' := by decide
  refine ⟨?_, ?_, ?_, ?_, potsOf_length, ?_, ?_⟩
  · rcases hcases with ⟨h, e⟩ | ⟨h, h', e⟩ | ⟨h, h', e⟩ | ⟨h, e⟩ <;> rw [e] <;>
      constructor <;> intro x <;> first | omega | rfl | (exact absurd x (by decide))
  · rcases hcases with ⟨h, e⟩ | ⟨h, h', e⟩ | ⟨h, h', e⟩ | ⟨h, e⟩ <;> rw [e] <;>
      constructor <;> intro x <;> first | omega | rfl | (exact absurd x (by decide))
  · rcases hcases with ⟨h, e⟩ | ⟨h, h', e⟩ | ⟨h, h', e⟩ | ⟨h, e⟩ <;> rw [e] <;>
      constructor <;> intro x <;> first | omega | rfl | (exact absurd x (by decide))
  · rcases hcases with ⟨h, e⟩ | ⟨h, h', e⟩ | ⟨h, h', e⟩ | ⟨h, e⟩ <;> rw [e] <;>
      constructor <;> intro x <;> first | omega | rfl | (exact absurd x (by decide))
  · rcases hcases with ⟨_, e⟩ | ⟨_, _, e⟩ | ⟨_, _, e⟩ | ⟨_, e⟩ <;> simp [e]
  · intro m hm
    unfold calcCompute
    rcases hcases with ⟨_, e⟩ | ⟨_, _, e⟩ | ⟨_, _, e⟩ | ⟨_, e⟩ <;> rw [hm, e] <;> simp

/-- Witness of C8 at the reading 600, which selects the star. -/
theorem mapPotToOp_quartiles_witness :
    ((0 : Int) ≤ 600 ∧ (600 : Int) ≤ 1023) ∧
    (mapPotToOp 600 = '*' ↔ (512 : Int) ≤ 600 ∧ (600 : Int) ≤ 767) :=
  ⟨⟨by decide, by decide⟩, (mapPotToOp_quartiles 600 (by decide) (by decide)).2.2.1⟩

/-! ## Theorems: the calculator automaton -/

theorem enterCalcState_operands (m : Machine) (next : CalcState) (ms : ClockReads) :
    (enterCalcState m next ms).calcA = m.calcA ∧ (enterCalcState m next ms).calcB = m.calcB := by
  unfold enterCalcState
  split <;> simp [lcdDo]

theorem handleCalcResult_operands (dtostrf : FloatVal → List Char) (m : Machine) (now : Nat) :
    (handleCalcResult dtostrf m now).calcA = m.calcA ∧
    (handleCalcResult dtostrf m now).calcB = m.calcB := by
  unfold handleCalcResult
  simp only [lcdDo, enterAppState]
  split_ifs <;> simp

theorem handleCalculator_operands (dtostrf : FloatVal → List Char) (m : Machine) (now : Nat)
    (ms : ClockReads) (h0 : 0 ≤ m.potValue) (h1 : m.potValue ≤ 1023)
    (hA : 1 ≤ m.calcA ∧ m.calcA ≤ 1000) (hB : 1 ≤ m.calcB ∧ m.calcB ≤ 1000) :
    (1 ≤ (handleCalculator dtostrf m now ms).calcA ∧
      (handleCalculator dtostrf m now ms).calcA ≤ 1000) ∧
    (1 ≤ (handleCalculator dtostrf m now ms).calcB ∧
      (handleCalculator dtostrf m now ms).calcB ≤ 1000) := by
  have hmap : 1 ≤ map m.potValue 0 1023 1 1000 ∧ map m.potValue 0 1023 1 1000 ≤ 1000 := by
    rw [map_operand_eq _ h0]
    omega
  unfold handleCalculator
  split
  · unfold handleCalcTitle
    simp only [lcdDo]
    split
    · simp only [(enterCalcState_operands _ _ _).1, (enterCalcState_operands _ _ _).2]
      exact ⟨hA, hB⟩
    · exact ⟨hA, hB⟩
  · unfold handleCalcIntro
    simp only [lcdDo]
    split
    · simp only [(enterCalcState_operands _ _ _).1, (enterCalcState_operands _ _ _).2]
      exact ⟨hA, hB⟩
    · exact ⟨hA, hB⟩
  · unfold handleCalcSelectAIntro
    simp only [lcdDo]
    split
    · simp only [(enterCalcState_operands _ _ _).1, (enterCalcState_operands _ _ _).2]
      exact ⟨hA, hB⟩
    · exact ⟨hA, hB⟩
  · unfold handleCalcSelectA
    simp only [lcdDo]
    split
    · simp only [(enterCalcState_operands _ _ _).1, (enterCalcState_operands _ _ _).2]
      exact ⟨hmap, hB⟩
    · exact ⟨hA, hB⟩
  · unfold handleCalcSelectBIntro
    simp only [lcdDo]
    split
    · simp only [(enterCalcState_operands _ _ _).1, (enterCalcState_operands _ _ _).2]
      exact ⟨hA, hB⟩
    · exact ⟨hA, hB⟩
  · unfold handleCalcSelectB
    simp only [lcdDo]
    split
    · simp only [(enterCalcState_operands _ _ _).1, (enterCalcState_operands _ _ _).2]
      exact ⟨hA, hmap⟩
    · exact ⟨hA, hB⟩
  · unfold handleCalcSelectOpIntro
    simp only [lcdDo]
    split
    · simp only [(enterCalcState_operands _ _ _).1, (enterCalcState_operands _ _ _).2]
      exact ⟨hA, hB⟩
    · exact ⟨hA, hB⟩
  · unfold handleCalcSelectOp
    simp only [lcdDo]
    split
    · simp only [(enterCalcState_operands _ _ _).1, (enterCalcState_operands _ _ _).2]
      exact ⟨hA, hB⟩
    · exact ⟨hA, hB⟩
  · rw [(handleCalcResult_operands dtostrf m now).1, (handleCalcResult_operands dtostrf m now).2]
    exact ⟨hA, hB⟩

/-- C9: in every calculator state reachable from the initial state
(`calcA = 1`, `calcB = 1`, `calcState = CALC_TITLE`) by any sequence of
`handleCalculator` ticks with raw slider readings in `0..1023`, `calcB` lies in
`[1, 1000]`, and so does `calcA`; hence the divisor is non-zero whenever
`handleCalcResult` evaluates `calcA / calcB`. -/
theorem calc_operands_in_range (dtostrf : FloatVal → List Char) (m : Machine)
    (h : CalcReachable dtostrf m) :
    (1 ≤ m.calcB ∧ m.calcB ≤ 1000) ∧ (1 ≤ m.calcA ∧ m.calcA ≤ 1000) ∧ m.calcB ≠ 0 ∧
    (m.calcOp = '/' → calcCompute m = FloatVal.div m.calcA m.calcB ∧ m.calcB ≠ 0) := by
  have key : (1 ≤ m.calcA ∧ m.calcA ≤ 1000) ∧ (1 ≤ m.calcB ∧ m.calcB ≤ 1000) := by
    induction h with
    | init m _ ha hb => rw [ha, hb]; decide
    | tick m pot remapped moved lastMovedAt now ms _ hlo hhi ih =>
      exact handleCalculator_operands dtostrf _ now ms hlo hhi ih.1 ih.2
    | restart m ms _ ih =>
      rw [(enterCalcState_operands _ _ _).1, (enterCalcState_operands _ _ _).2]
      exact ih
  refine ⟨key.2, key.1, by omega, fun hop => ⟨?_, by omega⟩⟩
  unfold calcCompute
  rw [hop]
  simp

theorem calcReachable_run (dtostrf : FloatVal → List Char) :
    ∀ (ts : List Tick) (m : Machine), CalcReachable dtostrf m → potsInRange ts = true →
      CalcReachable dtostrf (calcRun dtostrf m ts) := by
  intro ts
  induction ts with
  | nil => intro m h _; exact h
  | cons t ts ih =>
    intro m h hp
    simp only [potsInRange, Bool.and_eq_true, decide_eq_true_eq] at hp
    exact ih _ (CalcReachable.tick m t.potValue t.remapped t.moved t.lastMovedAt t.now t.ms h
      hp.1.1 hp.1.2) hp.2

/-- Witness of C9: the machine after the run `ticksDivide` from `machine0`.
The run locked `calcA = 500` from the reading 512, `calcB = 1000` from the
reading 1023 and the operator `/`, and its result tick evaluated
`calcA / calcB`. -/
theorem calc_operands_in_range_witness :
    (calcRun dtostrfTwo machine0 ticksDivide).calcState = CalcState.CALC_RESULT ∧
    (calcRun dtostrfTwo machine0 ticksDivide).calcA = 500 ∧
    (calcRun dtostrfTwo machine0 ticksDivide).calcB = 1000 ∧
    (calcRun dtostrfTwo machine0 ticksDivide).calcOp = '/' ∧
    (calcRun dtostrfTwo machine0 ticksDivide).calcResult = FloatVal.div 500 1000 ∧
    ((1 ≤ (calcRun dtostrfTwo machine0 ticksDivide).calcB ∧
        (calcRun dtostrfTwo machine0 ticksDivide).calcB ≤ 1000) ∧
      (1 ≤ (calcRun dtostrfTwo machine0 ticksDivide).calcA ∧
        (calcRun dtostrfTwo machine0 ticksDivide).calcA ≤ 1000) ∧
      (calcRun dtostrfTwo machine0 ticksDivide).calcB ≠ 0 ∧
      ((calcRun dtostrfTwo machine0 ticksDivide).calcOp = '/' →
        calcCompute (calcRun dtostrfTwo machine0 ticksDivide)
          = FloatVal.div (calcRun dtostrfTwo machine0 ticksDivide).calcA
              (calcRun dtostrfTwo machine0 ticksDivide).calcB ∧
        (calcRun dtostrfTwo machine0 ticksDivide).calcB ≠ 0)) :=
  ⟨by decide, by decide, by decide, by decide, by decide,
    calc_operands_in_range dtostrfTwo (calcRun dtostrfTwo machine0 ticksDivide)
      (calcReachable_run dtostrfTwo ticksDivide machine0
        (CalcReachable.init machine0 rfl rfl rfl) (by decide))⟩

/-! ## Theorems: the state-entry routines in closed form -/

theorem enterCalcState_eq (m : Machine) (next : CalcState) (ms : ClockReads) :
    enterCalcState m next ms
      = { m with calcState := next, stateEnteredAt := ms.r1, scrollOffset := 0,
                 scrollTickAt := ms.r2, potHasMoved := false,
                 lcd := m.lcd ++ [LcdOp.setRGB (if next = CalcState.CALC_RESULT
                   then Color.green else Color.pink), LcdOp.clear] } := by
  unfold enterCalcState
  simp only [lcdDo]
  split <;> simp

theorem enterPrimesState_eq (m : Machine) (next : PrimesState) (ms : ClockReads) :
    enterPrimesState m next ms
      = { m with primesState := next, stateEnteredAt := ms.r1, scrollOffset := 0,
                 scrollTickAt := ms.r2, potHasMoved := false,
                 lcd := m.lcd ++ [LcdOp.setRGB (if next = PrimesState.PRIMES_CALCULATING ∨
                   next = PrimesState.PRIMES_RESULT then Color.green else Color.pink),
                   LcdOp.clear] } := by
  unfold enterPrimesState
  simp only [lcdDo]
  split <;> simp

theorem enterSortState_eq (m : Machine) (next : SortTestState) (ms : ClockReads) :
    enterSortState m next ms
      = { m with sortState := next, stateEnteredAt := ms.r1, scrollOffset := 0,
                 scrollTickAt := ms.r2, potHasMoved := false,
                 lcd := m.lcd ++ [LcdOp.setRGB (if next = SortTestState.SORT_RUNNING
                   then Color.green else Color.pink), LcdOp.clear] } := by
  unfold enterSortState
  simp only [lcdDo]
  split <;> simp

theorem usub_eq_sub (a b : Nat) (ha : a < ULONG_MOD) (hb : b ≤ a) : usub a b = a - b := by
  unfold usub ULONG_MOD at *
  omega

/-! ## Theorems: the steps of the result handlers -/

theorem handleCalcResult_steps (dtostrf : FloatVal → List Char) (m : Machine) (now : Nat) :
    handleCalcResult dtostrf m now
      = crFinish now (lcdDo (celebAdvance now (celebReset [LcdOp.createChar 0 0]
          (crPrint dtostrf (crCompute now m)))) [LcdOp.write 0]) := rfl

theorem handlePrimesResult_steps (sk : Sketch) (m : Machine) (now : Nat) :
    handlePrimesResult sk m now
      = handBackIf 4500 now (lcdDo (celebAdvance now (celebReset [LcdOp.createChar 0 0]
          (lcdDo (prTop sk now m)
            [LcdOp.setCursor 0 1, LcdOp.printChars (primesBotText (prTop sk now m))])))
          [LcdOp.setCursor (primesBotText (prTop sk now m)).length 1, LcdOp.write 0]) := rfl

theorem handleSortWinner_steps (m : Machine) (now : Nat) :
    handleSortWinner m now
      = handBackIf 3600 now (lcdDo (celebAdvance now (celebReset winnerResetOps m))
          [LcdOp.setCursor 12 1, LcdOp.write 0]) := rfl

theorem lcdDo_core (m : Machine) (ops : List LcdOp) : (lcdDo m ops).core = m.core := rfl

theorem crCompute_core (now : Nat) (m : Machine) : (crCompute now m).core = m.core := by
  unfold crCompute; split <;> rfl

theorem crPrint_core (d : FloatVal → List Char) (m : Machine) : (crPrint d m).core = m.core :=
  rfl

theorem celebReset_core (ops : List LcdOp) (m : Machine) : (celebReset ops m).core = m.core := by
  unfold celebReset; split <;> rfl

theorem celebAdvance_core (now : Nat) (m : Machine) : (celebAdvance now m).core = m.core := by
  unfold celebAdvance; split <;> rfl

theorem crFinish_core (now : Nat) (m : Machine) : (crFinish now m).core = m.core := by
  unfold crFinish; split <;> rfl

theorem handBackIf_core (D now : Nat) (m : Machine) : (handBackIf D now m).core = m.core := by
  unfold handBackIf; split <;> rfl

theorem prTop_core (sk : Sketch) (now : Nat) (m : Machine) : (prTop sk now m).core = m.core := by
  unfold prTop; split_ifs <;> rfl

theorem handleCalcResult_core (dtostrf : FloatVal → List Char) (m : Machine) (now : Nat) :
    (handleCalcResult dtostrf m now).core = m.core := by
  rw [handleCalcResult_steps, crFinish_core, lcdDo_core, celebAdvance_core, celebReset_core,
    crPrint_core, crCompute_core]

theorem handlePrimesResult_core (sk : Sketch) (m : Machine) (now : Nat) :
    (handlePrimesResult sk m now).core = m.core := by
  rw [handlePrimesResult_steps, handBackIf_core, lcdDo_core, celebAdvance_core,
    celebReset_core, lcdDo_core, prTop_core]

theorem handleSortWinner_core (m : Machine) (now : Nat) :
    (handleSortWinner m now).core = m.core := by
  rw [handleSortWinner_steps, handBackIf_core, lcdDo_core, celebAdvance_core, celebReset_core]

theorem core_eq_iff (a b : Machine) :
    a.core = b.core ↔
      a.stateEnteredAt = b.stateEnteredAt ∧ a.calcState = b.calcState ∧ a.calcA = b.calcA ∧
      a.calcB = b.calcB ∧ a.calcOp = b.calcOp ∧ a.primesState = b.primesState ∧
      a.primesN = b.primesN ∧ a.primesResult = b.primesResult ∧ a.sortState = b.sortState ∧
      a.confirmedN = b.confirmedN := by
  simp [Machine.core]

/-! ### The display log through the steps -/

theorem crCompute_lcd (now : Nat) (m : Machine) : (crCompute now m).lcd = m.lcd := by
  unfold crCompute; split <;> rfl

theorem celebReset_lcd (ops : List LcdOp) (m : Machine) :
    (celebReset ops m).lcd = m.lcd ++ (if m.celebTickAt < m.stateEnteredAt then ops else []) := by
  unfold celebReset
  split
  · rfl
  · simp

theorem celebAdvance_lcd (now : Nat) (m : Machine) :
    (celebAdvance now m).lcd
      = m.lcd ++ (if now ≥ m.celebTickAt
          then [LcdOp.createChar 0 (Int.tmod (m.celebFrameIdx + 1) 3)] else []) := by
  unfold celebAdvance
  split
  · rfl
  · simp

theorem crFinish_lcd (now : Nat) (m : Machine) : (crFinish now m).lcd = m.lcd := by
  unfold crFinish; split <;> rfl

theorem handBackIf_lcd (D now : Nat) (m : Machine) : (handBackIf D now m).lcd = m.lcd := by
  unfold handBackIf; split <;> rfl

/-! ### The calculator result through the steps -/

theorem crCompute_calcResult (now : Nat) (m : Machine) :
    (crCompute now m).calcResult
      = if m.computed = false ∨ usub now m.stateEnteredAt < 10 then calcCompute m
        else m.calcResult := by
  unfold crCompute; split <;> rfl

theorem celebReset_calcResult (ops : List LcdOp) (m : Machine) :
    (celebReset ops m).calcResult = m.calcResult := by
  unfold celebReset; split <;> rfl

theorem celebAdvance_calcResult (now : Nat) (m : Machine) :
    (celebAdvance now m).calcResult = m.calcResult := by
  unfold celebAdvance; split <;> rfl

theorem crFinish_calcResult (now : Nat) (m : Machine) :
    (crFinish now m).calcResult = m.calcResult := by
  unfold crFinish; split <;> rfl

theorem handleCalcResult_calcResult (dtostrf : FloatVal → List Char) (m : Machine) (now : Nat) :
    (handleCalcResult dtostrf m now).calcResult = (crCompute now m).calcResult := by
  rw [handleCalcResult_steps, crFinish_calcResult]
  show (celebAdvance now _).calcResult = _
  rw [celebAdvance_calcResult, celebReset_calcResult]
  rfl

/-- The display calls of one `handleCalcResult` tick, in order. -/
theorem handleCalcResult_lcd (dtostrf : FloatVal → List Char) (m : Machine) (now : Nat) :
    (handleCalcResult dtostrf m now).lcd
      = m.lcd ++ ([LcdOp.setCursor 0 0, LcdOp.printInt m.calcA, LcdOp.printStr " ",
          LcdOp.printChar m.calcOp, LcdOp.printStr " ", LcdOp.printInt m.calcB,
          LcdOp.printStr " =", LcdOp.printStr "        ", LcdOp.setCursor 0 1,
          LcdOp.printChars (cString (truncateResult (resultBuffer
            (dtostrf (handleCalcResult dtostrf m now).calcResult)))),
          LcdOp.printStr " "]
        ++ (if m.celebTickAt < m.stateEnteredAt then [LcdOp.createChar 0 0] else [])
        ++ (if now ≥ (celebReset [LcdOp.createChar 0 0] m).celebTickAt
            then [LcdOp.createChar 0
              (Int.tmod ((celebReset [LcdOp.createChar 0 0] m).celebFrameIdx + 1) 3)]
            else [])
        ++ [LcdOp.write 0]) := by
  have hc := crCompute_core now m
  rw [core_eq_iff] at hc
  obtain ⟨h1, _, h3, h4, h5, _⟩ := hc
  have hct : (crCompute now m).celebTickAt = m.celebTickAt := by
    unfold crCompute; split <;> rfl
  have hcf : (crCompute now m).celebFrameIdx = m.celebFrameIdx := by
    unfold crCompute; split <;> rfl
  have hr1 : (celebReset [LcdOp.createChar 0 0] (crPrint dtostrf (crCompute now m))).celebTickAt
      = (celebReset [LcdOp.createChar 0 0] m).celebTickAt := by
    unfold celebReset
    simp only [crPrint, lcdDo, hct, h1]
    split <;> simp [hct]
  have hr2 : (celebReset [LcdOp.createChar 0 0] (crPrint dtostrf (crCompute now m))).celebFrameIdx
      = (celebReset [LcdOp.createChar 0 0] m).celebFrameIdx := by
    unfold celebReset
    simp only [crPrint, lcdDo, hct, h1]
    split <;> simp [hcf]
  rw [handleCalcResult_calcResult, handleCalcResult_steps, crFinish_lcd]
  show (celebAdvance now _).lcd ++ [LcdOp.write 0] = _
  rw [celebAdvance_lcd, celebReset_lcd, hr1, hr2]
  show ((crCompute now m).lcd ++ _ ++ _) ++ _ ++ _ ++ _ = _
  rw [crCompute_lcd, h3, h4, h5]
  have e1 : (crPrint dtostrf (crCompute now m)).celebTickAt = m.celebTickAt := hct
  have e2 : (crPrint dtostrf (crCompute now m)).stateEnteredAt = m.stateEnteredAt := h1
  rw [e1, e2]
  simp only [List.append_assoc, List.cons_append, List.nil_append]

/-! ### The hand-back log through the steps -/

theorem crCompute_appCalls (now : Nat) (m : Machine) :
    (crCompute now m).appCalls = m.appCalls := by
  unfold crCompute; split <;> rfl

theorem celebReset_appCalls (ops : List LcdOp) (m : Machine) :
    (celebReset ops m).appCalls = m.appCalls := by
  unfold celebReset; split <;> rfl

theorem celebAdvance_appCalls (now : Nat) (m : Machine) :
    (celebAdvance now m).appCalls = m.appCalls := by
  unfold celebAdvance; split <;> rfl

theorem prTop_appCalls (sk : Sketch) (now : Nat) (m : Machine) :
    (prTop sk now m).appCalls = m.appCalls := by
  unfold prTop; split_ifs <;> rfl

theorem crFinish_appCalls (now : Nat) (m : Machine) :
    (crFinish now m).appCalls
      = if usub now m.stateEnteredAt ≥ 5000 then m.appCalls ++ [1] else m.appCalls := by
  unfold crFinish; split <;> rfl

theorem handBackIf_appCalls (D now : Nat) (m : Machine) :
    (handBackIf D now m).appCalls
      = if usub now m.stateEnteredAt ≥ D then m.appCalls ++ [1] else m.appCalls := by
  unfold handBackIf; split <;> rfl

theorem stateEnteredAt_of_core (a b : Machine) (h : a.core = b.core) :
    a.stateEnteredAt = b.stateEnteredAt := ((core_eq_iff a b).mp h).1

theorem lcdDo_appCalls (m : Machine) (ops : List LcdOp) : (lcdDo m ops).appCalls = m.appCalls :=
  rfl

theorem crPrint_appCalls (d : FloatVal → List Char) (m : Machine) :
    (crPrint d m).appCalls = m.appCalls := rfl

theorem handleCalcResult_appCalls (dtostrf : FloatVal → List Char) (m : Machine) (now : Nat) :
    (handleCalcResult dtostrf m now).appCalls
      = if usub now m.stateEnteredAt ≥ 5000 then m.appCalls ++ [1] else m.appCalls := by
  have hc : (lcdDo (celebAdvance now (celebReset [LcdOp.createChar 0 0]
      (crPrint dtostrf (crCompute now m)))) [LcdOp.write 0]).core = m.core := by
    rw [lcdDo_core, celebAdvance_core, celebReset_core, crPrint_core, crCompute_core]
  rw [handleCalcResult_steps, crFinish_appCalls, stateEnteredAt_of_core _ _ hc, lcdDo_appCalls,
    celebAdvance_appCalls, celebReset_appCalls, crPrint_appCalls, crCompute_appCalls]

theorem handlePrimesResult_appCalls (sk : Sketch) (m : Machine) (now : Nat) :
    (handlePrimesResult sk m now).appCalls
      = if usub now m.stateEnteredAt ≥ 4500 then m.appCalls ++ [1] else m.appCalls := by
  have hc : (lcdDo (celebAdvance now (celebReset [LcdOp.createChar 0 0]
      (lcdDo (prTop sk now m)
        [LcdOp.setCursor 0 1, LcdOp.printChars (primesBotText (prTop sk now m))])))
      [LcdOp.setCursor (primesBotText (prTop sk now m)).length 1, LcdOp.write 0]).core
      = m.core := by
    rw [lcdDo_core, celebAdvance_core, celebReset_core, lcdDo_core, prTop_core]
  rw [handlePrimesResult_steps, handBackIf_appCalls, stateEnteredAt_of_core _ _ hc,
    lcdDo_appCalls, celebAdvance_appCalls, celebReset_appCalls, lcdDo_appCalls, prTop_appCalls]

theorem handleSortWinner_appCalls (m : Machine) (now : Nat) :
    (handleSortWinner m now).appCalls
      = if usub now m.stateEnteredAt ≥ 3600 then m.appCalls ++ [1] else m.appCalls := by
  have hc : (lcdDo (celebAdvance now (celebReset winnerResetOps m))
      [LcdOp.setCursor 12 1, LcdOp.write 0]).core = m.core := by
    rw [lcdDo_core, celebAdvance_core, celebReset_core]
  rw [handleSortWinner_steps, handBackIf_appCalls, stateEnteredAt_of_core _ _ hc,
    lcdDo_appCalls, celebAdvance_appCalls, celebReset_appCalls]

/-! ## Theorems: truncation of the displayed result -/

theorem strlen_resultBuffer (s : List Char) (hnul : NUL ∉ s) :
    strlen (resultBuffer s) = s.length := by
  unfold strlen resultBuffer
  rw [List.append_assoc, List.takeWhile_append_of_pos (by
    intro a ha
    have : a ≠ NUL := fun h => hnul (h ▸ ha)
    simpa using this)]
  simp

theorem cString_append_nul (p r : List Char) (hp : NUL ∉ p) :
    cString (p ++ NUL :: r) = p := by
  unfold cString
  rw [List.takeWhile_append_of_pos (by
    intro a ha
    have : a ≠ NUL := fun h => hp (h ▸ ha)
    simpa using this)]
  simp

theorem truncated_tail (t : List Char) (ht : t.length = 7) :
    ∃ r, (((t.set 0 '.').set 1 '.').set 2 '.').set 3 NUL = '.' :: '.' :: '.' :: NUL :: r := by
  match t, ht with
  | [a, b, c, d, e, f, g], _ => exact ⟨[e, f, g], rfl⟩

theorem dot_ne_nul : ('.' : Char) ≠ NUL := by decide

theorem cString_truncateResult (s : List Char) (hnul : NUL ∉ s) (hfit : s.length ≤ 19) :
    cString (truncateResult (resultBuffer s))
      = if s.length > 13 then s.take 13 ++ ['.', '.', '.'] else s := by
  unfold truncateResult
  simp only [strlen_resultBuffer s hnul]
  by_cases h : s.length > 13
  · rw [if_pos h, if_pos h]
    have hsplit : resultBuffer s
        = s.take 13 ++ (s.drop 13 ++ [NUL] ++ List.replicate (20 - (s.length + 1)) NUL) := by
      unfold resultBuffer
      rw [← List.append_assoc, ← List.append_assoc, List.take_append_drop]
    have hlen : (s.take 13).length = 13 := by simp; omega
    have ht : (s.drop 13 ++ [NUL] ++ List.replicate (20 - (s.length + 1)) NUL).length = 7 := by
      simp; omega
    obtain ⟨r, hr⟩ := truncated_tail _ ht
    have h13 : (s.take 13).length ≤ 13 := by omega
    have h14 : (s.take 13).length ≤ 14 := by omega
    have h15 : (s.take 13).length ≤ 15 := by omega
    have h16 : (s.take 13).length ≤ 16 := by omega
    rw [hsplit, List.set_append_right _ _ h13, List.set_append_right _ _ h14,
      List.set_append_right _ _ h15, List.set_append_right _ _ h16]
    simp only [List.length_append, List.length_set, hlen, Nat.sub_self,
      show 14 - 13 = 1 from rfl, show 15 - 13 = 2 from rfl, show 16 - 13 = 3 from rfl]
    rw [hr]
    have := cString_append_nul (s.take 13 ++ ['.', '.', '.']) r (by
      intro hmem
      rcases List.mem_append.mp hmem with h1 | h2
      · exact hnul (List.mem_of_mem_take h1)
      · simp only [List.mem_cons, List.mem_singleton, List.not_mem_nil, or_false] at h2
        rcases h2 with h2 | h2 | h2 <;> exact dot_ne_nul h2.symm)
    simpa using this
  · rw [if_neg h, if_neg h]
    unfold resultBuffer
    rw [List.append_assoc]
    exact cString_append_nul s _ hnul

/-- C11: for the formatted result string `s` that `handleCalcResult` prints
(`s` a C string that fits the 20-byte buffer): if `length s > 13` the string
printed on the bottom row is the first 13 characters of `s` followed by three
dots, of total length 16; if `length s ≤ 13` it is `s` unchanged.  The tenth
display call of the tick prints it. -/
theorem handleCalcResult_truncates (dtostrf : FloatVal → List Char) (m : Machine) (now : Nat)
    (s : List Char) (hs : dtostrf (handleCalcResult dtostrf m now).calcResult = s)
    (hnul : NUL ∉ s) (hfit : s.length ≤ 19) :
    (handleCalcResult dtostrf m now).lcd[m.lcd.length + 9]?
      = some (LcdOp.printChars (if s.length > 13 then s.take 13 ++ ['.', '.', '.'] else s)) ∧
    (s.length > 13 → (s.take 13 ++ ['.', '.', '.']).length = 16) := by
  refine ⟨?_, fun hl => by simp; omega⟩
  rw [handleCalcResult_lcd, hs, cString_truncateResult s hnul hfit,
    List.getElem?_append_right (by omega)]
  simp

/-- Witness of C11 with an 18-character result string. -/
theorem handleCalcResult_truncates_witness :
    ((fun _ => "123456789012345.00".toList)
        (handleCalcResult (fun _ => "123456789012345.00".toList) machine0 0).calcResult
        = "123456789012345.00".toList ∧
      NUL ∉ "123456789012345.00".toList ∧ "123456789012345.00".toList.length ≤ 19) ∧
    (handleCalcResult (fun _ => "123456789012345.00".toList) machine0 0).lcd[
        machine0.lcd.length + 9]?
      = some (LcdOp.printChars (if "123456789012345.00".toList.length > 13
          then "123456789012345.00".toList.take 13 ++ ['.', '.', '.']
          else "123456789012345.00".toList)) :=
  ⟨⟨rfl, by decide, by decide⟩,
   (handleCalcResult_truncates (fun _ => "123456789012345.00".toList) machine0 0
      "123456789012345.00".toList rfl (by decide) (by decide)).1⟩

/-! ## Theorems: the transition predicates -/

/-- C13: in every non-terminal fixed-dwell state of the Calculator and Primes
automata, for every tick with `now ≥ stateEnteredAt`, whatever the slider
sample `p r mv l`, the handler enters the next state if and only if
`now - stateEnteredAt ≥ D`, and otherwise leaves the state unchanged, where `D`
is 1000 for `CALC_TITLE`, 2000 for `CALC_INTRO`, 1200 for the three
`CALC_SELECT_.._INTRO` states, 1000 for `PRIMES_TITLE` and 1500 for
`PRIMES_INTRO_1` and `PRIMES_INTRO_2`. -/
theorem dwell_transitions (dtostrf : FloatVal → List Char) (sk : Sketch) (fuel : Nat)
    (m : Machine) (p r : Int) (mv : Bool) (l now : Nat) (ms : ClockReads)
    (hnow : now < ULONG_MOD) (hent : m.stateEnteredAt ≤ now) :
    (m.calcState = CalcState.CALC_TITLE →
      (handleCalculator dtostrf (samplePot m p r mv l) now ms).calcState
        = if now - m.stateEnteredAt ≥ 1000 then CalcState.CALC_INTRO
          else CalcState.CALC_TITLE) ∧
    (m.calcState = CalcState.CALC_INTRO →
      (handleCalculator dtostrf (samplePot m p r mv l) now ms).calcState
        = if now - m.stateEnteredAt ≥ 2000 then CalcState.CALC_SELECT_A_INTRO
          else CalcState.CALC_INTRO) ∧
    (m.calcState = CalcState.CALC_SELECT_A_INTRO →
      (handleCalculator dtostrf (samplePot m p r mv l) now ms).calcState
        = if now - m.stateEnteredAt ≥ 1200 then CalcState.CALC_SELECT_A
          else CalcState.CALC_SELECT_A_INTRO) ∧
    (m.calcState = CalcState.CALC_SELECT_B_INTRO →
      (handleCalculator dtostrf (samplePot m p r mv l) now ms).calcState
        = if now - m.stateEnteredAt ≥ 1200 then CalcState.CALC_SELECT_B
          else CalcState.CALC_SELECT_B_INTRO) ∧
    (m.calcState = CalcState.CALC_SELECT_OP_INTRO →
      (handleCalculator dtostrf (samplePot m p r mv l) now ms).calcState
        = if now - m.stateEnteredAt ≥ 1200 then CalcState.CALC_SELECT_OP
          else CalcState.CALC_SELECT_OP_INTRO) ∧
    (m.primesState = PrimesState.PRIMES_TITLE →
      ∃ m1, handlePrimes sk fuel (samplePot m p r mv l) now ms = some m1 ∧
        m1.primesState = if now - m.stateEnteredAt ≥ 1000 then PrimesState.PRIMES_INTRO_1
          else PrimesState.PRIMES_TITLE) ∧
    (m.primesState = PrimesState.PRIMES_INTRO_1 →
      ∃ m1, handlePrimes sk fuel (samplePot m p r mv l) now ms = some m1 ∧
        m1.primesState = if now - m.stateEnteredAt ≥ 1500 then PrimesState.PRIMES_INTRO_2
          else PrimesState.PRIMES_INTRO_1) ∧
    (m.primesState = PrimesState.PRIMES_INTRO_2 →
      ∃ m1, handlePrimes sk fuel (samplePot m p r mv l) now ms = some m1 ∧
        m1.primesState = if now - m.stateEnteredAt ≥ 1500 then PrimesState.PRIMES_SHOW_N
          else PrimesState.PRIMES_INTRO_2) := by
  have hu : usub now m.stateEnteredAt = now - m.stateEnteredAt := usub_eq_sub _ _ hnow hent
  refine ⟨?_, ?_, ?_, ?_, ?_, ?_, ?_, ?_⟩
  · intro hs
    simp only [handleCalculator, samplePot, hs, handleCalcTitle, enterCalcState_eq, lcdDo, hu]
    split <;> rfl
  · intro hs
    simp only [handleCalculator, samplePot, hs, handleCalcIntro, enterCalcState_eq, lcdDo, hu]
    split <;> rfl
  · intro hs
    simp only [handleCalculator, samplePot, hs, handleCalcSelectAIntro, enterCalcState_eq,
      lcdDo, hu]
    split <;> rfl
  · intro hs
    simp only [handleCalculator, samplePot, hs, handleCalcSelectBIntro, enterCalcState_eq,
      lcdDo, hu]
    split <;> rfl
  · intro hs
    simp only [handleCalculator, samplePot, hs, handleCalcSelectOpIntro, enterCalcState_eq,
      lcdDo, hu]
    split <;> rfl
  · intro hs
    have hs1 : (samplePot m p r mv l).primesState = PrimesState.PRIMES_TITLE := hs
    refine ⟨handlePrimesTitle (samplePot m p r mv l) now ms, by simp only [handlePrimes, hs1], ?_⟩
    simp only [handlePrimesTitle, samplePot, enterPrimesState_eq, lcdDo, hu]
    split <;> first | rfl | exact hs
  · intro hs
    have hs1 : (samplePot m p r mv l).primesState = PrimesState.PRIMES_INTRO_1 := hs
    refine ⟨handlePrimesIntro1 (samplePot m p r mv l) now ms, by simp only [handlePrimes, hs1], ?_⟩
    simp only [handlePrimesIntro1, samplePot, enterPrimesState_eq, lcdDo, hu]
    split <;> first | rfl | exact hs
  · intro hs
    have hs1 : (samplePot m p r mv l).primesState = PrimesState.PRIMES_INTRO_2 := hs
    refine ⟨handlePrimesIntro2 (samplePot m p r mv l) now ms, by simp only [handlePrimes, hs1], ?_⟩
    simp only [handlePrimesIntro2, samplePot, enterPrimesState_eq, lcdDo, hu]
    split <;> first | rfl | exact hs

/-- Witness of C13: a machine that entered `CALC_TITLE` at time 0, ticked at
time 1000. -/
theorem dwell_transitions_witness :
    (1000 < ULONG_MOD ∧ machine0.stateEnteredAt ≤ 1000) ∧
    (machine0.calcState = CalcState.CALC_TITLE →
      (handleCalculator (fun _ => []) (samplePot machine0 0 0 false 0) 1000 ⟨1000, 1000⟩).calcState
        = if 1000 - machine0.stateEnteredAt ≥ 1000 then CalcState.CALC_INTRO
          else CalcState.CALC_TITLE) :=
  ⟨⟨by decide, by decide⟩,
   (dwell_transitions (fun _ => []) sketch0 0 machine0 0 0 false 0
      1000 ⟨1000, 1000⟩ (by decide) (by decide)).1⟩

/-- C12: in each slider-selection state (`CALC_SELECT_A`, `CALC_SELECT_B`,
`CALC_SELECT_OP` with `D = 1300`, `PRIMES_SHOW_N` with `D = 1500`, `SORT_SHOW_N`
with `D = 1300`), for every tick with `now ≥ potLastMovedAt`: the handler leaves
the selection state if and only if `potHasMoved` is true and
`now - potLastMovedAt ≥ D`, and when it does it stores the currently mapped
slider value into the locked-in variable of the state and enters the next
state.  With `potHasMoved` cleared no tick at any time leaves the state. -/
theorem settle_transitions (dtostrf : FloatVal → List Char) (sk : Sketch) (fuel : Nat)
    (env : SortEnv) (m : Machine) (now : Nat) (ms : ClockReads)
    (hnow : now < ULONG_MOD) (hmov : m.potLastMovedAt ≤ now) :
    (m.calcState = CalcState.CALC_SELECT_A →
      ((handleCalculator dtostrf m now ms).calcState ≠ CalcState.CALC_SELECT_A ↔
        (m.potHasMoved = true ∧ now - m.potLastMovedAt ≥ 1300)) ∧
      (m.potHasMoved = true ∧ now - m.potLastMovedAt ≥ 1300 →
        (handleCalculator dtostrf m now ms).calcA = map m.potValue 0 1023 1 1000 ∧
        (handleCalculator dtostrf m now ms).calcState = CalcState.CALC_SELECT_B_INTRO) ∧
      (m.potHasMoved = false → ∀ now1 ms1,
        (handleCalculator dtostrf m now1 ms1).calcState = CalcState.CALC_SELECT_A)) ∧
    (m.calcState = CalcState.CALC_SELECT_B →
      ((handleCalculator dtostrf m now ms).calcState ≠ CalcState.CALC_SELECT_B ↔
        (m.potHasMoved = true ∧ now - m.potLastMovedAt ≥ 1300)) ∧
      (m.potHasMoved = true ∧ now - m.potLastMovedAt ≥ 1300 →
        (handleCalculator dtostrf m now ms).calcB = map m.potValue 0 1023 1 1000 ∧
        (handleCalculator dtostrf m now ms).calcState = CalcState.CALC_SELECT_OP_INTRO) ∧
      (m.potHasMoved = false → ∀ now1 ms1,
        (handleCalculator dtostrf m now1 ms1).calcState = CalcState.CALC_SELECT_B)) ∧
    (m.calcState = CalcState.CALC_SELECT_OP →
      ((handleCalculator dtostrf m now ms).calcState ≠ CalcState.CALC_SELECT_OP ↔
        (m.potHasMoved = true ∧ now - m.potLastMovedAt ≥ 1300)) ∧
      (m.potHasMoved = true ∧ now - m.potLastMovedAt ≥ 1300 →
        (handleCalculator dtostrf m now ms).calcOp = mapPotToOp m.potValue ∧
        (handleCalculator dtostrf m now ms).calcState = CalcState.CALC_RESULT) ∧
      (m.potHasMoved = false → ∀ now1 ms1,
        (handleCalculator dtostrf m now1 ms1).calcState = CalcState.CALC_SELECT_OP)) ∧
    (m.primesState = PrimesState.PRIMES_SHOW_N →
      ∃ m1, handlePrimes sk fuel m now ms = some m1 ∧
      (m1.primesState ≠ PrimesState.PRIMES_SHOW_N ↔
        (m.potHasMoved = true ∧ now - m.potLastMovedAt ≥ 1500)) ∧
      (m.potHasMoved = true ∧ now - m.potLastMovedAt ≥ 1500 →
        m1.primesN = map m.potValue 0 1023 30000 100000 ∧
        m1.primesState = PrimesState.PRIMES_CALCULATING) ∧
      (m.potHasMoved = false → ∀ now1 ms1, ∃ m2, handlePrimes sk fuel m now1 ms1 = some m2 ∧
        m2.primesState = PrimesState.PRIMES_SHOW_N)) ∧
    (m.sortState = SortTestState.SORT_SHOW_N →
      ((handleSortTest env m now ms).sortState ≠ SortTestState.SORT_SHOW_N ↔
        (m.potHasMoved = true ∧ now - m.potLastMovedAt ≥ 1300)) ∧
      (m.potHasMoved = true ∧ now - m.potLastMovedAt ≥ 1300 →
        (handleSortTest env m now ms).confirmedN = m.remappedPotValue ∧
        (handleSortTest env m now ms).sortState = SortTestState.SORT_CONFIRM_N) ∧
      (m.potHasMoved = false → ∀ now1 ms1,
        (handleSortTest env m now1 ms1).sortState = SortTestState.SORT_SHOW_N)) := by
  have hu : usub now m.potLastMovedAt = now - m.potLastMovedAt := usub_eq_sub _ _ hnow hmov
  refine ⟨?_, ?_, ?_, ?_, ?_⟩
  · intro hs
    have hd : ∀ n1 s1, handleCalculator dtostrf m n1 s1 = handleCalcSelectA m n1 s1 := by
      intro n1 s1; simp only [handleCalculator, hs]
    simp only [hd, handleCalcSelectA, enterCalcState_eq, lcdDo]
    refine ⟨?_, ?_, ?_⟩
    · rw [hu]
      split <;> simp_all
    · intro hc
      rw [hu, if_pos hc]
      exact ⟨rfl, rfl⟩
    · intro hf now1 ms1
      rw [if_neg (by simp [hf])]
      exact hs
  · intro hs
    have hd : ∀ n1 s1, handleCalculator dtostrf m n1 s1 = handleCalcSelectB m n1 s1 := by
      intro n1 s1; simp only [handleCalculator, hs]
    simp only [hd, handleCalcSelectB, enterCalcState_eq, lcdDo]
    refine ⟨?_, ?_, ?_⟩
    · rw [hu]
      split <;> simp_all
    · intro hc
      rw [hu, if_pos hc]
      exact ⟨rfl, rfl⟩
    · intro hf now1 ms1
      rw [if_neg (by simp [hf])]
      exact hs
  · intro hs
    have hd : ∀ n1 s1, handleCalculator dtostrf m n1 s1 = handleCalcSelectOp m n1 s1 := by
      intro n1 s1; simp only [handleCalculator, hs]
    simp only [hd, handleCalcSelectOp, enterCalcState_eq, lcdDo]
    refine ⟨?_, ?_, ?_⟩
    · rw [hu]
      split <;> simp_all
    · intro hc
      rw [hu, if_pos hc]
      exact ⟨rfl, rfl⟩
    · intro hf now1 ms1
      rw [if_neg (by simp [hf])]
      exact hs
  · intro hs
    have hd : ∀ n1 s1, handlePrimes sk fuel m n1 s1 = some (handlePrimesShowN m n1 s1) := by
      intro n1 s1; simp only [handlePrimes, hs]
    refine ⟨_, hd now ms, ?_⟩
    simp only [hd, handlePrimesShowN, enterPrimesState_eq, lcdDo]
    refine ⟨?_, ?_, ?_⟩
    · rw [hu]
      split <;> simp_all
    · intro hc
      rw [hu, if_pos hc]
      exact ⟨rfl, rfl⟩
    · intro hf now1 ms1
      refine ⟨_, rfl, ?_⟩
      rw [if_neg (by simp [hf])]
      exact hs
  · intro hs
    have hd : ∀ n1 s1, handleSortTest env m n1 s1 = handleSortShowN m n1 s1 := by
      intro n1 s1; simp only [handleSortTest, hs]
    simp only [hd, handleSortShowN, enterSortState_eq, lcdDo]
    refine ⟨?_, ?_, ?_⟩
    · rw [hu]
      split <;> simp_all
    · intro hc
      rw [hu, if_pos hc]
      exact ⟨rfl, rfl⟩
    · intro hf now1 ms1
      rw [if_neg (by simp [hf])]
      exact hs

/-- Witness of C12: the slider moved at time 0 and left at raw value 512, the
tick at time 1300 in `CALC_SELECT_A`. -/
theorem settle_transitions_witness :
    (1300 < ULONG_MOD ∧ machineSelectA.potLastMovedAt ≤ 1300) ∧
    (handleCalculator (fun _ => []) machineSelectA 1300 ⟨1300, 1300⟩).calcA
      = map machineSelectA.potValue 0 1023 1 1000 :=
  ⟨⟨by decide, by decide⟩,
   (((settle_transitions (fun _ => []) sketch0 0 sortEnv0 machineSelectA 1300 ⟨1300, 1300⟩
      (by decide) (by decide)).1 rfl).2.1 ⟨rfl, by decide⟩).1⟩

/-- C16: in the terminal state of each automaton (`CALC_RESULT` with `D = 5000`,
`PRIMES_RESULT` with `D = 4500`, `SORT_WINNER` with `D = 3600`), for every tick
with `now ≥ stateEnteredAt`: the handler signals hand-back, that is calls
`enterAppState(1)`, if and only if `now - stateEnteredAt ≥ D`; it never enters
a state, so the state tag and `stateEnteredAt` are as before the tick. -/
theorem terminal_hand_back (dtostrf : FloatVal → List Char) (sk : Sketch) (fuel : Nat)
    (env : SortEnv) (m : Machine) (now : Nat) (ms : ClockReads)
    (hnow : now < ULONG_MOD) (hent : m.stateEnteredAt ≤ now) :
    (m.calcState = CalcState.CALC_RESULT →
      (handleCalculator dtostrf m now ms).appCalls
        = (if now - m.stateEnteredAt ≥ 5000 then m.appCalls ++ [1] else m.appCalls) ∧
      (handleCalculator dtostrf m now ms).calcState = CalcState.CALC_RESULT ∧
      (handleCalculator dtostrf m now ms).stateEnteredAt = m.stateEnteredAt) ∧
    (m.primesState = PrimesState.PRIMES_RESULT →
      ∃ m1, handlePrimes sk fuel m now ms = some m1 ∧
      m1.appCalls
        = (if now - m.stateEnteredAt ≥ 4500 then m.appCalls ++ [1] else m.appCalls) ∧
      m1.primesState = PrimesState.PRIMES_RESULT ∧
      m1.stateEnteredAt = m.stateEnteredAt) ∧
    (m.sortState = SortTestState.SORT_WINNER →
      (handleSortTest env m now ms).appCalls
        = (if now - m.stateEnteredAt ≥ 3600 then m.appCalls ++ [1] else m.appCalls) ∧
      (handleSortTest env m now ms).sortState = SortTestState.SORT_WINNER ∧
      (handleSortTest env m now ms).stateEnteredAt = m.stateEnteredAt) := by
  have hu : usub now m.stateEnteredAt = now - m.stateEnteredAt := usub_eq_sub _ _ hnow hent
  refine ⟨?_, ?_, ?_⟩
  · intro hs
    have hd : handleCalculator dtostrf m now ms = handleCalcResult dtostrf m now := by
      simp only [handleCalculator, hs]
    have hc := (core_eq_iff _ _).mp (handleCalcResult_core dtostrf m now)
    rw [hd, handleCalcResult_appCalls, hu]
    exact ⟨rfl, hc.2.1.trans hs, hc.1⟩
  · intro hs
    have hd : handlePrimes sk fuel m now ms = some (handlePrimesResult sk m now) := by
      simp only [handlePrimes, hs]
    have hc := (core_eq_iff _ _).mp (handlePrimesResult_core sk m now)
    refine ⟨_, hd, ?_, hc.2.2.2.2.2.1.trans hs, hc.1⟩
    rw [handlePrimesResult_appCalls, hu]
  · intro hs
    have hd : handleSortTest env m now ms = handleSortWinner m now := by
      simp only [handleSortTest, hs]
    have hc := (core_eq_iff _ _).mp (handleSortWinner_core m now)
    rw [hd, handleSortWinner_appCalls, hu]
    exact ⟨rfl, hc.2.2.2.2.2.2.2.2.1.trans hs, hc.1⟩

/-- Witness of C16: the calculator in `CALC_RESULT`, entered at time 5, ticked
at time 5005. -/
theorem terminal_hand_back_witness :
    (5005 < ULONG_MOD ∧ machineResult.stateEnteredAt ≤ 5005) ∧
    (handleCalculator (fun _ => []) machineResult 5005 ⟨5005, 5005⟩).appCalls
      = (if 5005 - machineResult.stateEnteredAt ≥ 5000 then machineResult.appCalls ++ [1]
         else machineResult.appCalls) :=
  ⟨⟨by decide, by decide⟩,
   ((terminal_hand_back (fun _ => []) sketch0 0 sortEnv0 machineResult 5005 ⟨5005, 5005⟩
      (by decide) (by decide)).1 rfl).1⟩

/-! ## Theorems: the glyph animation -/

theorem celebReset_celeb (ops : List LcdOp) (m : Machine) :
    (celebReset ops m).celeb
      = if m.celebTickAt < m.stateEnteredAt then (0, uadd m.stateEnteredAt 200)
        else (m.celebFrameIdx, m.celebTickAt) := by
  unfold celebReset; split <;> rfl

theorem celebAdvance_celeb (now : Nat) (m : Machine) :
    (celebAdvance now m).celeb
      = if now ≥ m.celebTickAt then (Int.tmod (m.celebFrameIdx + 1) 3, uadd now 200)
        else (m.celebFrameIdx, m.celebTickAt) := by
  unfold celebAdvance; split <;> rfl

theorem celeb_eq_iff (a b : Machine) :
    a.celeb = b.celeb ↔ a.celebFrameIdx = b.celebFrameIdx ∧ a.celebTickAt = b.celebTickAt := by
  simp [Machine.celeb]

theorem lcdDo_celeb (m : Machine) (ops : List LcdOp) : (lcdDo m ops).celeb = m.celeb := rfl

theorem crPrint_celeb (d : FloatVal → List Char) (m : Machine) :
    (crPrint d m).celeb = m.celeb := rfl

theorem crCompute_celeb (now : Nat) (m : Machine) : (crCompute now m).celeb = m.celeb := by
  unfold crCompute; split <;> rfl

theorem crFinish_celeb (now : Nat) (m : Machine) : (crFinish now m).celeb = m.celeb := by
  unfold crFinish; split <;> rfl

theorem handBackIf_celeb (D now : Nat) (m : Machine) : (handBackIf D now m).celeb = m.celeb := by
  unfold handBackIf; split <;> rfl

theorem prTop_celeb (sk : Sketch) (now : Nat) (m : Machine) : (prTop sk now m).celeb = m.celeb := by
  unfold prTop; split_ifs <;> rfl

/-- The animation variables after the two animation blocks, from the values
before them. -/
theorem celebBlocks_celeb (ops : List LcdOp) (now : Nat) (m : Machine) :
    (celebAdvance now (celebReset ops m)).celeb
      = if m.celebTickAt < m.stateEnteredAt then
          (if now ≥ uadd m.stateEnteredAt 200 then (1, uadd now 200)
           else (0, uadd m.stateEnteredAt 200))
        else
          (if now ≥ m.celebTickAt then (Int.tmod (m.celebFrameIdx + 1) 3, uadd now 200)
           else (m.celebFrameIdx, m.celebTickAt)) := by
  rw [celebAdvance_celeb]
  by_cases hR : m.celebTickAt < m.stateEnteredAt
  · have h1 : (celebReset ops m).celebFrameIdx = 0 := by
      unfold celebReset; rw [if_pos hR]
    have h2 : (celebReset ops m).celebTickAt = uadd m.stateEnteredAt 200 := by
      unfold celebReset; rw [if_pos hR]
    rw [h1, h2, if_pos hR]
    split <;> rfl
  · have h1 : (celebReset ops m).celebFrameIdx = m.celebFrameIdx := by
      unfold celebReset; rw [if_neg hR]
    have h2 : (celebReset ops m).celebTickAt = m.celebTickAt := by
      unfold celebReset; rw [if_neg hR]
    rw [h1, h2, if_neg hR]

theorem celebBlocks_congr (ops ops1 : List LcdOp) (now : Nat) (a b : Machine)
    (hc : a.celeb = b.celeb) (hs : a.stateEnteredAt = b.stateEnteredAt) :
    (celebAdvance now (celebReset ops a)).celeb = (celebAdvance now (celebReset ops1 b)).celeb := by
  rw [celebBlocks_celeb, celebBlocks_celeb]
  obtain ⟨h1, h2⟩ := (celeb_eq_iff a b).mp hc
  rw [h1, h2, hs]

theorem celebBlocks_lcd (ops : List LcdOp) (now : Nat) (m : Machine) :
    (celebAdvance now (celebReset ops m)).lcd = m.lcd ++ celebOps ops now m := by
  rw [celebAdvance_lcd, celebReset_lcd, List.append_assoc]
  rfl

theorem celebOps_congr (ops : List LcdOp) (now : Nat) (a b : Machine)
    (hc : a.celeb = b.celeb) (hs : a.stateEnteredAt = b.stateEnteredAt) :
    celebOps ops now a = celebOps ops now b := by
  obtain ⟨h1, h2⟩ := (celeb_eq_iff a b).mp hc
  have e : (celebReset ops a).celebFrameIdx = (celebReset ops b).celebFrameIdx ∧
      (celebReset ops a).celebTickAt = (celebReset ops b).celebTickAt := by
    by_cases hR : b.celebTickAt < b.stateEnteredAt
    · have hRa : a.celebTickAt < a.stateEnteredAt := by rw [h2, hs]; exact hR
      unfold celebReset
      rw [if_pos hRa, if_pos hR]
      exact ⟨rfl, by rw [hs]⟩
    · have hRa : ¬ a.celebTickAt < a.stateEnteredAt := by rw [h2, hs]; exact hR
      unfold celebReset
      rw [if_neg hRa, if_neg hR]
      exact ⟨h1, h2⟩
  unfold celebOps
  rw [e.1, e.2, h2, hs]

/-- The animation variables after a `handleCalcResult` tick. -/
theorem handleCalcResult_celeb (dtostrf : FloatVal → List Char) (m : Machine) (now : Nat) :
    (handleCalcResult dtostrf m now).celeb
      = (celebAdvance now (celebReset [LcdOp.createChar 0 0] m)).celeb := by
  rw [handleCalcResult_steps, crFinish_celeb, lcdDo_celeb]
  exact celebBlocks_congr _ _ now _ _ ((crPrint_celeb _ _).trans (crCompute_celeb _ _))
    (stateEnteredAt_of_core _ _ ((crPrint_core _ _).trans (crCompute_core _ _)))

/-- The animation variables after a `handlePrimesResult` tick. -/
theorem handlePrimesResult_celeb (sk : Sketch) (m : Machine) (now : Nat) :
    (handlePrimesResult sk m now).celeb
      = (celebAdvance now (celebReset [LcdOp.createChar 0 0] m)).celeb := by
  rw [handlePrimesResult_steps, handBackIf_celeb, lcdDo_celeb]
  exact celebBlocks_congr _ _ now _ _ ((lcdDo_celeb _ _).trans (prTop_celeb _ _ _))
    (stateEnteredAt_of_core _ _ ((lcdDo_core _ _).trans (prTop_core _ _ _)))

/-- The animation variables after a `handleSortWinner` tick. -/
theorem handleSortWinner_celeb (m : Machine) (now : Nat) :
    (handleSortWinner m now).celeb
      = (celebAdvance now (celebReset [LcdOp.createChar 0 0] m)).celeb := by
  rw [handleSortWinner_steps, handBackIf_celeb, lcdDo_celeb]
  exact celebBlocks_congr _ _ now _ _ rfl rfl

theorem lcdDo_lcd (m : Machine) (ops : List LcdOp) : (lcdDo m ops).lcd = m.lcd ++ ops := rfl

theorem crPrint_lcd (d : FloatVal → List Char) (m : Machine) :
    (crPrint d m).lcd = m.lcd ++ calcTextOps d m := by
  unfold crPrint calcTextOps
  simp only [lcdDo, List.append_assoc, List.cons_append, List.nil_append]

theorem prTop_lcd (sk : Sketch) (now : Nat) (m : Machine) :
    (prTop sk now m).lcd = m.lcd ++ primesTopOps sk now m := by
  unfold prTop primesTopOps
  split_ifs <;> rfl

/-- The display calls of one `handleCalcResult` tick. -/
theorem handleCalcResult_emitted (dtostrf : FloatVal → List Char) (m : Machine) (now : Nat) :
    (handleCalcResult dtostrf m now).lcd
      = m.lcd ++ (calcTextOps dtostrf (crCompute now m)
          ++ celebOps [LcdOp.createChar 0 0] now m ++ [LcdOp.write 0]) := by
  rw [handleCalcResult_steps, crFinish_lcd, lcdDo_lcd, celebBlocks_lcd, crPrint_lcd,
    crCompute_lcd,
    celebOps_congr _ now (crPrint dtostrf (crCompute now m)) m
      ((crPrint_celeb _ _).trans (crCompute_celeb _ _))
      (stateEnteredAt_of_core _ _ ((crPrint_core _ _).trans (crCompute_core _ _)))]
  simp only [List.append_assoc]

/-- The display calls of one `handlePrimesResult` tick. -/
theorem handlePrimesResult_emitted (sk : Sketch) (m : Machine) (now : Nat) :
    (handlePrimesResult sk m now).lcd
      = m.lcd ++ (primesTopOps sk now m
          ++ [LcdOp.setCursor 0 1, LcdOp.printChars (primesBotText (prTop sk now m))]
          ++ celebOps [LcdOp.createChar 0 0] now m
          ++ [LcdOp.setCursor (primesBotText (prTop sk now m)).length 1, LcdOp.write 0]) := by
  rw [handlePrimesResult_steps, handBackIf_lcd, lcdDo_lcd, celebBlocks_lcd, lcdDo_lcd,
    prTop_lcd,
    celebOps_congr _ now (lcdDo (prTop sk now m) _) m
      ((lcdDo_celeb _ _).trans (prTop_celeb _ _ _))
      (stateEnteredAt_of_core _ _ ((lcdDo_core _ _).trans (prTop_core _ _ _)))]
  simp only [List.append_assoc]

/-- The display calls of one `handleSortWinner` tick. -/
theorem handleSortWinner_emitted (m : Machine) (now : Nat) :
    (handleSortWinner m now).lcd
      = m.lcd ++ (celebOps winnerResetOps now m ++ [LcdOp.setCursor 12 1, LcdOp.write 0]) := by
  rw [handleSortWinner_steps, handBackIf_lcd, lcdDo_lcd, celebBlocks_lcd]
  simp only [List.append_assoc]

theorem emitted_append (m m1 : Machine) (ops : List LcdOp) (h : m1.lcd = m.lcd ++ ops) :
    emitted m m1 = ops := by
  unfold emitted
  rw [h]
  simp

/-- The animation step of a tick whose animation variables and display calls
are those of the two animation blocks. -/
theorem animationStep_of_blocks (resetOps pre post : List LcdOp) (m m1 : Machine) (now : Nat)
    (hce : m1.celeb = (celebAdvance now (celebReset [LcdOp.createChar 0 0] m)).celeb)
    (hlcd : m1.lcd = m.lcd ++ (pre ++ celebOps resetOps now m ++ post))
    (hres : LcdOp.createChar 0 0 ∈ resetOps) :
    AnimationStep m m1 now := by
  rw [celebBlocks_celeb] at hce
  have hem := emitted_append m m1 _ hlcd
  have hmem : ∀ op, op ∈ celebOps resetOps now m → op ∈ emitted m m1 := by
    intro op h
    rw [hem]
    exact List.mem_append_left _ (List.mem_append_right _ h)
  constructor
  · intro hR
    rw [if_pos hR] at hce
    have hrt : (celebReset resetOps m).celebTickAt = uadd m.stateEnteredAt 200 := by
      unfold celebReset; rw [if_pos hR]
    have hrf : (celebReset resetOps m).celebFrameIdx = 0 := by
      unfold celebReset; rw [if_pos hR]
    refine ⟨hmem _ ?_, ?_, ?_⟩
    · unfold celebOps
      rw [if_pos hR]
      exact List.mem_append_left _ hres
    · intro hlt
      rw [if_neg (by omega)] at hce
      exact (Prod.mk.injEq _ _ _ _ ▸ hce : _ ∧ _)
    · intro hge
      rw [if_pos hge] at hce
      have h2 := (Prod.mk.injEq _ _ _ _ ▸ hce : _ ∧ _)
      refine ⟨h2.1, hmem _ ?_, h2.2⟩
      unfold celebOps
      rw [hrt, hrf, if_pos hge]
      exact List.mem_append_right _ (by decide)
  · intro hR
    rw [if_neg hR] at hce
    have hrt : (celebReset resetOps m).celebTickAt = m.celebTickAt := by
      unfold celebReset; rw [if_neg hR]
    have hrf : (celebReset resetOps m).celebFrameIdx = m.celebFrameIdx := by
      unfold celebReset; rw [if_neg hR]
    refine ⟨?_, ?_⟩
    · intro hge
      rw [if_pos hge] at hce
      have h2 := (Prod.mk.injEq _ _ _ _ ▸ hce : _ ∧ _)
      refine ⟨h2.1, hmem _ ?_, h2.2⟩
      unfold celebOps
      rw [hrt, hrf, if_pos hge]
      exact List.mem_append_right _ (List.mem_singleton.mpr rfl)
    · intro hlt
      rw [if_neg (by omega)] at hce
      exact (Prod.mk.injEq _ _ _ _ ▸ hce : _ ∧ _)

/-- C17, as amended: in each animated state handler (`handleCalcResult`,
`handlePrimesResult`, `handleSortWinner`) a tick is an `AnimationStep`: on the
first tick after state entry (`celebTickAt < stateEnteredAt`) the frame index
is reset to 0 and frame 0 is uploaded, and the frame shown after that tick is
frame 0 when `now < stateEnteredAt + 200`, frame 1 otherwise; on every later
call, if `now ≥ celebTickAt` the frame index becomes `(celebFrameIdx + 1) mod 3`,
that frame is uploaded and `celebTickAt` becomes `now + 200`, and if
`now < celebTickAt` the frame index and `celebTickAt` are unchanged. -/
theorem animation_ticks (dtostrf : FloatVal → List Char) (sk : Sketch) (m : Machine)
    (now : Nat) :
    AnimationStep m (handleCalcResult dtostrf m now) now ∧
    AnimationStep m (handlePrimesResult sk m now) now ∧
    AnimationStep m (handleSortWinner m now) now ∧
    (∀ i : Int, 0 ≤ i → Int.tmod (i + 1) 3 = (i + 1) % 3) ∧
    (now + 200 < ULONG_MOD → uadd now 200 = now + 200) := by
  refine ⟨?_, ?_, ?_, ?_, ?_⟩
  · exact animationStep_of_blocks [LcdOp.createChar 0 0] _ _ m _ now
      (handleCalcResult_celeb dtostrf m now) (handleCalcResult_emitted dtostrf m now)
      (by decide)
  · exact animationStep_of_blocks [LcdOp.createChar 0 0] _ _ m _ now
      (handlePrimesResult_celeb sk m now) (handlePrimesResult_emitted sk m now) (by decide)
  · exact animationStep_of_blocks winnerResetOps [] _ m _ now
      (handleSortWinner_celeb m now) (by rw [handleSortWinner_emitted]; rfl) (by decide)
  · intro i hi
    exact Int.tmod_eq_emod (by omega) (by omega)
  · intro h
    unfold uadd
    exact Nat.mod_eq_of_lt h

theorem animation_ticks_witness :
    machineResult.celebTickAt < machineResult.stateEnteredAt ∧
    6 < uadd machineResult.stateEnteredAt 200 ∧
    (handleCalcResult (fun _ => []) machineResult 6).celebFrameIdx = 0 :=
  ⟨by decide, by decide,
    (((animation_ticks (fun _ => []) sketch0 machineResult 6).1.1 (by decide)).2.1
      (by decide)).1⟩

/-- C17 fails as stated: the calculator entered `CALC_RESULT` at time 5 and its
first result tick comes at time 300; the tick is the first after state entry,
yet the frame index after it is 1 and frame 1 is the last glyph uploaded. -/
theorem animation_first_tick_late :
    machineResult.celebTickAt < machineResult.stateEnteredAt ∧
    (handleCalcResult (fun _ => []) machineResult 300).celebFrameIdx = 1 ∧
    (emitted machineResult (handleCalcResult (fun _ => []) machineResult 300)).drop 11
      = [LcdOp.createChar 0 0, LcdOp.createChar 0 1, LcdOp.write 0] := by
  refine ⟨by decide, ?_, ?_⟩
  · have h := animationStep_of_blocks [LcdOp.createChar 0 0] _ _ machineResult _ 300
      (handleCalcResult_celeb (fun _ => []) machineResult 300)
      (handleCalcResult_emitted (fun _ => []) machineResult 300) (by decide)
    exact ((h.1 (by decide)).2.2 (by decide)).1
  · rw [emitted_append _ _ _ (handleCalcResult_emitted _ _ _)]
    decide

/-! ## Theorems: the cursor and the animated glyph -/

theorem glyphScan_append_noUpload (xs ys : List LcdOp)
    (h : ∀ op ∈ xs, ∀ s f, op ≠ LcdOp.createChar s f) :
    glyphScan false (xs ++ ys) = glyphScan false ys := by
  induction xs with
  | nil => rfl
  | cons op xs ih =>
    have ih1 := ih (fun o ho => h o (List.mem_cons_of_mem _ ho))
    have hop := h op (List.mem_cons_self _ _)
    cases op with
    | createChar s f => exact absurd rfl (hop s f)
    | setCursor c r => simpa [glyphScan] using ih1
    | write b =>
      cases b with
      | zero => simpa [glyphScan] using ih1
      | succ b => simpa [glyphScan] using ih1
    | printStr s => simpa [glyphScan] using ih1
    | printChars s => simpa [glyphScan] using ih1
    | printInt n => simpa [glyphScan] using ih1
    | printULong n => simpa [glyphScan] using ih1
    | printChar c => simpa [glyphScan] using ih1
    | setRGB c => simpa [glyphScan] using ih1
    | clear => simpa [glyphScan] using ih1

theorem glyphScan_rehomed (xs : List LcdOp) (c r : Int)
    (h : ∀ op ∈ xs, op ≠ LcdOp.write 0) :
    ∀ d, glyphScan d (xs ++ [LcdOp.setCursor c r, LcdOp.write 0]) = true := by
  induction xs with
  | nil => intro d; simp [glyphScan]
  | cons op xs ih =>
    intro d
    have ih1 := ih (fun o ho => h o (List.mem_cons_of_mem _ ho))
    have hop := h op (List.mem_cons_self _ _)
    cases op with
    | createChar s f => simpa [glyphScan] using ih1 true
    | setCursor c r => simpa [glyphScan] using ih1 false
    | write b =>
      cases b with
      | zero => exact absurd rfl hop
      | succ b => simpa [glyphScan] using ih1 d
    | printStr s => simpa [glyphScan] using ih1 d
    | printChars s => simpa [glyphScan] using ih1 d
    | printInt n => simpa [glyphScan] using ih1 d
    | printULong n => simpa [glyphScan] using ih1 d
    | printChar c => simpa [glyphScan] using ih1 d
    | setRGB c => simpa [glyphScan] using ih1 d
    | clear => simpa [glyphScan] using ih1 d

theorem celebOps_no_write (ops : List LcdOp) (now : Nat) (m : Machine)
    (h : ∀ op ∈ ops, op ≠ LcdOp.write 0) :
    ∀ op ∈ celebOps ops now m, op ≠ LcdOp.write 0 := by
  intro op hop
  unfold celebOps at hop
  rcases List.mem_append.mp hop with h1 | h2
  · split at h1
    · exact h op h1
    · simp at h1
  · split at h2
    · rw [List.mem_singleton.mp h2]
      intro hc
      cases hc
    · simp at h2

theorem calcTextOps_noUpload (dtostrf : FloatVal → List Char) (m : Machine) :
    ∀ op ∈ calcTextOps dtostrf m, ∀ s f, op ≠ LcdOp.createChar s f := by
  intro op hop s f hc
  subst hc
  simp [calcTextOps] at hop

theorem primesTopOps_noUpload (sk : Sketch) (now : Nat) (m : Machine)
    (hsk : ∀ (m1 : Machine) (str : List Char) (row t : Nat) (g : Int) (lp : Bool),
      ∀ op ∈ (sk.tickScroll m1 str row t g lp).ops, ∀ s f, op ≠ LcdOp.createChar s f) :
    ∀ op ∈ primesTopOps sk now m, ∀ s f, op ≠ LcdOp.createChar s f := by
  intro op hop s f hc
  subst hc
  unfold primesTopOps at hop
  split at hop
  · simp at hop
  · split at hop
    · rcases List.mem_cons.mp hop with h1 | h1
      · cases h1
      · obtain ⟨c, _, hc⟩ := List.mem_map.mp h1
        cases hc
    · exact hsk _ _ _ _ _ _ _ hop s f rfl

/-- The glyph write of `handleCalcResult` finds the cursor where an upload left
it whenever one of the two animation blocks runs in the tick. -/
theorem handleCalcResult_not_rehomed (dtostrf : FloatVal → List Char) (m : Machine) (now : Nat)
    (h : m.celebTickAt < m.stateEnteredAt ∨ now ≥ m.celebTickAt) :
    glyphRehomed (emitted m (handleCalcResult dtostrf m now)) = false := by
  unfold glyphRehomed
  rw [emitted_append _ _ _ (handleCalcResult_emitted _ _ _), List.append_assoc,
    glyphScan_append_noUpload _ _ (calcTextOps_noUpload _ _)]
  unfold celebOps
  by_cases hR : m.celebTickAt < m.stateEnteredAt
  · rw [if_pos hR]
    split <;> simp [glyphScan]
  · have hge : now ≥ m.celebTickAt := by
      rcases h with h | h
      · exact absurd h hR
      · exact h
    have hrt : (celebReset [LcdOp.createChar 0 0] m).celebTickAt = m.celebTickAt := by
      unfold celebReset; rw [if_neg hR]
    rw [if_neg hR, hrt, if_pos hge]
    simp [glyphScan]

/-- C18, for the code as it is: whenever an animation block of `handleCalcResult`
uploads a glyph in a tick, the glyph is written with the cursor where the
upload left it, for instance on the first result tick of `machineResult`,
whose last display calls are the upload and the write; `handleSortWinner`
always places the cursor between the last upload and the write, and so does
`handlePrimesResult` when the scrolling renderer uploads no glyph. -/
theorem glyph_write_after_upload :
    (∀ (dtostrf : FloatVal → List Char) (m : Machine) (now : Nat),
      (m.celebTickAt < m.stateEnteredAt ∨ now ≥ m.celebTickAt) →
      glyphRehomed (emitted m (handleCalcResult dtostrf m now)) = false) ∧
    glyphRehomed (emitted machineResult (handleCalcResult (fun _ => []) machineResult 6))
      = false ∧
    (emitted machineResult (handleCalcResult (fun _ => []) machineResult 6)).drop 9
      = [LcdOp.printChars [], LcdOp.printStr " ", LcdOp.createChar 0 0, LcdOp.write 0] ∧
    (∀ (m : Machine) (now : Nat),
      glyphRehomed (emitted m (handleSortWinner m now)) = true) ∧
    (∀ (sk : Sketch) (m : Machine) (now : Nat),
      (∀ (m1 : Machine) (str : List Char) (row t : Nat) (g : Int) (lp : Bool),
        ∀ op ∈ (sk.tickScroll m1 str row t g lp).ops, ∀ s f, op ≠ LcdOp.createChar s f) →
      glyphRehomed (emitted m (handlePrimesResult sk m now)) = true) := by
  refine ⟨handleCalcResult_not_rehomed, ?_, ?_, ?_, ?_⟩
  · exact handleCalcResult_not_rehomed _ _ _ (Or.inl (by decide))
  · rw [emitted_append _ _ _ (handleCalcResult_emitted _ _ _)]
    decide
  · intro m now
    unfold glyphRehomed
    rw [emitted_append _ _ _ (handleSortWinner_emitted _ _)]
    exact glyphScan_rehomed _ _ _ (celebOps_no_write _ _ _ (by decide)) false
  · intro sk m now hsk
    unfold glyphRehomed
    rw [emitted_append _ _ _ (handlePrimesResult_emitted _ _ _), List.append_assoc,
      List.append_assoc, glyphScan_append_noUpload _ _ (primesTopOps_noUpload sk now m hsk),
      glyphScan_append_noUpload _ _ (by
        intro op hop s f hc
        subst hc
        simp at hop)]
    exact glyphScan_rehomed _ _ _ (celebOps_no_write _ _ _ (by decide)) false

/-! ## Theorems: the computations return -/

theorem isPrime_three : isPrime 3 = some true := by
  simp [isPrime, isPrimeLoop, ULONG_MOD]

/-- The number of candidates between `c` and the wrap back to 3. -/
theorem searchDist_step (c : Nat) (hodd : c % 2 = 1) (hc : c < ULONG_MOD) (h3 : c ≠ 3) :
    ((ULONG_MOD + 3 - (c + 2) % ULONG_MOD) % ULONG_MOD) / 2 + 1 =
      ((ULONG_MOD + 3 - c) % ULONG_MOD) / 2 := by
  unfold ULONG_MOD at *
  omega

theorem primesSearch_returns_aux (N : Nat) (hN : N < ULONG_MOD) :
    ∀ fuel count c : Nat, c % 2 = 1 → c < ULONG_MOD →
      (N - count) * 2147483648 + ((ULONG_MOD + 3 - c) % ULONG_MOD) / 2 < fuel →
      ∃ r, primesSearch N fuel count c = some r := by
  intro fuel
  induction fuel with
  | zero => intro count c _ _ h; omega
  | succ fuel ih =>
    intro count c hodd hc hf
    unfold primesSearch
    split
    · rename_i hlt
      have hd : ((ULONG_MOD + 3 - c) % ULONG_MOD) / 2 < 2147483648 := by
        unfold ULONG_MOD at *
        omega
      obtain ⟨b, hb⟩ := Option.ne_none_iff_exists'.mp (isPrime_returns c hc)
      rw [hb]
      cases b
      · have h3 : c ≠ 3 := by
          intro h
          rw [h, isPrime_three] at hb
          cases hb
        have hs := searchDist_step c hodd hc h3
        simp only [Bool.false_eq_true, if_false, hlt, if_true]
        apply ih
        · unfold ULONG_MOD at *; omega
        · exact Nat.mod_lt _ (by decide)
        · omega
      · simp only [if_true]
        have h1 : (count + 1) % ULONG_MOD = count + 1 := by
          apply Nat.mod_eq_of_lt
          omega
        rw [h1]
        have hmul : (N - count) * 2147483648 = (N - (count + 1)) * 2147483648 + 2147483648 := by
          have : N - count = (N - (count + 1)) + 1 := by omega
          rw [this, Nat.add_mul, Nat.one_mul]
        split
        · apply ih
          · unfold ULONG_MOD at *; omega
          · exact Nat.mod_lt _ (by decide)
          · have hd2 : ((ULONG_MOD + 3 - (c + 2) % ULONG_MOD) % ULONG_MOD) / 2 < 2147483648 := by
              unfold ULONG_MOD at *
              omega
            omega
        · rename_i hge
          cases fuel with
          | zero => omega
          | succ f =>
            unfold primesSearch
            rw [if_neg hge]
            exact ⟨c, rfl⟩
    · exact ⟨c, rfl⟩

theorem primesSearch_returns (N : Nat) (hN : N < ULONG_MOD) (fuel : Nat)
    (hf : N * 2147483648 < fuel) : ∃ r, primesSearch N fuel 1 3 = some r := by
  cases N with
  | zero =>
    cases fuel with
    | zero => omega
    | succ f => exact ⟨3, by simp [primesSearch]⟩
  | succ n =>
    apply primesSearch_returns_aux (n + 1) hN fuel 1 3 (by decide) (by decide)
    have : (ULONG_MOD + 3 - 3) % ULONG_MOD / 2 = 0 := by decide
    rw [this]
    have : n + 1 - 1 = n := by omega
    rw [this]
    omega

theorem bubbleSwap_length (a : List Int) (j : Nat) : (bubbleSwap a j).length = a.length := by
  unfold bubbleSwap
  split <;> simp

theorem bubbleInner_length (n i : Nat) (a : List Int) (j : Nat) :
    (bubbleInner n i a j).length = a.length := by
  induction a, j using bubbleInner.induct n i with
  | case1 a j h ih => rw [bubbleInner, if_pos h, ih, bubbleSwap_length]
  | case2 a j h => rw [bubbleInner, if_neg h]

theorem bubbleOuter_length (n : Nat) (a : List Int) (i : Nat) :
    (bubbleOuter n a i).length = a.length := by
  induction a, i using bubbleOuter.induct n with
  | case1 a i h ih => rw [bubbleOuter, if_pos h, ih, bubbleInner_length]
  | case2 a i h => rw [bubbleOuter, if_neg h]

theorem bubbleSort_length (a : List Int) (n : Nat) : (bubbleSort a n).length = a.length :=
  bubbleOuter_length n a 0

theorem mergeLoop1_length (a : List Int) (off mid n : Nat) (tmp : List Int) (i j k : Nat) :
    (mergeLoop1 a off mid n tmp i j k).1.length = tmp.length := by
  induction tmp, i, j, k using mergeLoop1.induct a off mid n with
  | case1 tmp i j k h hle ih => rw [mergeLoop1, if_pos h, if_pos hle, ih, List.length_set]
  | case2 tmp i j k h hle ih => rw [mergeLoop1, if_pos h, if_neg hle, ih, List.length_set]
  | case3 tmp i j k h => rw [mergeLoop1, if_neg h]

theorem mergeLoop2_length (a : List Int) (off mid : Nat) (tmp : List Int) (i k : Nat) :
    (mergeLoop2 a off mid tmp i k).1.length = tmp.length := by
  induction tmp, i, k using mergeLoop2.induct a off mid with
  | case1 tmp i k h ih => rw [mergeLoop2, if_pos h, ih, List.length_set]
  | case2 tmp i k h => rw [mergeLoop2, if_neg h]

theorem mergeLoop3_length (a : List Int) (off n : Nat) (tmp : List Int) (j k : Nat) :
    (mergeLoop3 a off n tmp j k).1.length = tmp.length := by
  induction tmp, j, k using mergeLoop3.induct a off n with
  | case1 tmp j k h ih => rw [mergeLoop3, if_pos h, ih, List.length_set]
  | case2 tmp j k h => rw [mergeLoop3, if_neg h]

theorem mergeCopyBack_length (off n : Nat) (tmp a : List Int) (x : Nat) :
    (mergeCopyBack off n tmp a x).length = a.length := by
  induction a, x using mergeCopyBack.induct off n tmp with
  | case1 a x h ih => rw [mergeCopyBack, if_pos h, ih, List.length_set]
  | case2 a x h => rw [mergeCopyBack, if_neg h]

theorem mergeSortHelper_length : ∀ (n : Nat) (a : List Int) (off : Nat) (tmp : List Int),
    (mergeSortHelper a off tmp n).1.length = a.length ∧
      (mergeSortHelper a off tmp n).2.length = tmp.length := by
  intro n
  induction n using Nat.strong_induction_on with
  | _ n ih =>
    intro a off tmp
    unfold mergeSortHelper
    split
    · exact ⟨rfl, rfl⟩
    · rename_i hn
      have h1 := ih (n / 2) (by omega) a off tmp
      have h2 := ih (n - n / 2) (by omega) (mergeSortHelper a off tmp (n / 2)).1 (off + n / 2)
        (mergeSortHelper a off tmp (n / 2)).2
      simp only [mergeCopyBack_length, mergeLoop3_length, mergeLoop2_length, mergeLoop1_length]
      exact ⟨h2.1.trans h1.1, h2.2.trans h1.2⟩

theorem toULong_lt (n : Int) : toULong n < ULONG_MOD := by
  unfold toULong
  have h1 : 0 ≤ n % (ULONG_MOD : Int) := Int.emod_nonneg _ (by decide)
  have h2 : n % (ULONG_MOD : Int) < (ULONG_MOD : Int) := Int.emod_lt_of_pos _ (by decide)
  omega

theorem handlePrimesCalculating_returns (fuel : Nat) (m : Machine) (now : Nat) (ms : ClockReads)
    (hf : ULONG_MOD * 2147483648 ≤ fuel) :
    ∃ c, primesSearch (toULong m.primesN) fuel 1 3 = some c ∧
      handlePrimesCalculating fuel m now ms =
        some (enterPrimesState
          { lcdDo m [LcdOp.setCursor 0 0, LcdOp.printStr "Calc'ing the 1st",
              LcdOp.setCursor 0 1, LcdOp.printInt m.primesN, LcdOp.printStr " primes"] with
            primesResult := if m.primesN = 1 then 2 else c }
          PrimesState.PRIMES_RESULT ms) := by
  have hlt := toULong_lt m.primesN
  obtain ⟨c, hc⟩ := primesSearch_returns (toULong m.primesN) hlt fuel
    (lt_of_lt_of_le (Nat.mul_lt_mul_of_pos_right hlt (by decide)) hf)
  refine ⟨c, hc, ?_⟩
  simp only [handlePrimesCalculating, lcdDo, hc]

/-- C20: the computations return on every input.  `isPrime(n)` returns for
every 32-bit `n`, also where the product `i * i` wraps; the search loop of
`handlePrimesCalculating` returns for every count `N` (so for every `N >= 1`
and every `N` in 30000..100000) once the fuel exceeds `N * 2^31`, and
`handlePrimesCalculating` returns in every machine state; `bubbleSort` and
`mergeSortHelper` are total functions of any array and size and leave the
lengths of the arrays as they were; for `n >= 2` the sizes `n / 2` and
`n - n / 2` of the two recursive calls are smaller than `n`. -/
theorem computations_total :
    (∀ n : Nat, n < ULONG_MOD → ∃ b, isPrime n = some b) ∧
    (∀ N fuel : Nat, N < ULONG_MOD → N * 2147483648 < fuel →
      ∃ c, primesSearch N fuel 1 3 = some c) ∧
    (∀ (fuel : Nat) (m : Machine) (now : Nat) (ms : ClockReads),
      ULONG_MOD * 2147483648 ≤ fuel →
      ∃ m1, handlePrimesCalculating fuel m now ms = some m1) ∧
    (∀ (a : List Int) (n : Nat), (bubbleSort a n).length = a.length) ∧
    (∀ (a : List Int) (off : Nat) (tmp : List Int) (n : Nat),
      (mergeSortHelper a off tmp n).1.length = a.length ∧
        (mergeSortHelper a off tmp n).2.length = tmp.length) ∧
    (∀ n : Nat, 2 ≤ n → n / 2 < n ∧ n - n / 2 < n ∧
      ∀ (a : List Int) (off : Nat) (tmp : List Int),
        mergeSortHelper a off tmp n =
          (mergeCopyBack off n
            (mergeLoops (mergeSortHelper (mergeSortHelper a off tmp (n / 2)).1 (off + n / 2)
                (mergeSortHelper a off tmp (n / 2)).2 (n - n / 2)).1 off (n / 2) n
              (mergeSortHelper (mergeSortHelper a off tmp (n / 2)).1 (off + n / 2)
                (mergeSortHelper a off tmp (n / 2)).2 (n - n / 2)).2 0 (n / 2) 0)
            (mergeSortHelper (mergeSortHelper a off tmp (n / 2)).1 (off + n / 2)
                (mergeSortHelper a off tmp (n / 2)).2 (n - n / 2)).1 0,
          mergeLoops (mergeSortHelper (mergeSortHelper a off tmp (n / 2)).1 (off + n / 2)
                (mergeSortHelper a off tmp (n / 2)).2 (n - n / 2)).1 off (n / 2) n
              (mergeSortHelper (mergeSortHelper a off tmp (n / 2)).1 (off + n / 2)
                (mergeSortHelper a off tmp (n / 2)).2 (n - n / 2)).2 0 (n / 2) 0)) := by
  refine ⟨fun n hn => Option.ne_none_iff_exists'.mp (isPrime_returns n hn),
    fun N fuel hN hf => primesSearch_returns N hN fuel hf, ?_, bubbleSort_length,
    fun a off tmp n => mergeSortHelper_length n a off tmp, ?_⟩
  · intro fuel m now ms hf
    obtain ⟨c, _, h⟩ := handlePrimesCalculating_returns fuel m now ms hf
    exact ⟨_, h⟩
  · intro n hn
    refine ⟨by omega, by omega, fun a off tmp => ?_⟩
    rw [mergeSortHelper, if_neg (by omega)]
    rfl

theorem computations_total_witness :
    (7 < ULONG_MOD ∧ ∃ b, isPrime 7 = some b) ∧
    (2 ≤ 5 ∧ 5 / 2 < 5 ∧ 5 - 5 / 2 < 5) :=
  ⟨⟨by decide, computations_total.1 7 (by decide)⟩,
    ⟨by decide, (computations_total.2.2.2.2.2 5 (by decide)).1,
      (computations_total.2.2.2.2.2 5 (by decide)).2.1⟩⟩

/-! ## Theorems: what one tick of a dispatcher changes -/

theorem handleCalculator_summary (dtostrf : FloatVal → List Char) (m : Machine) (now : Nat)
    (ms : ClockReads) :
    ((handleCalculator dtostrf m now ms).calcState.toNat = m.calcState.toNat ∨
      (handleCalculator dtostrf m now ms).calcState.toNat = m.calcState.toNat + 1) ∧
    (handleCalculator dtostrf m now ms).primesN = m.primesN ∧
    (handleCalculator dtostrf m now ms).confirmedN = m.confirmedN ∧
    (¬ (m.calcState = CalcState.CALC_SELECT_A ∧ settled 1300 m now) →
      (handleCalculator dtostrf m now ms).calcA = m.calcA) ∧
    (¬ (m.calcState = CalcState.CALC_SELECT_B ∧ settled 1300 m now) →
      (handleCalculator dtostrf m now ms).calcB = m.calcB) ∧
    (¬ (m.calcState = CalcState.CALC_SELECT_OP ∧ settled 1300 m now) →
      (handleCalculator dtostrf m now ms).calcOp = m.calcOp) ∧
    (m.calcState = CalcState.CALC_SELECT_A ∧ settled 1300 m now →
      (handleCalculator dtostrf m now ms).calcState = CalcState.CALC_SELECT_B_INTRO) ∧
    (m.calcState = CalcState.CALC_SELECT_B ∧ settled 1300 m now →
      (handleCalculator dtostrf m now ms).calcState = CalcState.CALC_SELECT_OP_INTRO) ∧
    (m.calcState = CalcState.CALC_SELECT_OP ∧ settled 1300 m now →
      (handleCalculator dtostrf m now ms).calcState = CalcState.CALC_RESULT) := by
  unfold settled
  cases hs : m.calcState
  case CALC_RESULT =>
    have hd : handleCalculator dtostrf m now ms = handleCalcResult dtostrf m now := by
      simp only [handleCalculator, hs]
    have hc := (core_eq_iff _ _).mp (handleCalcResult_core dtostrf m now)
    rw [hd, hc.2.1, hs, hc.2.2.1, hc.2.2.2.1, hc.2.2.2.2.1, hc.2.2.2.2.2.2.1,
      hc.2.2.2.2.2.2.2.2.2]
    simp
  all_goals
    simp only [handleCalculator, hs, handleCalcTitle, handleCalcIntro, handleCalcSelectAIntro,
      handleCalcSelectA, handleCalcSelectBIntro, handleCalcSelectB, handleCalcSelectOpIntro,
      handleCalcSelectOp, enterCalcState_eq, lcdDo]
    split <;> simp_all [CalcState.toNat]

theorem handlePrimes_returns (sk : Sketch) (fuel : Nat) (m : Machine) (now : Nat)
    (ms : ClockReads) (hf : ULONG_MOD * 2147483648 ≤ fuel) :
    ∃ m1, handlePrimes sk fuel m now ms = some m1 := by
  unfold handlePrimes
  split
  case h_5 =>
    obtain ⟨c, _, h⟩ := handlePrimesCalculating_returns fuel m now ms hf
    exact ⟨_, h⟩
  all_goals exact ⟨_, rfl⟩

theorem handlePrimes_summary (sk : Sketch) (fuel : Nat) (m : Machine) (now : Nat)
    (ms : ClockReads) (m1 : Machine) (h : handlePrimes sk fuel m now ms = some m1) :
    (m1.primesState.toNat = m.primesState.toNat ∨
      m1.primesState.toNat = m.primesState.toNat + 1) ∧
    m1.calcA = m.calcA ∧ m1.calcB = m.calcB ∧ m1.calcOp = m.calcOp ∧
    m1.confirmedN = m.confirmedN ∧
    (¬ (m.primesState = PrimesState.PRIMES_SHOW_N ∧ settled 1500 m now) →
      m1.primesN = m.primesN) ∧
    (m.primesState = PrimesState.PRIMES_SHOW_N ∧ settled 1500 m now →
      m1.primesState = PrimesState.PRIMES_CALCULATING) := by
  unfold settled
  cases hs : m.primesState
  case PRIMES_RESULT =>
    have hd : m1 = handlePrimesResult sk m now := by
      simp only [handlePrimes, hs, Option.some.injEq] at h
      exact h.symm
    have hc := (core_eq_iff _ _).mp (handlePrimesResult_core sk m now)
    rw [hd, hc.2.2.1, hc.2.2.2.1, hc.2.2.2.2.1, hc.2.2.2.2.2.1, hs, hc.2.2.2.2.2.2.1,
      hc.2.2.2.2.2.2.2.2.2]
    simp
  case PRIMES_CALCULATING =>
    simp only [handlePrimes, hs, handlePrimesCalculating, lcdDo] at h
    split at h
    · cases h
    · simp only [Option.some.injEq, enterPrimesState_eq, lcdDo] at h
      subst h
      simp [PrimesState.toNat]
  all_goals
    simp only [handlePrimes, hs, handlePrimesTitle, handlePrimesIntro1, handlePrimesIntro2,
      handlePrimesShowN, enterPrimesState_eq, lcdDo, Option.some.injEq] at h
    subst h
    split <;> simp_all [PrimesState.toNat]

theorem handleSortTest_summary (env : SortEnv) (m : Machine) (now : Nat) (ms : ClockReads) :
    ((handleSortTest env m now ms).sortState.toNat = m.sortState.toNat ∨
      (handleSortTest env m now ms).sortState.toNat = m.sortState.toNat + 1) ∧
    (handleSortTest env m now ms).calcA = m.calcA ∧
    (handleSortTest env m now ms).calcB = m.calcB ∧
    (handleSortTest env m now ms).calcOp = m.calcOp ∧
    (handleSortTest env m now ms).primesN = m.primesN ∧
    (¬ (m.sortState = SortTestState.SORT_SHOW_N ∧ settled 1300 m now) →
      (handleSortTest env m now ms).confirmedN = m.confirmedN) ∧
    (m.sortState = SortTestState.SORT_SHOW_N ∧ settled 1300 m now →
      (handleSortTest env m now ms).sortState = SortTestState.SORT_CONFIRM_N) := by
  unfold settled
  cases hs : m.sortState
  case SORT_WINNER =>
    have hd : handleSortTest env m now ms = handleSortWinner m now := by
      simp only [handleSortTest, hs]
    have hc := (core_eq_iff _ _).mp (handleSortWinner_core m now)
    rw [hd, hc.2.2.1, hc.2.2.2.1, hc.2.2.2.2.1, hc.2.2.2.2.2.2.1, hc.2.2.2.2.2.2.2.2.1, hs,
      hc.2.2.2.2.2.2.2.2.2]
    simp
  case SORT_RUNNING =>
    simp [handleSortTest, hs, handleSortRunning, enterSortState_eq, lcdDo, SortTestState.toNat]
  all_goals
    simp only [handleSortTest, hs, handleSortTitle, handleSortQuestion, handleSortSelectSize,
      handleSortShowN, handleSortConfirmN, handleSortResults, enterSortState_eq, lcdDo]
    split <;> simp_all [SortTestState.toNat]

/-! ## Theorems: the chains are linear and the locked-in values are framed -/

theorem eventCount_le_one {α ι : Type} (step : α → ι → Option α) (w : α → ι → Bool)
    (rank : α → Nat) (k : Nat)
    (hmono : ∀ a t b, step a t = some b → rank a ≤ rank b)
    (hw : ∀ a t, w a t = true → rank a = k)
    (hadv : ∀ a t b, step a t = some b → w a t = true → k < rank b) :
    ∀ (ts : List ι) (a : α),
      eventCount step w a ts ≤ 1 ∧ (k < rank a → eventCount step w a ts = 0) := by
  intro ts
  induction ts with
  | nil => intro a; simp [eventCount]
  | cons t ts ih =>
    intro a
    unfold eventCount
    cases hwa : w a t
    · cases hst : step a t with
      | none => simp
      | some b =>
        have hb := ih b
        have hm := hmono a t b hst
        simp only [Bool.false_eq_true, if_false, Nat.zero_add]
        exact ⟨hb.1, fun hk => hb.2 (lt_of_lt_of_le hk hm)⟩
    · have hk := hw a t hwa
      cases hst : step a t with
      | none =>
        simp only [if_true]
        exact ⟨le_refl _, fun h => absurd hk (by omega)⟩
      | some b =>
        have hb := ih b
        have h0 := hb.2 (hadv a t b hst hwa)
        simp only [if_true, h0]
        exact ⟨le_refl _, fun h => absurd hk (by omega)⟩

/-- C15: one tick of a dispatcher, in any state and with any inputs, leaves the
automaton in the same state or moves it to the next enumerator: the number of
the state after the tick is the number before it or that number plus one.  The
primes tick returns a machine when the search loop has enough fuel. -/
theorem tick_same_or_successor (dtostrf : FloatVal → List Char) (sk : Sketch) (env : SortEnv)
    (fuel : Nat) (m : Machine) (now : Nat) (ms : ClockReads) :
    ((handleCalculator dtostrf m now ms).calcState.toNat = m.calcState.toNat ∨
      (handleCalculator dtostrf m now ms).calcState.toNat = m.calcState.toNat + 1) ∧
    (∀ m1, handlePrimes sk fuel m now ms = some m1 →
      (m1.primesState.toNat = m.primesState.toNat ∨
        m1.primesState.toNat = m.primesState.toNat + 1)) ∧
    (ULONG_MOD * 2147483648 ≤ fuel → ∃ m1, handlePrimes sk fuel m now ms = some m1) ∧
    ((handleSortTest env m now ms).sortState.toNat = m.sortState.toNat ∨
      (handleSortTest env m now ms).sortState.toNat = m.sortState.toNat + 1) :=
  ⟨(handleCalculator_summary dtostrf m now ms).1,
    fun m1 h => (handlePrimes_summary sk fuel m now ms m1 h).1,
    handlePrimes_returns sk fuel m now ms,
    (handleSortTest_summary env m now ms).1⟩

theorem tick_same_or_successor_witness :
    handlePrimes sketch0 0 machine0 1000 ⟨1000, 1000⟩ =
        some (handlePrimesTitle machine0 1000 ⟨1000, 1000⟩) ∧
      ((handlePrimesTitle machine0 1000 ⟨1000, 1000⟩).primesState.toNat =
          machine0.primesState.toNat ∨
        (handlePrimesTitle machine0 1000 ⟨1000, 1000⟩).primesState.toNat =
          machine0.primesState.toNat + 1) :=
  ⟨rfl, (tick_same_or_successor (fun _ => []) sketch0 sortEnv0 0 machine0 1000
    ⟨1000, 1000⟩).2.1 _ rfl⟩

theorem sample_settled (D : Nat) (m : Machine) (t : Tick) :
    settled D (t.sample m) t.now ↔ (t.moved = true ∧ usub t.now t.lastMovedAt ≥ D) :=
  Iff.rfl

theorem calcStep_rank (dtostrf : FloatVal → List Char) (a : Machine) (t : Tick) (b : Machine)
    (h : calcStep dtostrf a t = some b) : a.calcState.toNat ≤ b.calcState.toNat := by
  simp only [calcStep, Option.some.injEq] at h
  subst h
  rcases (handleCalculator_summary dtostrf (t.sample a) t.now t.ms).1 with h | h
  · rw [h]; exact le_refl _
  · rw [h]; exact Nat.le_succ _

theorem primesStep_rank (sk : Sketch) (fuel : Nat) (a : Machine) (t : Tick) (b : Machine)
    (h : primesStep sk fuel a t = some b) : a.primesState.toNat ≤ b.primesState.toNat := by
  rcases (handlePrimes_summary sk fuel (t.sample a) t.now t.ms b h).1 with h | h
  · rw [h]; exact le_refl _
  · rw [h]; exact Nat.le_succ _

theorem sortStep_rank (a : Machine) (t : Tick) (b : Machine)
    (h : sortStep a t = some b) : a.sortState.toNat ≤ b.sortState.toNat := by
  simp only [sortStep, Option.some.injEq] at h
  subst h
  rcases (handleSortTest_summary t.env (t.sample a) t.now t.ms).1 with h | h
  · rw [h]; exact le_refl _
  · rw [h]; exact Nat.le_succ _

theorem calcA_once (dtostrf : FloatVal → List Char) (m : Machine) (ts : List Tick) :
    eventCount (calcStep dtostrf) writesCalcA m ts ≤ 1 := by
  refine (eventCount_le_one (calcStep dtostrf) writesCalcA (fun a => a.calcState.toNat) 3
    (calcStep_rank dtostrf) ?_ ?_ ts m).1
  · intro a t hw
    simp only [writesCalcA, decide_eq_true_eq] at hw
    simp only [hw.1, CalcState.toNat]
  · intro a t b hst hw
    simp only [writesCalcA, decide_eq_true_eq] at hw
    simp only [calcStep, Option.some.injEq] at hst
    subst hst
    have h := (handleCalculator_summary dtostrf (t.sample a) t.now t.ms).2.2.2.2.2.2.1 hw
    simp only [h, CalcState.toNat]
    decide

theorem calcB_once (dtostrf : FloatVal → List Char) (m : Machine) (ts : List Tick) :
    eventCount (calcStep dtostrf) writesCalcB m ts ≤ 1 := by
  refine (eventCount_le_one (calcStep dtostrf) writesCalcB (fun a => a.calcState.toNat) 5
    (calcStep_rank dtostrf) ?_ ?_ ts m).1
  · intro a t hw
    simp only [writesCalcB, decide_eq_true_eq] at hw
    simp only [hw.1, CalcState.toNat]
  · intro a t b hst hw
    simp only [writesCalcB, decide_eq_true_eq] at hw
    simp only [calcStep, Option.some.injEq] at hst
    subst hst
    have h := (handleCalculator_summary dtostrf (t.sample a) t.now t.ms).2.2.2.2.2.2.2.1 hw
    simp only [h, CalcState.toNat]
    decide

theorem calcOp_once (dtostrf : FloatVal → List Char) (m : Machine) (ts : List Tick) :
    eventCount (calcStep dtostrf) writesCalcOp m ts ≤ 1 := by
  refine (eventCount_le_one (calcStep dtostrf) writesCalcOp (fun a => a.calcState.toNat) 7
    (calcStep_rank dtostrf) ?_ ?_ ts m).1
  · intro a t hw
    simp only [writesCalcOp, decide_eq_true_eq] at hw
    simp only [hw.1, CalcState.toNat]
  · intro a t b hst hw
    simp only [writesCalcOp, decide_eq_true_eq] at hw
    simp only [calcStep, Option.some.injEq] at hst
    subst hst
    have h := (handleCalculator_summary dtostrf (t.sample a) t.now t.ms).2.2.2.2.2.2.2.2 hw
    simp only [h, CalcState.toNat]
    decide

theorem primesN_once (sk : Sketch) (fuel : Nat) (m : Machine) (ts : List Tick) :
    eventCount (primesStep sk fuel) writesPrimesN m ts ≤ 1 := by
  refine (eventCount_le_one (primesStep sk fuel) writesPrimesN (fun a => a.primesState.toNat) 3
    (primesStep_rank sk fuel) ?_ ?_ ts m).1
  · intro a t hw
    simp only [writesPrimesN, decide_eq_true_eq] at hw
    simp only [hw.1, PrimesState.toNat]
  · intro a t b hst hw
    simp only [writesPrimesN, decide_eq_true_eq] at hw
    have h := (handlePrimes_summary sk fuel (t.sample a) t.now t.ms b hst).2.2.2.2.2.2 hw
    simp only [h, PrimesState.toNat]
    decide

theorem confirmedN_once (m : Machine) (ts : List Tick) :
    eventCount sortStep writesConfirmedN m ts ≤ 1 := by
  refine (eventCount_le_one sortStep writesConfirmedN (fun a => a.sortState.toNat) 3
    sortStep_rank ?_ ?_ ts m).1
  · intro a t hw
    simp only [writesConfirmedN, decide_eq_true_eq] at hw
    simp only [hw.1, SortTestState.toNat]
  · intro a t b hst hw
    simp only [writesConfirmedN, decide_eq_true_eq] at hw
    simp only [sortStep, Option.some.injEq] at hst
    subst hst
    have h := (handleSortTest_summary t.env (t.sample a) t.now t.ms).2.2.2.2.2.2 hw
    simp only [h, SortTestState.toNat]
    decide

/-- C14: a tick of `handleCalculator`, `handlePrimes` or `handleSortTest`, in
any state, leaves each of `calcA`, `calcB`, `calcOp`, `primesN`, `confirmedN`
as it was unless the automaton is in the selection state of that value and the
settle predicate of that state holds at the tick.  In a run of polling
iterations, from any machine and with any inputs, the iterations at which the
selection state is current and its settle predicate holds number at most one
for each value, and an iteration that is not one of them does not change the
value. -/
theorem locked_values_frame (dtostrf : FloatVal → List Char) (sk : Sketch) (fuel : Nat) :
    (∀ (m : Machine) (now : Nat) (ms : ClockReads),
      (¬ (m.calcState = CalcState.CALC_SELECT_A ∧ settled 1300 m now) →
        (handleCalculator dtostrf m now ms).calcA = m.calcA) ∧
      (¬ (m.calcState = CalcState.CALC_SELECT_B ∧ settled 1300 m now) →
        (handleCalculator dtostrf m now ms).calcB = m.calcB) ∧
      (¬ (m.calcState = CalcState.CALC_SELECT_OP ∧ settled 1300 m now) →
        (handleCalculator dtostrf m now ms).calcOp = m.calcOp) ∧
      (handleCalculator dtostrf m now ms).primesN = m.primesN ∧
      (handleCalculator dtostrf m now ms).confirmedN = m.confirmedN) ∧
    (∀ (m : Machine) (now : Nat) (ms : ClockReads) (m1 : Machine),
      handlePrimes sk fuel m now ms = some m1 →
      m1.calcA = m.calcA ∧ m1.calcB = m.calcB ∧ m1.calcOp = m.calcOp ∧
      (¬ (m.primesState = PrimesState.PRIMES_SHOW_N ∧ settled 1500 m now) →
        m1.primesN = m.primesN) ∧
      m1.confirmedN = m.confirmedN) ∧
    (∀ (env : SortEnv) (m : Machine) (now : Nat) (ms : ClockReads),
      (handleSortTest env m now ms).calcA = m.calcA ∧
      (handleSortTest env m now ms).calcB = m.calcB ∧
      (handleSortTest env m now ms).calcOp = m.calcOp ∧
      (handleSortTest env m now ms).primesN = m.primesN ∧
      (¬ (m.sortState = SortTestState.SORT_SHOW_N ∧ settled 1300 m now) →
        (handleSortTest env m now ms).confirmedN = m.confirmedN)) ∧
    (∀ (m : Machine) (ts : List Tick),
      eventCount (calcStep dtostrf) writesCalcA m ts ≤ 1 ∧
      eventCount (calcStep dtostrf) writesCalcB m ts ≤ 1 ∧
      eventCount (calcStep dtostrf) writesCalcOp m ts ≤ 1 ∧
      eventCount (primesStep sk fuel) writesPrimesN m ts ≤ 1 ∧
      eventCount sortStep writesConfirmedN m ts ≤ 1) ∧
    (∀ (m : Machine) (t : Tick) (m1 : Machine),
      (calcStep dtostrf m t = some m1 → writesCalcA m t = false → m1.calcA = m.calcA) ∧
      (calcStep dtostrf m t = some m1 → writesCalcB m t = false → m1.calcB = m.calcB) ∧
      (calcStep dtostrf m t = some m1 → writesCalcOp m t = false → m1.calcOp = m.calcOp) ∧
      (primesStep sk fuel m t = some m1 → writesPrimesN m t = false →
        m1.primesN = m.primesN) ∧
      (sortStep m t = some m1 → writesConfirmedN m t = false →
        m1.confirmedN = m.confirmedN)) := by
  refine ⟨?_, ?_, ?_, ?_, ?_⟩
  · intro m now ms
    have h := handleCalculator_summary dtostrf m now ms
    exact ⟨h.2.2.2.1, h.2.2.2.2.1, h.2.2.2.2.2.1, h.2.1, h.2.2.1⟩
  · intro m now ms m1 hm
    have h := handlePrimes_summary sk fuel m now ms m1 hm
    exact ⟨h.2.1, h.2.2.1, h.2.2.2.1, h.2.2.2.2.2.1, h.2.2.2.2.1⟩
  · intro env m now ms
    have h := handleSortTest_summary env m now ms
    exact ⟨h.2.1, h.2.2.1, h.2.2.2.1, h.2.2.2.2.1, h.2.2.2.2.2.1⟩
  · intro m ts
    exact ⟨calcA_once dtostrf m ts, calcB_once dtostrf m ts, calcOp_once dtostrf m ts,
      primesN_once sk fuel m ts, confirmedN_once m ts⟩
  · intro m t m1
    refine ⟨?_, ?_, ?_, ?_, ?_⟩
    · intro hst hw
      simp only [calcStep, Option.some.injEq] at hst
      subst hst
      simp only [writesCalcA, decide_eq_false_iff_not] at hw
      exact (handleCalculator_summary dtostrf (t.sample m) t.now t.ms).2.2.2.1 hw
    · intro hst hw
      simp only [calcStep, Option.some.injEq] at hst
      subst hst
      simp only [writesCalcB, decide_eq_false_iff_not] at hw
      exact (handleCalculator_summary dtostrf (t.sample m) t.now t.ms).2.2.2.2.1 hw
    · intro hst hw
      simp only [calcStep, Option.some.injEq] at hst
      subst hst
      simp only [writesCalcOp, decide_eq_false_iff_not] at hw
      exact (handleCalculator_summary dtostrf (t.sample m) t.now t.ms).2.2.2.2.2.1 hw
    · intro hst hw
      simp only [writesPrimesN, decide_eq_false_iff_not] at hw
      exact (handlePrimes_summary sk fuel (t.sample m) t.now t.ms m1 hst).2.2.2.2.2.1 hw
    · intro hst hw
      simp only [sortStep, Option.some.injEq] at hst
      subst hst
      simp only [writesConfirmedN, decide_eq_false_iff_not] at hw
      exact (handleSortTest_summary t.env (t.sample m) t.now t.ms).2.2.2.2.2.1 hw

theorem locked_values_frame_witness :
    (¬ (machineSelectA.calcState = CalcState.CALC_SELECT_B ∧
        settled 1300 machineSelectA 2000)) ∧
      (handleCalculator (fun _ => []) machineSelectA 2000 ⟨2000, 2000⟩).calcB =
        machineSelectA.calcB :=
  ⟨by decide, ((locked_values_frame (fun _ => []) sketch0 0).1 machineSelectA 2000
    ⟨2000, 2000⟩).2.1 (by decide)⟩

/-! ## Theorems: the run of the calculator on 1 + 1 -/

theorem map_zero_operand : map 0 0 1023 1 1000 = 1 := by decide

theorem calcCompute_one_plus_one (m : Machine) (ha : m.calcA = 1) (hb : m.calcB = 1)
    (ho : m.calcOp = '+') : calcCompute m = FloatVal.add 1 1 := by
  simp [calcCompute, ha, hb, ho]

theorem calcStep_inv (dtostrf : FloatVal → List Char) (m : Machine) (t : Tick)
    (hJ : CalcInv m) (hz : zeroWhenSettled m t = true) :
    CalcInv (handleCalculator dtostrf (t.sample m) t.now t.ms) ∧
    (handleCalculator dtostrf (t.sample m) t.now t.ms).calcState.toNat
      = m.calcState.toNat + (if calcDue m t = true then 1 else 0) ∧
    (m.calcState = CalcState.CALC_RESULT →
      (handleCalculator dtostrf (t.sample m) t.now t.ms).calcResult = FloatVal.add 1 1) := by
  unfold CalcInv at hJ ⊢
  simp only [zeroWhenSettled, decide_eq_true_eq] at hz
  simp only [settled, Tick.sample, samplePot] at hz
  cases hs : m.calcState
  case CALC_RESULT =>
    have hs1 : (t.sample m).calcState = CalcState.CALC_RESULT := hs
    have hd : handleCalculator dtostrf (t.sample m) t.now t.ms
        = handleCalcResult dtostrf (t.sample m) t.now := by
      simp only [handleCalculator, hs1]
    have hc := (core_eq_iff _ _).mp (handleCalcResult_core dtostrf (t.sample m) t.now)
    simp only [hs, CalcState.toNat] at hJ
    have hres : (handleCalcResult dtostrf (t.sample m) t.now).calcResult = FloatVal.add 1 1 := by
      rw [handleCalcResult_calcResult, crCompute_calcResult]
      split
      · exact calcCompute_one_plus_one _ (hJ.1 (by decide)) (hJ.2.1 (by decide))
          (hJ.2.2.1 (by decide))
      · rename_i hn
        have hcomp : m.computed = true := by
          cases hcm : m.computed
          · exact absurd (Or.inl hcm) hn
          · rfl
        exact hJ.2.2.2.2 trivial hcomp
    rw [hd, hc.2.1, hc.2.2.1, hc.2.2.2.1, hc.2.2.2.2.1, hres]
    simp only [Tick.sample, samplePot, hs, CalcState.toNat, calcDue]
    exact ⟨⟨fun _ => hJ.1 (by decide), fun _ => hJ.2.1 (by decide),
      fun _ => hJ.2.2.1 (by decide), fun h => absurd h (by decide), fun _ _ => trivial⟩,
      rfl, fun _ => trivial⟩
  all_goals
    simp only [hs, CalcState.toNat] at hJ hz
    simp only [Tick.sample, samplePot, handleCalculator, hs, handleCalcTitle, handleCalcIntro,
      handleCalcSelectAIntro, handleCalcSelectA, handleCalcSelectBIntro, handleCalcSelectB,
      handleCalcSelectOpIntro, handleCalcSelectOp, enterCalcState_eq, lcdDo, calcDue, settled]
    split <;> simp_all [CalcState.toNat, map_zero_operand, mapPotToOp]
    all_goals rw [if_neg (by omega)]

theorem calcRun_inv (dtostrf : FloatVal → List Char) :
    ∀ (ts : List Tick) (m : Machine), CalcInv m →
      alongRun (calcStep dtostrf) zeroWhenSettled m ts = true →
      CalcInv (calcRun dtostrf m ts) ∧
      (calcRun dtostrf m ts).calcState.toNat
        = m.calcState.toNat + eventCount (calcStep dtostrf) calcDue m ts := by
  intro ts
  induction ts with
  | nil => intro m hJ _; exact ⟨hJ, rfl⟩
  | cons t ts ih =>
    intro m hJ hz
    simp only [alongRun, calcStep, Bool.and_eq_true] at hz
    have hstep := calcStep_inv dtostrf m t hJ hz.1
    have hrec := ih _ hstep.1 hz.2
    refine ⟨hrec.1, ?_⟩
    show (calcRun dtostrf (handleCalculator dtostrf (t.sample m) t.now t.ms) ts).calcState.toNat
      = m.calcState.toNat + ((if calcDue m t = true then 1 else 0)
          + eventCount (calcStep dtostrf) calcDue
              (handleCalculator dtostrf (t.sample m) t.now t.ms) ts)
    rw [hrec.2, hstep.2.1, Nat.add_assoc]

theorem calcState_of_toNat_eight (s : CalcState) (h : s.toNat = 8) :
    s = CalcState.CALC_RESULT := by
  cases s <;> simp [CalcState.toNat] at h ⊢

theorem cString_two : cString (truncateResult (resultBuffer ['2', '.', '0', '0']))
    = ['2', '.', '0', '0'] := by
  decide

/-- C19: the calculator is started in `CALC_TITLE` with the flag `computed`
clear (its initial value, which every hand-back restores) and polled with the
inputs `ts`, such that the condition of the current state (dwell elapsed, or
slider moved and still for 1300 ms) holds at eight of the iterations and the
slider is at the raw value 0 whenever it settles in a selection state.  Then
the calculator is in `CALC_RESULT` with `calcA = 1`, `calcB = 1` and
`calcOp = '+'`; every further tick `t` sets or leaves `calcResult` at the sum
`(float)1 + 1`, whose exact value is 2, draws `1 + 1 =` on the top row and, the C library writing
`2.00` for that sum, `2.00` and a blank at the start of the bottom row, and
calls `enterAppState(1)` exactly if `now - stateEnteredAt >= 5000`. -/
theorem calc_one_plus_one (dtostrf : FloatVal → List Char) (m0 : Machine) (ts : List Tick)
    (t : Tick)
    (h0 : m0.calcState = CalcState.CALC_TITLE) (hc : m0.computed = false)
    (hz : alongRun (calcStep dtostrf) zeroWhenSettled m0 ts = true)
    (hd : eventCount (calcStep dtostrf) calcDue m0 ts = 8)
    (hfmt : dtostrf (FloatVal.add 1 1) = ['2', '.', '0', '0']) :
    (calcRun dtostrf m0 ts).calcState = CalcState.CALC_RESULT ∧
    (calcRun dtostrf m0 ts).calcA = 1 ∧
    (calcRun dtostrf m0 ts).calcB = 1 ∧
    (calcRun dtostrf m0 ts).calcOp = '+' ∧
    (handleCalculator dtostrf (t.sample (calcRun dtostrf m0 ts)) t.now t.ms).calcState
      = CalcState.CALC_RESULT ∧
    (handleCalculator dtostrf (t.sample (calcRun dtostrf m0 ts)) t.now t.ms).calcResult
      = FloatVal.add 1 1 ∧
    (handleCalculator dtostrf (t.sample (calcRun dtostrf m0 ts)) t.now t.ms).calcResult.exact
      = 2 ∧
    (emitted (calcRun dtostrf m0 ts)
        (handleCalculator dtostrf (t.sample (calcRun dtostrf m0 ts)) t.now t.ms)).take 11
      = [LcdOp.setCursor 0 0, LcdOp.printInt 1, LcdOp.printStr " ", LcdOp.printChar '+',
          LcdOp.printStr " ", LcdOp.printInt 1, LcdOp.printStr " =",
          LcdOp.printStr "        ", LcdOp.setCursor 0 1,
          LcdOp.printChars ['2', '.', '0', '0'], LcdOp.printStr " "] ∧
    (handleCalculator dtostrf (t.sample (calcRun dtostrf m0 ts)) t.now t.ms).appCalls
      = (if usub t.now (calcRun dtostrf m0 ts).stateEnteredAt ≥ 5000
          then (calcRun dtostrf m0 ts).appCalls ++ [1]
          else (calcRun dtostrf m0 ts).appCalls) := by
  have hJ0 : CalcInv m0 := by
    unfold CalcInv
    simp only [h0, CalcState.toNat]
    exact ⟨fun h => absurd h (by decide), fun h => absurd h (by decide),
      fun h => absurd h (by decide), fun _ => hc, fun h => by cases h⟩
  obtain ⟨hJ, hn⟩ := calcRun_inv dtostrf ts m0 hJ0 hz
  rw [hd, h0] at hn
  have hs := calcState_of_toNat_eight _ hn
  have hJ1 : CalcInv (calcRun dtostrf m0 ts) := hJ
  unfold CalcInv at hJ
  rw [hn] at hJ
  have hA := hJ.1 (by decide)
  have hB := hJ.2.1 (by decide)
  have hO := hJ.2.2.1 (by decide)
  have hs1 : (t.sample (calcRun dtostrf m0 ts)).calcState = CalcState.CALC_RESULT := hs
  have hdisp : handleCalculator dtostrf (t.sample (calcRun dtostrf m0 ts)) t.now t.ms
      = handleCalcResult dtostrf (t.sample (calcRun dtostrf m0 ts)) t.now := by
    simp only [handleCalculator, hs1]
  have hres := (calcStep_inv dtostrf _ t hJ1
    (by simp only [zeroWhenSettled, hs, decide_eq_true_eq]; intro h; simp at h)).2.2 hs
  have hcore := (core_eq_iff _ _).mp
    (handleCalcResult_core dtostrf (t.sample (calcRun dtostrf m0 ts)) t.now)
  refine ⟨hs, hA, hB, hO, ?_, hres, ?_, ?_, ?_⟩
  swap
  · rw [hres]
    norm_num [FloatVal.exact]
  · rw [hdisp, hcore.2.1]
    exact hs
  · have hcr : (crCompute t.now (t.sample (calcRun dtostrf m0 ts))).calcResult
        = FloatVal.add 1 1 := by
      rw [← handleCalcResult_calcResult dtostrf, ← hdisp]
      exact hres
    have hcc := (core_eq_iff _ _).mp (crCompute_core t.now (t.sample (calcRun dtostrf m0 ts)))
    have hA1 : (t.sample (calcRun dtostrf m0 ts)).calcA = 1 := hA
    have hB1 : (t.sample (calcRun dtostrf m0 ts)).calcB = 1 := hB
    have hO1 : (t.sample (calcRun dtostrf m0 ts)).calcOp = '+' := hO
    unfold emitted
    rw [hdisp, handleCalcResult_emitted]
    have hl : (t.sample (calcRun dtostrf m0 ts)).lcd = (calcRun dtostrf m0 ts).lcd := rfl
    rw [hl, List.drop_left]
    simp only [calcTextOps, hcr, hfmt, cString_two, hcc.2.2.1, hcc.2.2.2.1, hcc.2.2.2.2.1,
      hA1, hB1, hO1]
    rfl
  · rw [hdisp, handleCalcResult_appCalls]
    rfl

theorem calc_one_plus_one_witness :
    (calcRun dtostrfTwo machine0 ticksOnePlusOne).calcState = CalcState.CALC_RESULT ∧
    (calcRun dtostrfTwo machine0 ticksOnePlusOne).calcA = 1 ∧
    (calcRun dtostrfTwo machine0 ticksOnePlusOne).calcB = 1 ∧
    (calcRun dtostrfTwo machine0 ticksOnePlusOne).calcOp = '+' ∧
    (handleCalculator dtostrfTwo
        ((settledTick 80001).sample (calcRun dtostrfTwo machine0 ticksOnePlusOne))
        80001 ⟨80001, 80001⟩).calcResult = FloatVal.add 1 1 :=
  have h := calc_one_plus_one dtostrfTwo machine0 ticksOnePlusOne (settledTick 80001)
    rfl rfl (by decide) (by decide) rfl
  ⟨h.1, h.2.1, h.2.2.1, h.2.2.2.1, h.2.2.2.2.2.1⟩

/-! ## Theorems: every array access of the sort benchmark is in bounds -/

theorem rdC_some (a : List Int) (off n i : Nat) (hi : i < n) (hb : off + n ≤ a.length) :
    rdC a off n i = some (rd a (off + i)) := by
  unfold rdC
  rw [if_pos ⟨hi, by omega⟩]

theorem wrC_some (a : List Int) (off n i : Nat) (v : Int) (hi : i < n)
    (hb : off + n ≤ a.length) : wrC a off n i v = some (a.set (off + i) v) := by
  unfold wrC
  rw [if_pos ⟨hi, by omega⟩]

theorem sortFillC_eq (random : Nat → Int) (n : Nat) (buf : List Int) (i : Nat)
    (hn : n ≤ buf.length) : sortFillC random n buf i = some (sortFill random n buf i) := by
  induction buf, i using sortFill.induct random n with
  | case1 buf i h ih =>
    rw [sortFillC, if_pos h, wrC_some buf 0 n i _ h (by omega), sortFill, if_pos h]
    simp only [Nat.zero_add]
    exact ih (by rw [List.length_set]; exact hn)
  | case2 buf i h => rw [sortFillC, if_neg h, sortFill, if_neg h]

theorem sortFill_length (random : Nat → Int) (n : Nat) (buf : List Int) (i : Nat) :
    (sortFill random n buf i).length = buf.length := by
  induction buf, i using sortFill.induct random n with
  | case1 buf i h ih => rw [sortFill, if_pos h, ih, List.length_set]
  | case2 buf i h => rw [sortFill, if_neg h]

theorem bubbleSwapC_eq (n : Nat) (a : List Int) (j : Nat) (hj : j + 1 < n)
    (hn : n ≤ a.length) : bubbleSwapC n a j = some (bubbleSwap a j) := by
  unfold bubbleSwapC bubbleSwap
  rw [rdC_some a 0 n j (by omega) (by omega), rdC_some a 0 n (j + 1) hj (by omega)]
  simp only [Nat.zero_add]
  split
  · rw [wrC_some a 0 n j _ (by omega) (by omega)]
    simp only [Nat.zero_add]
    rw [wrC_some _ 0 n (j + 1) _ hj (by rw [List.length_set]; omega)]
    simp only [Nat.zero_add]
  · rfl

theorem bubbleInnerC_eq (n i : Nat) (a : List Int) (j : Nat) (hn : n ≤ a.length) :
    bubbleInnerC n i a j = some (bubbleInner n i a j) := by
  induction a, j using bubbleInner.induct n i with
  | case1 a j h ih =>
    rw [bubbleInnerC, if_pos h, bubbleSwapC_eq n a j (by omega) hn, bubbleInner, if_pos h]
    exact ih (by rw [bubbleSwap_length]; exact hn)
  | case2 a j h => rw [bubbleInnerC, if_neg h, bubbleInner, if_neg h]

theorem bubbleOuterC_eq (n : Nat) (a : List Int) (i : Nat) (hn : n ≤ a.length) :
    bubbleOuterC n a i = some (bubbleOuter n a i) := by
  induction a, i using bubbleOuter.induct n with
  | case1 a i h ih =>
    rw [bubbleOuterC, if_pos h, bubbleInnerC_eq n i a 0 hn, bubbleOuter, if_pos h]
    exact ih (by rw [bubbleInner_length]; exact hn)
  | case2 a i h => rw [bubbleOuterC, if_neg h, bubbleOuter, if_neg h]

theorem bubbleSortC_eq (a : List Int) (n : Nat) (hn : n ≤ a.length) :
    bubbleSortC a n = some (bubbleSort a n) :=
  bubbleOuterC_eq n a 0 hn

theorem mergeLoop1C_eq (a : List Int) (off mid n : Nat) (hmid : mid ≤ n)
    (ha : off + n ≤ a.length) (tmp : List Int) (i j k : Nat) (ht : n ≤ tmp.length)
    (hk : k + mid = i + j) (hi : i ≤ mid) (hj : j ≤ n) :
    mergeLoop1C a off mid n tmp i j k = some (mergeLoop1 a off mid n tmp i j k) ∧
    (mergeLoop1 a off mid n tmp i j k).2.2.2 + mid
      = (mergeLoop1 a off mid n tmp i j k).2.1 + (mergeLoop1 a off mid n tmp i j k).2.2.1 ∧
    (mergeLoop1 a off mid n tmp i j k).2.1 ≤ mid ∧
    (mergeLoop1 a off mid n tmp i j k).2.2.1 ≤ n := by
  induction tmp, i, j, k using mergeLoop1.induct a off mid n with
  | case1 tmp i j k h hle ih =>
    rw [mergeLoop1C, if_pos h, rdC_some a off n i (by omega) ha, rdC_some a off n j h.2 ha,
      mergeLoop1, if_pos h, if_pos hle]
    simp only [if_pos hle]
    rw [wrC_some tmp 0 n k _ (by omega) (by omega)]
    simp only [Nat.zero_add]
    exact ih (by rw [List.length_set]; exact ht) (by omega) (by omega) hj
  | case2 tmp i j k h hle ih =>
    rw [mergeLoop1C, if_pos h, rdC_some a off n i (by omega) ha, rdC_some a off n j h.2 ha,
      mergeLoop1, if_pos h, if_neg hle]
    simp only [if_neg hle]
    rw [wrC_some tmp 0 n k _ (by omega) (by omega)]
    simp only [Nat.zero_add]
    exact ih (by rw [List.length_set]; exact ht) (by omega) hi (by omega)
  | case3 tmp i j k h =>
    rw [mergeLoop1C, if_neg h, mergeLoop1, if_neg h]
    exact ⟨rfl, hk, hi, hj⟩

theorem mergeLoop2C_eq (a : List Int) (off mid n j : Nat) (hmid : mid ≤ n)
    (ha : off + n ≤ a.length) (hj : j ≤ n) (tmp : List Int) (i k : Nat) (ht : n ≤ tmp.length)
    (hk : k + mid = i + j) (hi : i ≤ mid) :
    mergeLoop2C a off mid n tmp i k = some (mergeLoop2 a off mid tmp i k) ∧
    (mergeLoop2 a off mid tmp i k).2.2 ≤ j := by
  induction tmp, i, k using mergeLoop2.induct a off mid with
  | case1 tmp i k h ih =>
    rw [mergeLoop2C, if_pos h, rdC_some a off n i (by omega) ha,
      mergeLoop2, if_pos h]
    simp only
    rw [wrC_some tmp 0 n k _ (by omega) (by omega)]
    simp only [Nat.zero_add]
    exact ih (by rw [List.length_set]; exact ht) (by omega) (by omega)
  | case2 tmp i k h =>
    rw [mergeLoop2C, if_neg h, mergeLoop2, if_neg h]
    exact ⟨rfl, by simp only; omega⟩

theorem mergeLoop3C_eq (a : List Int) (off n : Nat) (ha : off + n ≤ a.length)
    (tmp : List Int) (j k : Nat) (ht : n ≤ tmp.length) (hk : k ≤ j) :
    mergeLoop3C a off n tmp j k = some (mergeLoop3 a off n tmp j k) := by
  induction tmp, j, k using mergeLoop3.induct a off n with
  | case1 tmp j k h ih =>
    rw [mergeLoop3C, if_pos h, rdC_some a off n j h ha, mergeLoop3, if_pos h]
    simp only
    rw [wrC_some tmp 0 n k _ (by omega) (by omega)]
    simp only [Nat.zero_add]
    exact ih (by rw [List.length_set]; exact ht) (by omega)
  | case2 tmp j k h => rw [mergeLoop3C, if_neg h, mergeLoop3, if_neg h]

theorem mergeCopyBackC_eq (off n : Nat) (tmp : List Int) (ht : n ≤ tmp.length)
    (a : List Int) (x : Nat) (ha : off + n ≤ a.length) :
    mergeCopyBackC off n tmp a x = some (mergeCopyBack off n tmp a x) := by
  induction a, x using mergeCopyBack.induct off n tmp with
  | case1 a x h ih =>
    rw [mergeCopyBackC, if_pos h, rdC_some tmp 0 n x h (by omega), mergeCopyBack, if_pos h]
    simp only
    rw [wrC_some a off n x _ h ha]
    simp only [Nat.zero_add]
    exact ih (by rw [List.length_set]; exact ha)
  | case2 a x h => rw [mergeCopyBackC, if_neg h, mergeCopyBack, if_neg h]

theorem mergeSortHelper_step (a : List Int) (off : Nat) (tmp : List Int) (n : Nat)
    (hn : ¬ n ≤ 1) (r1 r2 : List Int × List Int) (q1 : List Int × Nat × Nat × Nat)
    (q2 q3 : List Int × Nat × Nat)
    (h1 : mergeSortHelper a off tmp (n / 2) = r1)
    (h2 : mergeSortHelper r1.1 (off + n / 2) r1.2 (n - n / 2) = r2)
    (h3 : mergeLoop1 r2.1 off (n / 2) n r2.2 0 (n / 2) 0 = q1)
    (h4 : mergeLoop2 r2.1 off (n / 2) q1.1 q1.2.1 q1.2.2.2 = q2)
    (h5 : mergeLoop3 r2.1 off n q2.1 q1.2.2.1 q2.2.2 = q3) :
    mergeSortHelper a off tmp n = (mergeCopyBack off n q3.1 r2.1 0, q3.1) := by
  rw [mergeSortHelper, if_neg hn]
  simp only [h1, h2, h3, h4, h5]

theorem mergeSortHelperC_eq : ∀ (n : Nat) (a : List Int) (off : Nat) (tmp : List Int),
    off + n ≤ a.length → n ≤ tmp.length →
    mergeSortHelperC a off tmp n = some (mergeSortHelper a off tmp n) := by
  intro n
  induction n using Nat.strong_induction_on with
  | _ n ih =>
    intro a off tmp ha ht
    by_cases hn : n ≤ 1
    · rw [mergeSortHelperC, if_pos hn, mergeSortHelper, if_pos hn]
    · have l1 := mergeSortHelper_length (n / 2) a off tmp
      have h1 := ih (n / 2) (by omega) a off tmp (by omega) (by omega)
      generalize e1 : mergeSortHelper a off tmp (n / 2) = r1 at l1 h1
      have l2 := mergeSortHelper_length (n - n / 2) r1.1 (off + n / 2) r1.2
      have h2 := ih (n - n / 2) (by omega) r1.1 (off + n / 2) r1.2 (by rw [l1.1]; omega)
        (by rw [l1.2]; omega)
      generalize e2 : mergeSortHelper r1.1 (off + n / 2) r1.2 (n - n / 2) = r2 at l2 h2
      have ha2 : off + n ≤ r2.1.length := by rw [l2.1, l1.1]; exact ha
      have ht2 : n ≤ r2.2.length := by rw [l2.2, l1.2]; exact ht
      have h3 := mergeLoop1C_eq r2.1 off (n / 2) n (by omega) ha2 r2.2 0 (n / 2) 0 ht2
        (by omega) (by omega) (by omega)
      have hl1 := mergeLoop1_length r2.1 off (n / 2) n r2.2 0 (n / 2) 0
      generalize e3 : mergeLoop1 r2.1 off (n / 2) n r2.2 0 (n / 2) 0 = q1 at h3 hl1
      have h4 := mergeLoop2C_eq r2.1 off (n / 2) n q1.2.2.1 (by omega) ha2 h3.2.2.2 q1.1
        q1.2.1 q1.2.2.2 (by rw [hl1]; exact ht2) h3.2.1 h3.2.2.1
      have hl2 := mergeLoop2_length r2.1 off (n / 2) q1.1 q1.2.1 q1.2.2.2
      generalize e4 : mergeLoop2 r2.1 off (n / 2) q1.1 q1.2.1 q1.2.2.2 = q2 at h4 hl2
      have h5 := mergeLoop3C_eq r2.1 off n ha2 q2.1 q1.2.2.1 q2.2.2
        (by rw [hl2, hl1]; exact ht2) h4.2
      have hl3 := mergeLoop3_length r2.1 off n q2.1 q1.2.2.1 q2.2.2
      generalize e5 : mergeLoop3 r2.1 off n q2.1 q1.2.2.1 q2.2.2 = q3 at h5 hl3
      have h6 := mergeCopyBackC_eq off n q3.1 (by rw [hl3, hl2, hl1]; exact ht2) r2.1 0 ha2
      rw [mergeSortHelper_step a off tmp n hn r1 r2 q1 q2 q3 e1 e2 e3 e4 e5,
        mergeSortHelperC, if_neg hn, h1]
      simp only [h2, h3.1, h4.1, h5, h6]

theorem handleSortRunning_buffers (env : SortEnv) (m : Machine) (now : Nat) (ms : ClockReads) :
    ((handleSortRunning env m now ms).sortBuf, (handleSortRunning env m now ms).mergeTmp)
      = mergeSortHelper
          (sortFill env.random2 m.confirmedN.toNat
            (bubbleSort (sortFill env.random1 m.confirmedN.toNat m.sortBuf 0)
              m.confirmedN.toNat) 0)
          0 m.mergeTmp m.confirmedN.toNat := by
  simp only [handleSortRunning, enterSortState_eq, lcdDo]

/-- The checks of the second reading do fail on an overrun: with 3 elements
and the size 4 each routine makes an access outside the array. -/
theorem checked_access_fails :
    sortFillC (fun _ => 7) 4 [0, 0, 0] 0 = none ∧
    bubbleSortC [3, 2, 1] 4 = none ∧
    mergeSortHelperC [3, 2, 1] 0 [0, 0, 0, 0] 4 = none ∧
    mergeSortHelperC [4, 3, 2, 1] 0 [0, 0, 0] 4 = none := by
  refine ⟨?_, ?_, ?_, ?_⟩
  · simp [sortFillC, wrC]
  · simp [bubbleSortC, bubbleOuterC, bubbleInnerC, bubbleSwapC, rdC, wrC, rd]
  · simp [mergeSortHelperC, mergeLoop1C, mergeLoop2C, mergeLoop3C, mergeCopyBackC, rdC, wrC, rd]
  · simp [mergeSortHelperC, mergeLoop1C, mergeLoop2C, mergeLoop3C, mergeCopyBackC, rdC, wrC, rd]

/-- C21: for `confirmedN = n` at most 500 and the two buffers of 500 elements,
the fill loops of `handleSortRunning`, `bubbleSort(sortBuf, n)` and
`mergeSortHelper(sortBuf, mergeTmp, n)` with all its recursive calls, run with
every access checked against `[0, n)` of the sub-array the routine was given
and against the array, make no failing access and leave the buffers that
`handleSortRunning` leaves; the same holds for each routine on any array that
holds the `n` elements, at any offset. -/
theorem sort_accesses_in_bounds (env : SortEnv) (m : Machine) (now : Nat) (ms : ClockReads)
    (hb : m.sortBuf.length = 500) (ht : m.mergeTmp.length = 500) (hn : m.confirmedN ≤ 500) :
    sortRunC env m
      = some ((handleSortRunning env m now ms).sortBuf,
          (handleSortRunning env m now ms).mergeTmp) ∧
    (handleSortRunning env m now ms).sortBuf.length = 500 ∧
    (handleSortRunning env m now ms).mergeTmp.length = 500 ∧
    (∀ (random : Nat → Int) (n : Nat) (a : List Int), n ≤ a.length →
      sortFillC random n a 0 = some (sortFill random n a 0) ∧
      bubbleSortC a n = some (bubbleSort a n)) ∧
    (∀ (n off : Nat) (a tmp : List Int), off + n ≤ a.length → n ≤ tmp.length →
      mergeSortHelperC a off tmp n = some (mergeSortHelper a off tmp n)) := by
  have hN : m.confirmedN.toNat ≤ 500 := by omega
  have e := handleSortRunning_buffers env m now ms
  have hlen := mergeSortHelper_length m.confirmedN.toNat
    (sortFill env.random2 m.confirmedN.toNat
      (bubbleSort (sortFill env.random1 m.confirmedN.toNat m.sortBuf 0)
        m.confirmedN.toNat) 0) 0 m.mergeTmp
  rw [← e] at hlen
  simp only [sortFill_length, bubbleSort_length] at hlen
  refine ⟨?_, hlen.1.trans hb, hlen.2.trans ht,
    fun random n a h => ⟨sortFillC_eq random n a 0 h, bubbleSortC_eq a n h⟩,
    fun n off a tmp ha ht1 => mergeSortHelperC_eq n a off tmp ha ht1⟩
  rw [e]
  unfold sortRunC
  simp only
  rw [sortFillC_eq _ _ _ 0 (by omega)]
  simp only
  rw [bubbleSortC_eq _ _ (by rw [sortFill_length]; omega)]
  simp only
  rw [sortFillC_eq _ _ _ 0 (by rw [bubbleSort_length, sortFill_length]; omega)]
  simp only
  exact mergeSortHelperC_eq _ _ 0 _
    (by rw [sortFill_length, bubbleSort_length, sortFill_length]; omega) (by omega)

theorem sort_accesses_in_bounds_witness :
    sortRunC sortEnv0 machine0
      = some ((handleSortRunning sortEnv0 machine0 0 ⟨0, 0⟩).sortBuf,
          (handleSortRunning sortEnv0 machine0 0 ⟨0, 0⟩).mergeTmp) :=
  (sort_accesses_in_bounds sortEnv0 machine0 0 ⟨0, 0⟩ (List.length_replicate 500 0)
    (List.length_replicate 500 0) (by decide)).1

/-! ## Theorems: the durations of the sort benchmark -/

/-- C22, as amended: with the durations of the code.  For every tick with
`now ≥ stateEnteredAt` (for `SORT_SHOW_N`: `now ≥ potLastMovedAt`) and no wrap
of the clock, `SORT_TITLE` advances if and only if 1750 ms have elapsed since
entry, `SORT_QUESTION` 2000 ms, `SORT_CONFIRM_N` 1300 ms, `SORT_RESULTS`
3500 ms; `SORT_SHOW_N` locks `N` and advances if and only if the slider has
moved and has been static for 1300 ms; `SORT_WINNER` hands back if and only if
3600 ms have elapsed. -/
theorem sort_durations (env : SortEnv) (m : Machine) (now : Nat) (ms : ClockReads)
    (hnow : now < ULONG_MOD) (hent : m.stateEnteredAt ≤ now) (hmov : m.potLastMovedAt ≤ now) :
    (m.sortState = SortTestState.SORT_TITLE →
      (handleSortTest env m now ms).sortState
        = if now - m.stateEnteredAt ≥ 1750 then SortTestState.SORT_QUESTION
          else SortTestState.SORT_TITLE) ∧
    (m.sortState = SortTestState.SORT_QUESTION →
      (handleSortTest env m now ms).sortState
        = if now - m.stateEnteredAt ≥ 2000 then SortTestState.SORT_SELECT_SIZE
          else SortTestState.SORT_QUESTION) ∧
    (m.sortState = SortTestState.SORT_SHOW_N →
      (handleSortTest env m now ms).sortState
        = (if m.potHasMoved = true ∧ now - m.potLastMovedAt ≥ 1300
            then SortTestState.SORT_CONFIRM_N else SortTestState.SORT_SHOW_N) ∧
      (handleSortTest env m now ms).confirmedN
        = (if m.potHasMoved = true ∧ now - m.potLastMovedAt ≥ 1300
            then m.remappedPotValue else m.confirmedN)) ∧
    (m.sortState = SortTestState.SORT_CONFIRM_N →
      (handleSortTest env m now ms).sortState
        = if now - m.stateEnteredAt ≥ 1300 then SortTestState.SORT_RUNNING
          else SortTestState.SORT_CONFIRM_N) ∧
    (m.sortState = SortTestState.SORT_RESULTS →
      (handleSortTest env m now ms).sortState
        = if now - m.stateEnteredAt ≥ 3500 then SortTestState.SORT_WINNER
          else SortTestState.SORT_RESULTS) ∧
    (m.sortState = SortTestState.SORT_WINNER →
      (handleSortTest env m now ms).appCalls
        = (if now - m.stateEnteredAt ≥ 3600 then m.appCalls ++ [1] else m.appCalls) ∧
      (handleSortTest env m now ms).sortState = SortTestState.SORT_WINNER) := by
  have hu : usub now m.stateEnteredAt = now - m.stateEnteredAt := usub_eq_sub _ _ hnow hent
  have hp : usub now m.potLastMovedAt = now - m.potLastMovedAt := usub_eq_sub _ _ hnow hmov
  refine ⟨?_, ?_, ?_, ?_, ?_, ?_⟩
  · intro hs
    simp only [handleSortTest, hs, handleSortTitle, enterSortState_eq, lcdDo, hu]
    split <;> rfl
  · intro hs
    simp only [handleSortTest, hs, handleSortQuestion, enterSortState_eq, lcdDo, hu]
    split <;> rfl
  · intro hs
    simp only [handleSortTest, hs, handleSortShowN, enterSortState_eq, lcdDo, hp]
    split <;> exact ⟨rfl, rfl⟩
  · intro hs
    simp only [handleSortTest, hs, handleSortConfirmN, enterSortState_eq, lcdDo, hu]
    split <;> rfl
  · intro hs
    simp only [handleSortTest, hs, handleSortResults, enterSortState_eq, lcdDo, hu]
    split <;> rfl
  · intro hs
    have hd : handleSortTest env m now ms = handleSortWinner m now := by
      simp only [handleSortTest, hs]
    have hc := (core_eq_iff _ _).mp (handleSortWinner_core m now)
    rw [hd, handleSortWinner_appCalls, hu]
    exact ⟨rfl, hc.2.2.2.2.2.2.2.2.1.trans hs⟩

theorem sort_durations_witness :
    (1750 < ULONG_MOD ∧ machine0.stateEnteredAt ≤ 1750 ∧ machine0.potLastMovedAt ≤ 1750) ∧
    (handleSortTest sortEnv0 machine0 1750 ⟨1750, 1750⟩).sortState
      = (if 1750 - machine0.stateEnteredAt ≥ 1750 then SortTestState.SORT_QUESTION
         else SortTestState.SORT_TITLE) :=
  ⟨⟨by decide, by decide, by decide⟩,
   (sort_durations sortEnv0 machine0 1750 ⟨1750, 1750⟩ (by decide) (by decide)
      (by decide)).1 rfl⟩

/-- C22 fails as stated: at the durations written on the enumeration no
handler of the sort benchmark transitions.  Each machine entered its state at
time 0 with the slider moved at time 0: `SORT_TITLE` is still current at 750 ms
(and at 1749 ms), `SORT_QUESTION` at 1500 ms, `SORT_SHOW_N` at 750 ms with
`confirmedN` still 10 and not the slider value 200, `SORT_CONFIRM_N` at
1000 ms, `SORT_RESULTS` at 2500 ms, and `SORT_WINNER` has not called
`enterAppState` at 2000 ms. -/
theorem sort_enum_durations_not_used :
    (handleSortTest sortEnv0 (sortAt SortTestState.SORT_TITLE) 750 ⟨750, 750⟩).sortState
      = SortTestState.SORT_TITLE ∧
    (handleSortTest sortEnv0 (sortAt SortTestState.SORT_TITLE) 1749 ⟨1749, 1749⟩).sortState
      = SortTestState.SORT_TITLE ∧
    (handleSortTest sortEnv0 (sortAt SortTestState.SORT_QUESTION) 1500 ⟨1500, 1500⟩).sortState
      = SortTestState.SORT_QUESTION ∧
    (handleSortTest sortEnv0 (sortAt SortTestState.SORT_SHOW_N) 750 ⟨750, 750⟩).sortState
      = SortTestState.SORT_SHOW_N ∧
    (handleSortTest sortEnv0 (sortAt SortTestState.SORT_SHOW_N) 750 ⟨750, 750⟩).confirmedN
      = 10 ∧
    (handleSortTest sortEnv0 (sortAt SortTestState.SORT_CONFIRM_N) 1000 ⟨1000, 1000⟩).sortState
      = SortTestState.SORT_CONFIRM_N ∧
    (handleSortTest sortEnv0 (sortAt SortTestState.SORT_RESULTS) 2500 ⟨2500, 2500⟩).sortState
      = SortTestState.SORT_RESULTS ∧
    (handleSortTest sortEnv0 (sortAt SortTestState.SORT_WINNER) 2000 ⟨2000, 2000⟩).appCalls
      = [] := by
  refine ⟨by decide, by decide, by decide, by decide, by decide, by decide, by decide, ?_⟩
  have hd : handleSortTest sortEnv0 (sortAt SortTestState.SORT_WINNER) 2000 ⟨2000, 2000⟩
      = handleSortWinner (sortAt SortTestState.SORT_WINNER) 2000 := rfl
  rw [hd, handleSortWinner_appCalls]
  decide

/-! ## Theorems: consecutive runs of the calculator -/

theorem crCompute_computed (now : Nat) (m : Machine) : (crCompute now m).computed = true := by
  unfold crCompute
  split
  · rfl
  · rename_i h
    cases hc : m.computed
    · exact absurd (Or.inl hc) h
    · rfl

theorem crFinish_computed (now : Nat) (m : Machine) :
    (crFinish now m).computed
      = if usub now m.stateEnteredAt ≥ 5000 then false else m.computed := by
  unfold crFinish; split <;> rfl

theorem celebReset_computed (ops : List LcdOp) (m : Machine) :
    (celebReset ops m).computed = m.computed := by
  unfold celebReset; split <;> rfl

theorem celebAdvance_computed (now : Nat) (m : Machine) :
    (celebAdvance now m).computed = m.computed := by
  unfold celebAdvance; split <;> rfl

theorem handleCalcResult_computed (dtostrf : FloatVal → List Char) (m : Machine) (now : Nat) :
    (handleCalcResult dtostrf m now).computed
      = if usub now m.stateEnteredAt ≥ 5000 then false else true := by
  have hc : (lcdDo (celebAdvance now (celebReset [LcdOp.createChar 0 0]
      (crPrint dtostrf (crCompute now m)))) [LcdOp.write 0]).core = m.core := by
    rw [lcdDo_core, celebAdvance_core, celebReset_core, crPrint_core, crCompute_core]
  have hk : (lcdDo (celebAdvance now (celebReset [LcdOp.createChar 0 0]
      (crPrint dtostrf (crCompute now m)))) [LcdOp.write 0]).computed = true := by
    show (celebAdvance now _).computed = true
    rw [celebAdvance_computed, celebReset_computed]
    exact crCompute_computed now m
  rw [handleCalcResult_steps, crFinish_computed, stateEnteredAt_of_core _ _ hc, hk]

theorem calcCompute_congr (a b : Machine) (ha : a.calcA = b.calcA) (hb : a.calcB = b.calcB)
    (ho : a.calcOp = b.calcOp) (hv : validOp b.calcOp) : calcCompute a = calcCompute b := by
  unfold calcCompute
  rw [ha, hb, ho]
  rcases hv with h | h | h | h <;> simp [h]

theorem calcCompute_cases (m : Machine) (hv : validOp m.calcOp) :
    (m.calcOp = '+' ∧ calcCompute m = FloatVal.add m.calcA m.calcB) ∨
    (m.calcOp = '-' ∧ calcCompute m = FloatVal.sub m.calcA m.calcB) ∨
    (m.calcOp = '*' ∧ calcCompute m = FloatVal.mul m.calcA m.calcB) ∨
    (m.calcOp = '/' ∧ calcCompute m = FloatVal.div m.calcA m.calcB) := by
  unfold calcCompute
  rcases hv with h | h | h | h <;> simp [h]

theorem validOp_mapPotToOp (p : Int) : validOp (mapPotToOp p) := by
  unfold validOp mapPotToOp
  split_ifs <;> simp

/-- A result tick computes the result of the current operands and operator,
if a result already computed is such a result. -/
theorem handleCalcResult_fresh (dtostrf : FloatVal → List Char) (m : Machine) (now : Nat)
    (h2 : m.computed = true → m.calcResult = calcCompute m) (hv : validOp m.calcOp) :
    (handleCalcResult dtostrf m now).calcResult = calcCompute m ∧
    calcCompute (handleCalcResult dtostrf m now) = calcCompute m := by
  have hc := (core_eq_iff _ _).mp (handleCalcResult_core dtostrf m now)
  refine ⟨?_, calcCompute_congr _ _ hc.2.2.1 hc.2.2.2.1 hc.2.2.2.2.1 hv⟩
  rw [handleCalcResult_calcResult, crCompute_calcResult]
  split
  · rfl
  · rename_i h
    apply h2
    cases hcm : m.computed
    · exact absurd (Or.inl hcm) h
    · rfl

theorem runStart_inv (m : Machine) (ms : ClockReads) (hk : m.computed = false)
    (hv : validOp m.calcOp) (h1 : ms.r1 ≤ ms.r2) (h2 : ms.r2 < ULONG_MOD) :
    RunsInv (runStart m ms) := by
  unfold RunsInv runStart
  simp only [enterCalcState_eq]
  exact ⟨fun _ => hk, fun h => absurd (hk.symm.trans h) (by decide), hv,
    fun h => absurd h (by decide), h1, h2⟩

theorem runTick_handed_of_not_result (dtostrf : FloatVal → List Char) (s : RunState) (t : Tick)
    (hs : s.m.calcState ≠ CalcState.CALC_RESULT) :
    (handleCalculator dtostrf (t.sample s.m) t.now t.ms).appCalls = s.m.appCalls ∧
    (handleCalculator dtostrf (t.sample s.m) t.now t.ms).computed = s.m.computed ∧
    (handleCalculator dtostrf (t.sample s.m) t.now t.ms).calcResult = s.m.calcResult ∧
    ((handleCalculator dtostrf (t.sample s.m) t.now t.ms).stateEnteredAt = s.m.stateEnteredAt ∨
      (handleCalculator dtostrf (t.sample s.m) t.now t.ms).stateEnteredAt = t.ms.r1) ∧
    ((handleCalculator dtostrf (t.sample s.m) t.now t.ms).calcOp = s.m.calcOp ∨
      (handleCalculator dtostrf (t.sample s.m) t.now t.ms).calcOp = mapPotToOp t.potValue) := by
  cases hc : s.m.calcState
  case CALC_RESULT => exact absurd hc hs
  all_goals
    simp only [Tick.sample, samplePot, handleCalculator, hc, handleCalcTitle, handleCalcIntro,
      handleCalcSelectAIntro, handleCalcSelectA, handleCalcSelectBIntro, handleCalcSelectB,
      handleCalcSelectOpIntro, handleCalcSelectOp, enterCalcState_eq, lcdDo]
    split <;> simp

theorem runTick_inv (dtostrf : FloatVal → List Char) (s : RunState) (t : Tick)
    (hI : RunsInv s) (hn : s.clock ≤ t.now) (hc : clockInOrder t.now t.ms) :
    RunsInv (runTick dtostrf s t) := by
  obtain ⟨i1, i2, i3, i4, i5, i6⟩ := hI
  obtain ⟨c1, c2, c3⟩ := hc
  by_cases hs : s.m.calcState = CalcState.CALC_RESULT
  · have hs1 : (t.sample s.m).calcState = CalcState.CALC_RESULT := hs
    have hd : handleCalculator dtostrf (t.sample s.m) t.now t.ms
        = handleCalcResult dtostrf (t.sample s.m) t.now := by
      simp only [handleCalculator, hs1]
    have hcore := (core_eq_iff _ _).mp (handleCalcResult_core dtostrf (t.sample s.m) t.now)
    have hfresh := handleCalcResult_fresh dtostrf (t.sample s.m) t.now i2 i3
    have hcomp := handleCalcResult_computed dtostrf (t.sample s.m) t.now
    have happ := handleCalcResult_appCalls dtostrf (t.sample s.m) t.now
    have hent : (t.sample s.m).stateEnteredAt = s.m.stateEnteredAt := rfl
    have hap0 : (t.sample s.m).appCalls = s.m.appCalls := rfl
    have hu : usub t.now s.m.stateEnteredAt = t.now - s.m.stateEnteredAt :=
      usub_eq_sub _ _ (by omega) (by omega)
    rw [hent, hu] at hcomp happ
    rw [hap0] at happ
    unfold RunsInv runTick
    simp only [hd]
    rw [hcore.1, hcore.2.1, hcore.2.2.2.2.1, hfresh.1, hfresh.2, hcomp, happ]
    refine ⟨fun h => absurd hs1 h, fun _ => rfl, i3, ?_, by rw [hent]; omega, c3⟩
    intro hh
    have h5 : s.m.stateEnteredAt + 5000 ≤ t.now := by
      by_cases hb : s.handed = true
      · have := (i4 hb).2.2
        omega
      · by_cases hge : t.now - s.m.stateEnteredAt ≥ 5000
        · omega
        · rw [if_neg hge] at hh
          simp [hb] at hh
    rw [if_pos (by omega)]
    exact ⟨hs1, rfl, by rw [hent]; omega⟩
  · obtain ⟨a1, a2, a3, a4, a5⟩ := runTick_handed_of_not_result dtostrf s t hs
    have hnh : s.handed = false := by
      cases hb : s.handed
      · rfl
      · exact absurd (i4 hb).1 hs
    unfold RunsInv runTick
    simp only [a1, a2, a3, hnh]
    have hk := i1 hs
    refine ⟨fun _ => hk, fun h => absurd (hk.symm.trans h) (by decide), ?_,
      fun h => by simp at h, ?_, c3⟩
    · rcases a5 with h | h
      · rw [h]; exact i3
      · rw [h]; exact validOp_mapPotToOp _
    · rcases a4 with h | h
      · rw [h]; omega
      · rw [h]; exact c2

theorem calcRuns_inv (dtostrf : FloatVal → List Char) (s : RunState)
    (h : CalcRuns dtostrf s) : RunsInv s := by
  induction h with
  | start m ms hi hc =>
    exact runStart_inv m ms hi.2.2.2.2.2 (Or.inl hi.2.2.2.1) hc.2.1 hc.2.2
  | tick s t _ hn hc ih => exact runTick_inv dtostrf s t ih hn hc
  | restart s m ms _ hh hs hc ih =>
    have hk : m.computed = false := hs.2.2.2.2.2.symm.trans (ih.2.2.2.1 hh).2.1
    have hv : validOp m.calcOp := hs.2.2.2.1 ▸ ih.2.2.1
    exact runStart_inv m ms hk hv hc.2.1 hc.2.2

theorem runTick_locked (dtostrf : FloatVal → List Char) (s : RunState) (t : Tick)
    (hL : LockedInv s) : LockedInv (runTick dtostrf s t) := by
  have hsum := handleCalculator_summary dtostrf (t.sample s.m) t.now t.ms
  have hst : (t.sample s.m).calcState = s.m.calcState := rfl
  have hA : (t.sample s.m).calcA = s.m.calcA := rfl
  have hB : (t.sample s.m).calcB = s.m.calcB := rfl
  have hO : (t.sample s.m).calcOp = s.m.calcOp := rfl
  rw [hst, hA, hB, hO] at hsum
  obtain ⟨h1, _, _, fA, fB, fO, _, _, _⟩ := hsum
  obtain ⟨lA, lB, lO⟩ := hL
  unfold LockedInv runTick
  simp only
  refine ⟨?_, ?_, ?_⟩
  · intro h4
    split
    · rfl
    · rename_i hn
      have hne : s.m.calcState ≠ CalcState.CALC_SELECT_A := by
        intro he
        apply hn
        refine ⟨he, ?_⟩
        intro he2
        rw [he2] at h4
        simp [CalcState.toNat] at h4
      have h3 : s.m.calcState.toNat ≠ 3 := by
        intro h
        apply hne
        cases hc : s.m.calcState <;> simp [hc, CalcState.toNat] at h ⊢
      rw [fA (fun h => hne h.1)]
      exact lA (by omega)
  · intro h6
    split
    · rfl
    · rename_i hn
      have hne : s.m.calcState ≠ CalcState.CALC_SELECT_B := by
        intro he
        apply hn
        refine ⟨he, ?_⟩
        intro he2
        rw [he2] at h6
        simp [CalcState.toNat] at h6
      have h5 : s.m.calcState.toNat ≠ 5 := by
        intro h
        apply hne
        cases hc : s.m.calcState <;> simp [hc, CalcState.toNat] at h ⊢
      rw [fB (fun h => hne h.1)]
      exact lB (by omega)
  · intro h8
    split
    · rfl
    · rename_i hn
      have hne : s.m.calcState ≠ CalcState.CALC_SELECT_OP := by
        intro he
        apply hn
        refine ⟨he, ?_⟩
        intro he2
        rw [he2] at h8
        simp [CalcState.toNat] at h8
      have h7 : s.m.calcState.toNat ≠ 7 := by
        intro h
        apply hne
        cases hc : s.m.calcState <;> simp [hc, CalcState.toNat] at h ⊢
      rw [fO (fun h => hne h.1)]
      exact lO (by omega)

theorem calcRuns_locked (dtostrf : FloatVal → List Char) (s : RunState)
    (h : CalcRuns dtostrf s) : LockedInv s := by
  induction h with
  | start m ms hi hc =>
    unfold LockedInv runStart
    simp only [enterCalcState_eq, CalcState.toNat]
    exact ⟨fun h => absurd h (by decide), fun h => absurd h (by decide),
      fun h => absurd h (by decide)⟩
  | tick s t _ hn hc ih => exact runTick_locked dtostrf s t ih
  | restart s m ms _ hh hs hc ih =>
    unfold LockedInv runStart
    simp only [enterCalcState_eq, CalcState.toNat]
    exact ⟨fun h => absurd h (by decide), fun h => absurd h (by decide),
      fun h => absurd h (by decide)⟩

theorem calcRuns_ticks (dtostrf : FloatVal → List Char) :
    ∀ (ts : List Tick) (s : RunState), CalcRuns dtostrf s → ticksInOrder s.clock ts = true →
      CalcRuns dtostrf (runTicks dtostrf s ts) := by
  intro ts
  induction ts with
  | nil => intro s h _; exact h
  | cons t ts ih =>
    intro s h ho
    simp only [ticksInOrder, Bool.and_eq_true, decide_eq_true_eq] at ho
    exact ih _ (CalcRuns.tick s t h ho.1.1 ho.1.2) ho.2

/-- C24: in consecutive runs of the calculator (`CalcRuns`: the first from the
initial values, each later one after a hand-back, timestamps in order), the
flag `computed` is clear in every state before `CALC_RESULT` and after the tick
that enters `CALC_RESULT`, so it is clear on the first result tick of every
run, and it is clear after a hand-back; at the end of every result tick
`calcResult` is the result of the operator on the operands that were locked in
during the current run, which are the current `calcA`, `calcB`, `calcOp`. -/
theorem calc_result_fresh (dtostrf : FloatVal → List Char) (s : RunState) (t : Tick)
    (h : CalcRuns dtostrf s) :
    (s.m.calcState ≠ CalcState.CALC_RESULT →
      s.m.computed = false ∧
      (handleCalculator dtostrf (t.sample s.m) t.now t.ms).computed = false) ∧
    (s.handed = true → s.m.computed = false) ∧
    (s.m.calcState = CalcState.CALC_RESULT →
      ∃ (a b : Int) (op : Char),
        s.lockedA = some a ∧ s.lockedB = some b ∧ s.lockedOp = some op ∧
        (handleCalculator dtostrf (t.sample s.m) t.now t.ms).calcA = a ∧
        (handleCalculator dtostrf (t.sample s.m) t.now t.ms).calcB = b ∧
        (handleCalculator dtostrf (t.sample s.m) t.now t.ms).calcOp = op ∧
        ((op = '+' ∧ (handleCalculator dtostrf (t.sample s.m) t.now t.ms).calcResult
            = FloatVal.add a b) ∨
          (op = '-' ∧ (handleCalculator dtostrf (t.sample s.m) t.now t.ms).calcResult
            = FloatVal.sub a b) ∨
          (op = '*' ∧ (handleCalculator dtostrf (t.sample s.m) t.now t.ms).calcResult
            = FloatVal.mul a b) ∨
          (op = '/' ∧ (handleCalculator dtostrf (t.sample s.m) t.now t.ms).calcResult
            = FloatVal.div a b))) := by
  obtain ⟨i1, i2, i3, i4, _, _⟩ := calcRuns_inv dtostrf s h
  obtain ⟨lA, lB, lO⟩ := calcRuns_locked dtostrf s h
  refine ⟨fun hs => ⟨i1 hs, ?_⟩, fun hh => (i4 hh).2.1, ?_⟩
  · rw [(runTick_handed_of_not_result dtostrf s t hs).2.1]
    exact i1 hs
  · intro hs
    have hs1 : (t.sample s.m).calcState = CalcState.CALC_RESULT := hs
    have hd : handleCalculator dtostrf (t.sample s.m) t.now t.ms
        = handleCalcResult dtostrf (t.sample s.m) t.now := by
      simp only [handleCalculator, hs1]
    have hcore := (core_eq_iff _ _).mp (handleCalcResult_core dtostrf (t.sample s.m) t.now)
    have hfresh := handleCalcResult_fresh dtostrf (t.sample s.m) t.now i2 i3
    have hcases := calcCompute_cases (t.sample s.m) i3
    have h8 : s.m.calcState.toNat = 8 := by rw [hs]; rfl
    refine ⟨s.m.calcA, s.m.calcB, s.m.calcOp, lA (by omega), lB (by omega), lO (by omega), ?_⟩
    rw [hd, hcore.2.2.1, hcore.2.2.2.1, hcore.2.2.2.2.1, hfresh.1]
    exact ⟨rfl, rfl, rfl, hcases⟩

theorem calc_result_fresh_witness :
    ∃ (a b : Int) (op : Char),
      secondRun.lockedA = some a ∧ secondRun.lockedB = some b ∧ secondRun.lockedOp = some op ∧
      (handleCalculator dtostrfTwo ((settledTickAt 0 181000).sample secondRun.m) 181000
        ⟨181000, 181000⟩).calcA = a ∧
      (handleCalculator dtostrfTwo ((settledTickAt 0 181000).sample secondRun.m) 181000
        ⟨181000, 181000⟩).calcB = b ∧
      (handleCalculator dtostrfTwo ((settledTickAt 0 181000).sample secondRun.m) 181000
        ⟨181000, 181000⟩).calcOp = op ∧
      ((op = '+' ∧ (handleCalculator dtostrfTwo ((settledTickAt 0 181000).sample secondRun.m)
          181000 ⟨181000, 181000⟩).calcResult = FloatVal.add a b) ∨
        (op = '-' ∧ (handleCalculator dtostrfTwo ((settledTickAt 0 181000).sample secondRun.m)
          181000 ⟨181000, 181000⟩).calcResult = FloatVal.sub a b) ∨
        (op = '*' ∧ (handleCalculator dtostrfTwo ((settledTickAt 0 181000).sample secondRun.m)
          181000 ⟨181000, 181000⟩).calcResult = FloatVal.mul a b) ∨
        (op = '/' ∧ (handleCalculator dtostrfTwo ((settledTickAt 0 181000).sample secondRun.m)
          181000 ⟨181000, 181000⟩).calcResult = FloatVal.div a b)) :=
  (calc_result_fresh dtostrfTwo secondRun (settledTickAt 0 181000)
    (calcRuns_ticks dtostrfTwo ticksSecondRun _
      (CalcRuns.restart firstRun firstRun.m ⟨100000, 100000⟩
        (calcRuns_ticks dtostrfTwo (ticksOnePlusOne ++ [settledTick 90000]) _
          (CalcRuns.start machine0 ⟨0, 0⟩ ⟨rfl, rfl, rfl, rfl, rfl, rfl⟩ (by decide))
          (by decide))
        (by decide) ⟨rfl, rfl, rfl, rfl, rfl, rfl⟩ (by decide))
      (by decide))).2.2 (by decide)

/-- The second run of the sample ends in `CALC_RESULT` with the operands 1000
and 1000 and the operator `/` locked in, and its first result tick computes
their quotient, not the sum left by the first run. -/
theorem secondRun_result :
    firstRun.m.calcResult = FloatVal.add 1 1 ∧
    secondRun.m.calcState = CalcState.CALC_RESULT ∧
    secondRun.lockedA = some 1000 ∧ secondRun.lockedB = some 1000 ∧
    secondRun.lockedOp = some '/' ∧
    (handleCalculator dtostrfTwo ((settledTickAt 0 181000).sample secondRun.m) 181000
      ⟨181000, 181000⟩).calcResult = FloatVal.div 1000 1000 := by
  decide

end ClassroomComputer
